import Mathlib

/-!
# ChangeTrust and PathPayment apply semantics

A shallow embedding of `src/transactions/ChangeTrustOpFrame.cpp` and
`src/transactions/PathPaymentOpFrame.cpp`.

* Ledger entries are records; the ledger (database seen through the open
  `LedgerDelta`) is a record of entry lists.  `load*` returns a copy of an entry
  (a frame), `store*` writes a frame back.
* 64-bit amounts are embedded in `Int`; the one place where the range matters
  (`AccountFrame::addBalance`) checks it explicitly.
* A C++ exception or a failed `assert` is a fatal abort: the embedded functions
  return `none` (or `Step.fatal`) there.
* Collaborators whose code is not part of these two files (the order book, the
  createAccount sub-operation, the implicit trustline helper) are fields of
  `Application`.
-/

namespace stellar

/-! ## Data model -/

abbrev AccountID := Nat

def INT64_MAX : Int := 9223372036854775807

def INT64_MIN : Int := -9223372036854775808

inductive Asset where
  | native
  | issued (code : String) (issuer : AccountID)
deriving DecidableEq, Repr

/-- Modelled from the spec: `getIssuer` (declared outside these files) is defined only for
issued assets; on the native asset it fails as a precondition, here `none`. -/
def getIssuer : Asset → Option AccountID
  | .native => none
  | .issued _ issuer => some issuer

structure AccountEntry where
  accountID : AccountID
  balance : Int
  numSubEntries : Int
  authRequired : Bool
deriving DecidableEq, Repr

structure TrustLineEntry where
  accountID : AccountID
  asset : Asset
  balance : Int
  limit : Int
  authorized : Bool
deriving DecidableEq, Repr

structure OfferEntry where
  sellerID : AccountID
  offerID : Nat
  selling : Asset
  buying : Asset
  amount : Int
deriving DecidableEq, Repr

structure ClaimOfferAtom where
  sellerID : AccountID
  offerID : Nat
  assetSold : Asset
  amountSold : Int
  assetBought : Asset
  amountBought : Int
deriving DecidableEq, Repr

/-- The ledger as the operation sees it through its `LedgerDelta`. -/
structure Ledger where
  accounts : List AccountEntry
  trustLines : List TrustLineEntry
  offers : List OfferEntry
deriving DecidableEq, Repr

/-- The part of `LedgerManager` the two operations consult. -/
structure LedgerManager where
  ledgerVersion : Nat
  baseReserve : Int
deriving DecidableEq, Repr

/-! ## Store and frame primitives -/

/-- Modelled from the spec: `AccountFrame::loadAccount` (AccountFrame is outside these files)
returns the current state of the account with the given id, if any. -/
def AccountFrame.loadAccount (id : AccountID) (L : Ledger) : Option AccountEntry :=
  L.accounts.find? (fun a => decide (a.accountID = id))

/-- Modelled from the spec: `TrustFrame::loadTrustLine` (TrustFrame is outside these files)
returns the current state of the trustline keyed by `(accountID, asset)`, if any. -/
def TrustFrame.loadTrustLine (id : AccountID) (asset : Asset) (L : Ledger) :
    Option TrustLineEntry :=
  L.trustLines.find? (fun t => decide (t.accountID = id ∧ t.asset = asset))

/-- Modelled from the spec: `TrustFrame::loadTrustLineIssuer` returns the trustline and the
issuer account, each possibly absent; the issuer is looked up by `getIssuer asset`, which
fails (`none` here) on the native asset. -/
def TrustFrame.loadTrustLineIssuer (id : AccountID) (asset : Asset) (L : Ledger) :
    Option (Option TrustLineEntry × Option AccountEntry) :=
  match getIssuer asset with
  | none => none
  | some issuerID =>
    some (TrustFrame.loadTrustLine id asset L, AccountFrame.loadAccount issuerID L)

/-- Modelled from the spec: `AccountFrame::storeChange` persists the frame over the entry
with the same account id. -/
def AccountFrame.storeChange (a : AccountEntry) (L : Ledger) : Ledger :=
  { L with accounts := L.accounts.map (fun x => if x.accountID = a.accountID then a else x) }

/-- Modelled from the spec: `TrustFrame::storeChange` persists the frame over the entry with
the same `(accountID, asset)` key. -/
def TrustFrame.storeChange (t : TrustLineEntry) (L : Ledger) : Ledger :=
  let same := fun (x : TrustLineEntry) => decide (x.accountID = t.accountID ∧ x.asset = t.asset)
  { L with trustLines := L.trustLines.map (fun x => if same x then t else x) }

/-- Modelled from the spec: `TrustFrame::storeAdd` adds the frame as a new entry. -/
def TrustFrame.storeAdd (t : TrustLineEntry) (L : Ledger) : Ledger :=
  { L with trustLines := L.trustLines ++ [t] }

/-- Modelled from the spec: `TrustFrame::storeDelete` removes the entry with the frame's
`(accountID, asset)` key. -/
def TrustFrame.storeDelete (t : TrustLineEntry) (L : Ledger) : Ledger :=
  let same := fun (x : TrustLineEntry) => decide (x.accountID = t.accountID ∧ x.asset = t.asset)
  { L with trustLines := L.trustLines.filter (fun x => !same x) }

/-- Modelled from the spec: `AccountFrame::getMinimumBalance` is
`(2 + numSubEntries) * baseReserve`. -/
def AccountFrame.getMinimumBalance (lm : LedgerManager) (a : AccountEntry) : Int :=
  (2 + a.numSubEntries) * lm.baseReserve

/-- Modelled from the spec: `AccountFrame::addNumEntries(count)`.  Adding an entry fails
(returns `false`, frame untouched) when the balance would no longer meet the reserve of the
new entry count; removing one is the plain `numSubEntries -= 1` of the deleting path. -/
def AccountFrame.addNumEntries (lm : LedgerManager) (count : Int) (a : AccountEntry) :
    Bool × AccountEntry :=
  let newEntriesCount := a.numSubEntries + count
  if 0 < count ∧ a.balance < (2 + newEntriesCount) * lm.baseReserve then (false, a)
  else (true, { a with numSubEntries := newEntriesCount })

/-- Modelled from the spec: `AccountFrame::addBalance(delta)` fails (`none`) when the new
balance does not fit a signed 64-bit integer.  The call takes no ledger manager: the
reserve is checked by the caller before a debit. -/
def AccountFrame.addBalance (delta : Int) (a : AccountEntry) : Option AccountEntry :=
  let newBalance := a.balance + delta
  if newBalance < INT64_MIN ∨ INT64_MAX < newBalance then none
  else some { a with balance := newBalance }

/-- Modelled from the spec: `TrustFrame::addBalance(delta)` fails (`none`) iff the result
violates `0 ≤ balance ≤ limit`. -/
def TrustFrame.addBalance (delta : Int) (t : TrustLineEntry) : Option TrustLineEntry :=
  let newBalance := t.balance + delta
  if newBalance < 0 ∨ t.limit < newBalance then none
  else some { t with balance := newBalance }

/-- A store operation recorded in the `LedgerDelta`. -/
inductive StoreOp where
  | accountChange (a : AccountEntry)
  | trustAdd (t : TrustLineEntry)
  | trustChange (t : TrustLineEntry)
  | trustDelete (t : TrustLineEntry)
deriving DecidableEq, Repr

def StoreOp.run : StoreOp → Ledger → Ledger
  | .accountChange a, L => AccountFrame.storeChange a L
  | .trustAdd t, L => TrustFrame.storeAdd t L
  | .trustChange t, L => TrustFrame.storeChange t L
  | .trustDelete t, L => TrustFrame.storeDelete t L

/-- Runs the recorded store operations in order. -/
def runStores (ws : List StoreOp) (L : Ledger) : Ledger :=
  ws.foldl (fun acc w => w.run acc) L

/-! ## ChangeTrust -/

structure ChangeTrustOp where
  line : Asset
  limit : Int
deriving DecidableEq, Repr

inductive ChangeTrustResultCode where
  | CHANGE_TRUST_SUCCESS
  | CHANGE_TRUST_MALFORMED
  | CHANGE_TRUST_NO_ISSUER
  | CHANGE_TRUST_INVALID_LIMIT
  | CHANGE_TRUST_LOW_RESERVE
  | CHANGE_TRUST_SELF_NOT_ALLOWED
deriving DecidableEq, Repr

open ChangeTrustResultCode

/-- What `ChangeTrustOpFrame::doApply` leaves behind: its return value, the inner result
code, the store operations it performed (in order), the ledger they produce and the
in-memory source account frame. -/
structure ChangeTrustApplied where
  ret : Bool
  code : ChangeTrustResultCode
  stores : List StoreOp
  ledger : Ledger
  mSourceAccount : AccountEntry
deriving DecidableEq, Repr

/-- A `return false` of `ChangeTrustOpFrame::doApply`: no store has been executed. -/
def ChangeTrustOpFrame.failed (code : ChangeTrustResultCode) (mSourceAccount : AccountEntry)
    (L : Ledger) : ChangeTrustApplied :=
  { ret := false, code := code, stores := [], ledger := L, mSourceAccount := mSourceAccount }

/-- A `return true` of `ChangeTrustOpFrame::doApply` after the given stores. -/
def ChangeTrustOpFrame.succeeded (stores : List StoreOp) (mSourceAccount : AccountEntry)
    (L : Ledger) : ChangeTrustApplied :=
  { ret := true, code := CHANGE_TRUST_SUCCESS, stores := stores,
    ledger := runStores stores L, mSourceAccount := mSourceAccount }

/-- The self-trust guard of `doApply`: ledger version above 2, issuer present and equal to
the source. -/
def ChangeTrustOpFrame.selfTrust (lm : LedgerManager) (issuer : Option AccountEntry)
    (sourceID : AccountID) : Bool :=
  decide (lm.ledgerVersion > 2) &&
    (match issuer with
     | some i => decide (i.accountID = sourceID)
     | none => false)

/-- The function `ChangeTrustOpFrame::doApply`.  `none` is the fatal abort of the trustline lookup on a
native line. -/
def ChangeTrustOpFrame.doApply (lm : LedgerManager) (mChangeTrust : ChangeTrustOp)
    (mSourceAccount : AccountEntry) (L : Ledger) : Option ChangeTrustApplied :=
  match TrustFrame.loadTrustLineIssuer mSourceAccount.accountID mChangeTrust.line L with
  | none => none
  | some (mTrustLine, issuer) =>
    if ChangeTrustOpFrame.selfTrust lm issuer mSourceAccount.accountID then
      some (ChangeTrustOpFrame.failed CHANGE_TRUST_SELF_NOT_ALLOWED mSourceAccount L)
    else
      match mTrustLine with
      | some tl =>
        if mChangeTrust.limit < tl.balance then
          some (ChangeTrustOpFrame.failed CHANGE_TRUST_INVALID_LIMIT mSourceAccount L)
        else if mChangeTrust.limit = 0 then
          let src := (AccountFrame.addNumEntries lm (-1) mSourceAccount).2
          some (ChangeTrustOpFrame.succeeded
            [StoreOp.trustDelete tl, StoreOp.accountChange src] src L)
        else
          match issuer with
          | none => some (ChangeTrustOpFrame.failed CHANGE_TRUST_NO_ISSUER mSourceAccount L)
          | some _ =>
            some (ChangeTrustOpFrame.succeeded
              [StoreOp.trustChange { tl with limit := mChangeTrust.limit }] mSourceAccount L)
      | none =>
        if mChangeTrust.limit = 0 then
          some (ChangeTrustOpFrame.failed CHANGE_TRUST_INVALID_LIMIT mSourceAccount L)
        else
          match issuer with
          | none => some (ChangeTrustOpFrame.failed CHANGE_TRUST_NO_ISSUER mSourceAccount L)
          | some i =>
            let tl : TrustLineEntry :=
              { accountID := mSourceAccount.accountID, asset := mChangeTrust.line,
                limit := mChangeTrust.limit, balance := 0, authorized := !i.authRequired }
            match AccountFrame.addNumEntries lm 1 mSourceAccount with
            | (false, _) =>
              some (ChangeTrustOpFrame.failed CHANGE_TRUST_LOW_RESERVE mSourceAccount L)
            | (true, src) =>
              some (ChangeTrustOpFrame.succeeded
                [StoreOp.accountChange src, StoreOp.trustAdd tl] src L)

/-- The function `ChangeTrustOpFrame::doCheckValid`: the return value and, on `false`, the result code.
`isAssetValid` is declared outside these files and taken as a parameter. -/
def ChangeTrustOpFrame.doCheckValid (lm : LedgerManager) (isAssetValid : Asset → Bool)
    (mChangeTrust : ChangeTrustOp) : Bool × Option ChangeTrustResultCode :=
  if mChangeTrust.limit < 0 then (false, some CHANGE_TRUST_MALFORMED)
  else if !isAssetValid mChangeTrust.line then (false, some CHANGE_TRUST_MALFORMED)
  else if lm.ledgerVersion > 9 ∧ mChangeTrust.line = Asset.native then
    (false, some CHANGE_TRUST_MALFORMED)
  else (true, none)

/-! ## PathPayment: data -/

structure PathPaymentOp where
  sendAsset : Asset
  sendMax : Int
  destination : AccountID
  destAsset : Asset
  destAmount : Int
  path : List Asset
deriving DecidableEq, Repr

inductive PathPaymentResultCode where
  | PATH_PAYMENT_SUCCESS
  | PATH_PAYMENT_MALFORMED
  | PATH_PAYMENT_UNDERFUNDED
  | PATH_PAYMENT_SRC_NO_TRUST
  | PATH_PAYMENT_SRC_NOT_AUTHORIZED
  | PATH_PAYMENT_NO_DESTINATION
  | PATH_PAYMENT_NO_TRUST
  | PATH_PAYMENT_NOT_AUTHORIZED
  | PATH_PAYMENT_LINE_FULL
  | PATH_PAYMENT_NO_ISSUER
  | PATH_PAYMENT_TOO_FEW_OFFERS
  | PATH_PAYMENT_OFFER_CROSS_SELF
  | PATH_PAYMENT_OVER_SENDMAX
deriving DecidableEq, Repr

open PathPaymentResultCode

structure SimplePaymentResult where
  destination : AccountID
  asset : Asset
  amount : Int
deriving DecidableEq, Repr

/-- A default-constructed `SimplePaymentResult`. -/
def SimplePaymentResult.empty : SimplePaymentResult :=
  { destination := 0, asset := Asset.native, amount := 0 }

/-- The inner result of the operation, a union discriminated by the result code: the
`success` arm carries the claimed offers and the last payment, the `noIssuer` arm the asset
whose issuer is missing, every other code has no body. -/
inductive PathPaymentResult where
  | success (offers : List ClaimOfferAtom) (last : SimplePaymentResult)
  | noIssuer (asset : Asset)
  | void (code : PathPaymentResultCode)
deriving DecidableEq, Repr

def PathPaymentResult.code : PathPaymentResult → PathPaymentResultCode
  | .success _ _ => PATH_PAYMENT_SUCCESS
  | .noIssuer _ => PATH_PAYMENT_NO_ISSUER
  | .void c => c

/-- The setter `innerResult().code(c)`: selects the arm of `c`; the body is kept when the arm
does not change and default-constructed otherwise. -/
def PathPaymentResult.setCode (c : PathPaymentResultCode) (r : PathPaymentResult) :
    PathPaymentResult :=
  match c with
  | PATH_PAYMENT_SUCCESS =>
    (match r with
     | .success offers last => .success offers last
     | _ => .success [] SimplePaymentResult.empty)
  | PATH_PAYMENT_NO_ISSUER =>
    (match r with
     | .noIssuer a => .noIssuer a
     | _ => .noIssuer Asset.native)
  | other => .void other

/-- The assignment `innerResult().success().last = last`; the accessor throws (`none`) when
another arm is selected. -/
def PathPaymentResult.setLast (last : SimplePaymentResult) :
    PathPaymentResult → Option PathPaymentResult
  | .success offers _ => some (.success offers last)
  | _ => none

/-- The insertion of an offer trail in front of `innerResult().success().offers`; the
accessor throws (`none`) when another arm is selected. -/
def PathPaymentResult.insertOffers (trail : List ClaimOfferAtom) :
    PathPaymentResult → Option PathPaymentResult
  | .success offers last => some (.success (trail ++ offers) last)
  | _ => none

inductive ConvertResult where
  | eOK
  | ePartial
  | eFilterStop
deriving DecidableEq, Repr

inductive OfferFilterResult where
  | eKeep
  | eStop
deriving DecidableEq, Repr

/-- What one call of `OfferExchange::convertWithOffers` leaves behind: the conversion
result, the two output amounts, the offer trail, the offers it handed to the filter (in
order) and the ledger after its writes. -/
structure ConvertOutcome where
  result : ConvertResult
  curASent : Int
  actualCurBReceived : Int
  offerTrail : List ClaimOfferAtom
  filtered : List OfferEntry
  ledger : Ledger
deriving DecidableEq, Repr

inductive OperationResultCode where
  | opINNER
  | opBAD_AUTH
  | opNO_ACCOUNT
deriving DecidableEq, Repr

inductive CreateAccountResultCode where
  | CREATE_ACCOUNT_SUCCESS
  | CREATE_ACCOUNT_MALFORMED
  | CREATE_ACCOUNT_UNDERFUNDED
  | CREATE_ACCOUNT_LOW_RESERVE
  | CREATE_ACCOUNT_ALREADY_EXIST
  | CREATE_ACCOUNT_UNDERAUTHORIZED
  | CREATE_ACCOUNT_WRONG_TYPE
  | other (n : Int)
deriving DecidableEq, Repr

inductive AccountType where
  | CLIENT
  | otherType (n : Nat)
deriving DecidableEq, Repr

structure CreateAccountOp where
  destination : AccountID
  accountType : AccountType
  startingBalance : Int
deriving DecidableEq, Repr

/-- What running the createAccount sub-operation leaves behind: the values of
`doCheckValid` and `doApply` (the latter only runs after a successful check), its result
code and inner code, `getDestAccount()`, the ledger after its writes and the source account
frame it shares with the path payment. -/
structure CreateAccountRun where
  checkValid : Bool
  applied : Bool
  resultCode : OperationResultCode
  innerCode : CreateAccountResultCode
  destAccount : Option AccountEntry
  ledger : Ledger
  sourceAccount : AccountEntry
deriving DecidableEq, Repr

/-- The collaborators of the path payment whose code is outside these files. -/
structure Application where
  /-- The sub-operation `CreateAccountOpFrame` run on the source account frame. -/
  createAccount : CreateAccountOp → AccountEntry → Ledger → CreateAccountRun
  /-- The helper `OperationFrame::createTrustLine` on the destination frame: the line (or
  null) and the ledger after its writes. -/
  createTrustLine : AccountEntry → Asset → Ledger → Option TrustLineEntry × Ledger
  /-- The call `OfferExchange::convertWithOffers(sheep, maxSheepSend, wheat,
  maxWheatReceive, flag, filter)` on the current ledger. -/
  convertWithOffers : Asset → Int → Asset → Int → Bool → (OfferEntry → OfferFilterResult) →
    Ledger → ConvertOutcome

/-- The local state of `PathPaymentOpFrame::doApply`.  `conversions` is an observer that is
not in the source: it counts the calls of `convertWithOffers` made so far. -/
structure ApplyState where
  curB : Asset
  curBReceived : Int
  innerResult : PathPaymentResult
  ledger : Ledger
  mSourceAccount : AccountEntry
  conversions : Nat
deriving DecidableEq, Repr

/-- How far a `doApply` has come: aborted fatally, returned `false` in the given state, or
still running with a value. -/
inductive Step (α : Type) where
  | fatal
  | fail (st : ApplyState)
  | next (a : α)
deriving DecidableEq

def Step.bind {α β : Type} : Step α → (α → Step β) → Step β
  | .fatal, _ => .fatal
  | .fail st, _ => .fail st
  | .next a, f => f a

/-- The statement pair `innerResult().code(c); return false;`. -/
def ApplyState.failWith {α : Type} (c : PathPaymentResultCode) (st : ApplyState) : Step α :=
  .fail { st with innerResult := st.innerResult.setCode c }

/-- The statements `innerResult().code(NO_ISSUER); innerResult().noIssuer() = a;
return false;`. -/
def ApplyState.failNoIssuer {α : Type} (a : Asset) (st : ApplyState) : Step α :=
  .fail { st with innerResult := PathPaymentResult.noIssuer a }

/-- What `PathPaymentOpFrame::doApply` leaves behind when it returns: its return value, the
inner result, the ledger, the in-memory source account frame and the number of calls of
`convertWithOffers` it made. -/
structure PathPaymentApplied where
  ret : Bool
  innerResult : PathPaymentResult
  ledger : Ledger
  mSourceAccount : AccountEntry
  conversions : Nat
deriving DecidableEq, Repr

/-! ## PathPayment: apply -/

/-- The flag `bypassIssuerCheck` of `doApply`. -/
def PathPaymentOpFrame.bypassIssuerCheck (mPathPayment : PathPaymentOp) : Bool :=
  decide (mPathPayment.destAsset ≠ Asset.native) &&
  decide ((mPathPayment.sendAsset :: mPathPayment.path).length = 1) &&
  decide (mPathPayment.sendAsset = mPathPayment.destAsset) &&
  decide (getIssuer mPathPayment.destAsset = some mPathPayment.destination)

/-- The function `PathPaymentOpFrame::createDestination`: runs the createAccount
sub-operation with `startingBalance = 20`; yields the created account (or null for the
three tolerated failures) with the ledger and source frame the sub-operation left, and
aborts fatally on any other failure. -/
def PathPaymentOpFrame.createDestination (app : Application) (mPathPayment : PathPaymentOp)
    (mSourceAccount : AccountEntry) (L : Ledger) :
    Option (Option AccountEntry × Ledger × AccountEntry) :=
  let caOp : CreateAccountOp :=
    { destination := mPathPayment.destination, accountType := AccountType.CLIENT,
      startingBalance := 20 }
  let run := app.createAccount caOp mSourceAccount L
  if !run.checkValid || !run.applied then
    if run.resultCode ≠ OperationResultCode.opINNER then none
    else
      match run.innerCode with
      | .CREATE_ACCOUNT_UNDERFUNDED => some (none, run.ledger, run.sourceAccount)
      | .CREATE_ACCOUNT_LOW_RESERVE => some (none, run.ledger, run.sourceAccount)
      | .CREATE_ACCOUNT_UNDERAUTHORIZED => some (none, run.ledger, run.sourceAccount)
      | _ => none
  else some (run.destAccount, run.ledger, run.sourceAccount)

/-- The per-offer filter handed to the exchange: on an offer of the source account it sets
the result code to `OFFER_CROSS_SELF` and stops, otherwise it keeps the offer. -/
def PathPaymentOpFrame.offerFilter (sourceID : AccountID) (o : OfferEntry)
    (innerResult : PathPaymentResult) : OfferFilterResult × PathPaymentResult :=
  if o.sellerID = sourceID then
    (OfferFilterResult.eStop, innerResult.setCode PATH_PAYMENT_OFFER_CROSS_SELF)
  else (OfferFilterResult.eKeep, innerResult)

/-- First part of `doApply`: loads the destination, creating it (and, for an issued
destination asset, its trustline) when absent, and reloads it unless `bypassIssuerCheck`.
Yields the destination frame. -/
def PathPaymentOpFrame.resolveDestination (app : Application) (mPathPayment : PathPaymentOp)
    (st : ApplyState) : Step (AccountEntry × ApplyState) :=
  let created : Step (AccountEntry × ApplyState) :=
    match AccountFrame.loadAccount mPathPayment.destination st.ledger with
    | some destination => .next (destination, st)
    | none =>
      match PathPaymentOpFrame.createDestination app mPathPayment st.mSourceAccount
          st.ledger with
      | none => .fatal
      | some (none, L1, src1) =>
        ApplyState.failWith PATH_PAYMENT_NO_DESTINATION
          { st with ledger := L1, mSourceAccount := src1 }
      | some (some destination, L1, src1) =>
        if st.curB ≠ Asset.native then
          match app.createTrustLine destination mPathPayment.destAsset L1 with
          | (none, L2) =>
            ApplyState.failWith PATH_PAYMENT_NO_DESTINATION
              { st with ledger := L2, mSourceAccount := src1 }
          | (some _, L2) => .next (destination, { st with ledger := L2, mSourceAccount := src1 })
        else .next (destination, { st with ledger := L1, mSourceAccount := src1 })
  created.bind fun (destination, st1) =>
    if !PathPaymentOpFrame.bypassIssuerCheck mPathPayment then
      match AccountFrame.loadAccount mPathPayment.destination st1.ledger with
      | none => ApplyState.failWith PATH_PAYMENT_NO_DESTINATION st1
      | some reloaded => .next (reloaded, st1)
    else .next (destination, st1)

/-- Second part of `doApply`: credits the destination with `curBReceived` of `curB` and
records `success().last`. -/
def PathPaymentOpFrame.creditDestination (mPathPayment : PathPaymentOp)
    (destination : AccountEntry) (st : ApplyState) : Step ApplyState :=
  let credited : Step ApplyState :=
    if st.curB = Asset.native then
      match AccountFrame.addBalance st.curBReceived destination with
      | none => ApplyState.failWith PATH_PAYMENT_MALFORMED st
      | some dest1 => .next { st with ledger := AccountFrame.storeChange dest1 st.ledger }
    else
      let destLine : Step (Option TrustLineEntry) :=
        if PathPaymentOpFrame.bypassIssuerCheck mPathPayment then
          .next (TrustFrame.loadTrustLine mPathPayment.destination st.curB st.ledger)
        else
          match TrustFrame.loadTrustLineIssuer mPathPayment.destination st.curB st.ledger with
          | none => .fatal
          | some (_, none) => ApplyState.failNoIssuer st.curB st
          | some (line, some _) => .next line
      destLine.bind fun line =>
        match line with
        | none => ApplyState.failWith PATH_PAYMENT_NO_TRUST st
        | some tl =>
          if !tl.authorized then ApplyState.failWith PATH_PAYMENT_NOT_AUTHORIZED st
          else
            match TrustFrame.addBalance st.curBReceived tl with
            | none => ApplyState.failWith PATH_PAYMENT_LINE_FULL st
            | some tl1 => .next { st with ledger := TrustFrame.storeChange tl1 st.ledger }
  credited.bind fun st1 =>
    match st1.innerResult.setLast
        { destination := mPathPayment.destination, asset := st1.curB,
          amount := st1.curBReceived } with
    | none => .fatal
    | some r => .next { st1 with innerResult := r }

/-- The call of `convertWithOffers` made by the loop of `doApply` for the hop from `curA` to
`curB`: sell `curA` without limit to receive `curBReceived` of `curB`, with the filter on
the source's own offers. -/
def PathPaymentOpFrame.convert (app : Application) (curA : Asset) (st : ApplyState) :
    ConvertOutcome :=
  app.convertWithOffers curA INT64_MAX st.curB st.curBReceived true
    (fun o => (PathPaymentOpFrame.offerFilter st.mSourceAccount.accountID o st.innerResult).1)
    st.ledger

/-- The inner result after the filter has run on the given offers, in order. -/
def PathPaymentOpFrame.afterFilter (sourceID : AccountID) (offers : List OfferEntry)
    (innerResult : PathPaymentResult) : PathPaymentResult :=
  offers.foldl (fun r o => (PathPaymentOpFrame.offerFilter sourceID o r).2) innerResult

/-- One iteration of the backward loop of `doApply`, on the path asset `curA`. -/
def PathPaymentOpFrame.hop (app : Application) (curA : Asset) (st : ApplyState) :
    Step ApplyState :=
  if curA = st.curB then .next st
  else
    let issuerMissing : Bool :=
      decide (curA ≠ Asset.native) &&
        (match getIssuer curA with
         | some issuerID => (AccountFrame.loadAccount issuerID st.ledger).isNone
         | none => false)
    if issuerMissing then ApplyState.failNoIssuer curA st
    else
      let oe := PathPaymentOpFrame.convert app curA st
      let st1 : ApplyState :=
        { st with
          innerResult := PathPaymentOpFrame.afterFilter st.mSourceAccount.accountID
            oe.filtered st.innerResult,
          ledger := oe.ledger, conversions := st.conversions + 1 }
      if oe.curASent < 0 then .fatal
      else
        match oe.result with
        | .eFilterStop => .fail st1
        | .ePartial => ApplyState.failWith PATH_PAYMENT_TOO_FEW_OFFERS st1
        | .eOK =>
          if st.curBReceived = oe.actualCurBReceived then
            match st1.innerResult.insertOffers oe.offerTrail with
            | none => .fatal
            | some r =>
              .next { st1 with curBReceived := oe.curASent, curB := curA, innerResult := r }
          else ApplyState.failWith PATH_PAYMENT_TOO_FEW_OFFERS st1

/-- The backward loop of `doApply` over the assets in the order it visits them (the
reversed full path). -/
def PathPaymentOpFrame.walk (app : Application) : List Asset → ApplyState → Step ApplyState
  | [], st => .next st
  | curA :: rest, st =>
    (PathPaymentOpFrame.hop app curA st).bind (PathPaymentOpFrame.walk app rest)

/-- Last part of `doApply`: the `sendMax` check and the debit of the source. -/
def PathPaymentOpFrame.debitSource (lm : LedgerManager) (mPathPayment : PathPaymentOp)
    (st : ApplyState) : Step ApplyState :=
  let curBSent := st.curBReceived
  if curBSent > mPathPayment.sendMax then ApplyState.failWith PATH_PAYMENT_OVER_SENDMAX st
  else if st.curB = Asset.native then
    let reload := decide (lm.ledgerVersion > 7)
    let loaded : Option AccountEntry :=
      if reload then AccountFrame.loadAccount st.mSourceAccount.accountID st.ledger
      else some st.mSourceAccount
    match loaded with
    | none => ApplyState.failWith PATH_PAYMENT_MALFORMED st
    | some sourceAccount =>
      let minBalance := AccountFrame.getMinimumBalance lm sourceAccount
      if sourceAccount.balance - curBSent < minBalance then
        ApplyState.failWith PATH_PAYMENT_UNDERFUNDED st
      else
        match AccountFrame.addBalance (-curBSent) sourceAccount with
        | none => .fatal
        | some debited =>
          .next { st with
            ledger := AccountFrame.storeChange debited st.ledger,
            mSourceAccount := if reload then st.mSourceAccount else debited }
  else
    let sourceLineFrame : Step (Option TrustLineEntry) :=
      if PathPaymentOpFrame.bypassIssuerCheck mPathPayment then
        .next (TrustFrame.loadTrustLine st.mSourceAccount.accountID st.curB st.ledger)
      else
        match TrustFrame.loadTrustLineIssuer st.mSourceAccount.accountID st.curB st.ledger with
        | none => .fatal
        | some (_, none) => ApplyState.failNoIssuer st.curB st
        | some (line, some _) => .next line
    sourceLineFrame.bind fun line =>
      match line with
      | none => ApplyState.failWith PATH_PAYMENT_SRC_NO_TRUST st
      | some tl =>
        if !tl.authorized then ApplyState.failWith PATH_PAYMENT_SRC_NOT_AUTHORIZED st
        else
          match TrustFrame.addBalance (-curBSent) tl with
          | none => ApplyState.failWith PATH_PAYMENT_UNDERFUNDED st
          | some tl1 => .next { st with ledger := TrustFrame.storeChange tl1 st.ledger }

/-- The state `doApply` starts from: result code set to `SUCCESS`, `curB = destAsset`,
`curBReceived = destAmount`. -/
def PathPaymentOpFrame.initial (mPathPayment : PathPaymentOp) (mSourceAccount : AccountEntry)
    (L : Ledger) : ApplyState :=
  { curB := mPathPayment.destAsset, curBReceived := mPathPayment.destAmount,
    innerResult := PathPaymentResult.success [] SimplePaymentResult.empty,
    ledger := L, mSourceAccount := mSourceAccount, conversions := 0 }

/-- The state of `doApply` when the backward loop is left, if it gets that far. -/
def PathPaymentOpFrame.traverse (app : Application) (mPathPayment : PathPaymentOp)
    (mSourceAccount : AccountEntry) (L : Ledger) : Step ApplyState :=
  (PathPaymentOpFrame.resolveDestination app mPathPayment
      (PathPaymentOpFrame.initial mPathPayment mSourceAccount L)).bind fun (destination, st) =>
    (PathPaymentOpFrame.creditDestination mPathPayment destination st).bind fun st1 =>
      PathPaymentOpFrame.walk app (mPathPayment.sendAsset :: mPathPayment.path).reverse st1

/-- Turns the end of a run into what the caller of `doApply` observes. -/
def Step.applied : Step ApplyState → Option PathPaymentApplied
  | .fatal => none
  | .fail st =>
    some { ret := false, innerResult := st.innerResult, ledger := st.ledger,
           mSourceAccount := st.mSourceAccount, conversions := st.conversions }
  | .next st =>
    some { ret := true, innerResult := st.innerResult, ledger := st.ledger,
           mSourceAccount := st.mSourceAccount, conversions := st.conversions }

/-- The function `PathPaymentOpFrame::doApply`; `none` is a fatal abort. -/
def PathPaymentOpFrame.doApply (app : Application) (lm : LedgerManager)
    (mPathPayment : PathPaymentOp) (mSourceAccount : AccountEntry) (L : Ledger) :
    Option PathPaymentApplied :=
  ((PathPaymentOpFrame.traverse app mPathPayment mSourceAccount L).bind
    (PathPaymentOpFrame.debitSource lm mPathPayment)).applied

/-- The function `PathPaymentOpFrame::doCheckValid`: the return value and, on `false`, the
result code.  `isAssetValid` is declared outside these files and taken as a parameter. -/
def PathPaymentOpFrame.doCheckValid (isAssetValid : Asset → Bool)
    (mPathPayment : PathPaymentOp) : Bool × Option PathPaymentResultCode :=
  if mPathPayment.destAmount ≤ 0 ∨ mPathPayment.sendMax ≤ 0 then
    (false, some PATH_PAYMENT_MALFORMED)
  else if !isAssetValid mPathPayment.sendAsset || !isAssetValid mPathPayment.destAsset then
    (false, some PATH_PAYMENT_MALFORMED)
  else if !mPathPayment.path.all isAssetValid then (false, some PATH_PAYMENT_MALFORMED)
  else (true, none)

/-- Modelled from the spec: the caller of `doApply` (`OperationFrame::apply`, outside these
files) hands it a scoped `LedgerDelta`; on success the writes are committed, on failure the
delta is discarded and the caller's view of the ledger is restored. -/
def PathPaymentOpFrame.apply (app : Application) (lm : LedgerManager)
    (mPathPayment : PathPaymentOp) (mSourceAccount : AccountEntry) (L : Ledger) :
    Option PathPaymentApplied :=
  match PathPaymentOpFrame.doApply app lm mPathPayment mSourceAccount L with
  | none => none
  | some out => if out.ret then some out else some { out with ledger := L }

/-- The createAccount operation that `createDestination` builds: the path payment's
destination, account type CLIENT, starting balance 20. -/
def PathPaymentOpFrame.createAccountOp (mPathPayment : PathPaymentOp) : CreateAccountOp :=
  { destination := mPathPayment.destination, accountType := AccountType.CLIENT,
    startingBalance := 20 }

/-- The state of `doApply` when it enters the backward loop: destination resolved and
credited, `success().last` recorded. -/
def PathPaymentOpFrame.credited (app : Application) (mPathPayment : PathPaymentOp)
    (mSourceAccount : AccountEntry) (L : Ledger) : Step ApplyState :=
  (PathPaymentOpFrame.resolveDestination app mPathPayment
      (PathPaymentOpFrame.initial mPathPayment mSourceAccount L)).bind fun (destination, st) =>
    PathPaymentOpFrame.creditDestination mPathPayment destination st

/-- The conversions of a completed run of the backward loop from state `st` over the assets
`xs` (in the order the loop visits them): for every hop that called the exchange, the asset
sold and what the exchange returned.  A hop whose asset is the current asset adds nothing;
the list ends where the loop stops. -/
def PathPaymentOpFrame.conversionsOf (app : Application) :
    List Asset → ApplyState → List (Asset × ConvertOutcome)
  | [], _ => []
  | curA :: rest, st =>
    match PathPaymentOpFrame.hop app curA st with
    | .next st1 =>
      (if curA = st.curB then [] else [(curA, PathPaymentOpFrame.convert app curA st)]) ++
        PathPaymentOpFrame.conversionsOf app rest st1
    | _ => []

/-- The sum of the native balances of all accounts. -/
def nativeSum (L : Ledger) : Int :=
  (L.accounts.map (fun a => a.balance)).sum

/-- No trustline is held by the issuer of its own asset. -/
def noSelfTrustLine (L : Ledger) : Prop :=
  ∀ t ∈ L.trustLines, getIssuer t.asset ≠ some t.accountID

instance (L : Ledger) : Decidable (noSelfTrustLine L) := by
  unfold noSelfTrustLine; infer_instance

/-- Every trustline satisfies `0 ≤ balance ≤ limit`. -/
def trustLinesBounded (L : Ledger) : Prop :=
  ∀ t ∈ L.trustLines, 0 ≤ t.balance ∧ t.balance ≤ t.limit

instance (L : Ledger) : Decidable (trustLinesBounded L) := by
  unfold trustLinesBounded; infer_instance

/-- A sequence of ChangeTrust applies, each with its ledger manager, operation and source
account frame, run one after the other; a step that aborts leaves the ledger as it was. -/
def ChangeTrustOpFrame.applyAll :
    List (LedgerManager × ChangeTrustOp × AccountEntry) → Ledger → Ledger
  | [], L => L
  | (lm, op, src) :: rest, L =>
    match ChangeTrustOpFrame.doApply lm op src L with
    | none => ChangeTrustOpFrame.applyAll rest L
    | some out => ChangeTrustOpFrame.applyAll rest out.ledger

/-! ## Sample ledgers and collaborators

Concrete data on which the statements below are evaluated. -/

namespace Sample

def usd : Asset := Asset.issued "USD" 9

def alice : AccountEntry :=
  { accountID := 1, balance := 1000, numSubEntries := 0, authRequired := false }

def bob : AccountEntry :=
  { accountID := 2, balance := 100, numSubEntries := 1, authRequired := false }

def carol : AccountEntry :=
  { accountID := 3, balance := 500, numSubEntries := 2, authRequired := false }

def issuer : AccountEntry :=
  { accountID := 9, balance := 100, numSubEntries := 0, authRequired := false }

def bobLine : TrustLineEntry :=
  { accountID := 2, asset := usd, balance := 100, limit := 1000, authorized := true }

def carolLine : TrustLineEntry :=
  { accountID := 3, asset := usd, balance := 500, limit := 1000, authorized := true }

/-- Carol sells 100 USD for native. -/
def carolOffer : OfferEntry :=
  { sellerID := 3, offerID := 1, selling := usd, buying := Asset.native, amount := 100 }

/-- Alice, Bob, Carol and the issuer; Bob and Carol hold USD; Carol's offer is in the book. -/
def ledger : Ledger :=
  { accounts := [alice, bob, carol, issuer], trustLines := [bobLine, carolLine],
    offers := [carolOffer] }

def lm7 : LedgerManager := { ledgerVersion := 7, baseReserve := 10 }

def lm8 : LedgerManager := { ledgerVersion := 8, baseReserve := 10 }

/-- A small exchange: it takes the first offer selling `wheat` for `sheep`, hands it to the
filter, and fills the whole need from it at two wheat per sheep, moving the wheat out of
the seller's trustline and the sheep (native) into the seller's account. -/
def convertWithOffers (sheep : Asset) (_maxSheepSend : Int) (wheat : Asset)
    (maxWheatReceive : Int) (_flag : Bool) (filter : OfferEntry → OfferFilterResult)
    (L : Ledger) : ConvertOutcome :=
  let nothing (seen : List OfferEntry) (r : ConvertResult) : ConvertOutcome :=
    { result := r, curASent := 0, actualCurBReceived := 0, offerTrail := [],
      filtered := seen, ledger := L }
  match L.offers.find? (fun o => decide (o.selling = wheat ∧ o.buying = sheep)) with
  | none => nothing [] ConvertResult.ePartial
  | some o =>
    if filter o = OfferFilterResult.eStop then nothing [o] ConvertResult.eFilterStop
    else if o.amount < maxWheatReceive then nothing [o] ConvertResult.ePartial
    else
      match TrustFrame.loadTrustLine o.sellerID wheat L,
          AccountFrame.loadAccount o.sellerID L with
      | some line, some seller =>
        { result := ConvertResult.eOK, curASent := maxWheatReceive / 2,
          actualCurBReceived := maxWheatReceive,
          offerTrail :=
            [{ sellerID := o.sellerID, offerID := o.offerID, assetSold := wheat,
               amountSold := maxWheatReceive, assetBought := sheep,
               amountBought := maxWheatReceive / 2 }],
          filtered := [o],
          ledger :=
            AccountFrame.storeChange
              { seller with balance := seller.balance + maxWheatReceive / 2 }
              (TrustFrame.storeChange
                { line with balance := line.balance - maxWheatReceive } L) }
      | _, _ => nothing [o] ConvertResult.ePartial

/-- A createAccount sub-operation that funds the new account from the source. -/
def createAccount (op : CreateAccountOp) (source : AccountEntry) (L : Ledger) :
    CreateAccountRun :=
  if source.balance < op.startingBalance then
    { checkValid := true, applied := false, resultCode := OperationResultCode.opINNER,
      innerCode := CreateAccountResultCode.CREATE_ACCOUNT_UNDERFUNDED, destAccount := none,
      ledger := L, sourceAccount := source }
  else
    let dest : AccountEntry :=
      { accountID := op.destination, balance := op.startingBalance, numSubEntries := 0,
        authRequired := false }
    let funded : AccountEntry := { source with balance := source.balance - op.startingBalance }
    { checkValid := true, applied := true, resultCode := OperationResultCode.opINNER,
      innerCode := CreateAccountResultCode.CREATE_ACCOUNT_SUCCESS, destAccount := some dest,
      ledger := AccountFrame.storeChange funded { L with accounts := L.accounts ++ [dest] },
      sourceAccount := funded }

/-- An implicit trustline helper that adds a line with the widest limit and counts it on
the destination. -/
def createTrustLine (destination : AccountEntry) (asset : Asset) (L : Ledger) :
    Option TrustLineEntry × Ledger :=
  let line : TrustLineEntry :=
    { accountID := destination.accountID, asset := asset, balance := 0, limit := INT64_MAX,
      authorized := true }
  (some line,
    TrustFrame.storeAdd line
      (AccountFrame.storeChange
        { destination with numSubEntries := destination.numSubEntries + 1 } L))

def app : Application :=
  { createAccount := createAccount, createTrustLine := createTrustLine,
    convertWithOffers := convertWithOffers }

/-- Alice pays Bob 300 native, spending at most 500. -/
def nativePayment : PathPaymentOp :=
  { sendAsset := Asset.native, sendMax := 500, destination := 2, destAsset := Asset.native,
    destAmount := 300, path := [] }

/-- Alice pays herself 300 native. -/
def selfPayment : PathPaymentOp := { nativePayment with destination := 1 }

/-- Alice pays Bob 100 USD out of native, spending at most 60. -/
def usdPayment : PathPaymentOp :=
  { sendAsset := Asset.native, sendMax := 60, destination := 2, destAsset := usd,
    destAmount := 100, path := [] }

/-- The same payment with `sendMax = 40`. -/
def usdPaymentTight : PathPaymentOp := { usdPayment with sendMax := 40 }

/-- Alice with one sub-entry, her empty USD trustline. -/
def aliceTrusting : AccountEntry := { alice with numSubEntries := 1 }

def aliceLine : TrustLineEntry :=
  { accountID := 1, asset := usd, balance := 0, limit := 1000, authorized := true }

def ledgerAliceTrusts : Ledger :=
  { accounts := [aliceTrusting, bob, carol, issuer],
    trustLines := [aliceLine, bobLine, carolLine], offers := [carolOffer] }

def eur : Asset := Asset.issued "EUR" 9

/-- An exchange that fills every need at two wheat per sheep, leaves the ledger alone and
reports one claimed offer naming the two assets. -/
def tracingApp : Application :=
  { app with
    convertWithOffers := fun sheep _ wheat maxWheatReceive _ _ L =>
      { result := ConvertResult.eOK, curASent := maxWheatReceive / 2,
        actualCurBReceived := maxWheatReceive,
        offerTrail :=
          [{ sellerID := 3, offerID := 1, assetSold := wheat, amountSold := maxWheatReceive,
             assetBought := sheep, amountBought := maxWheatReceive / 2 }],
        filtered := [], ledger := L } }

/-- Alice pays Bob 100 USD out of native through EUR. -/
def twoHopPayment : PathPaymentOp :=
  { sendAsset := Asset.native, sendMax := 100, destination := 2, destAsset := usd,
    destAmount := 100, path := [eur] }

/-- The ledger once Bob has been credited with 100 USD. -/
def ledgerBobCredited : Ledger :=
  { ledger with trustLines := [{ bobLine with balance := 200 }, carolLine] }

/-- The state in which `twoHopPayment` leaves the loop with `tracingApp`: USD bought with 50
EUR, these bought with 25 native. -/
def twoHopTraversed : ApplyState :=
  { curB := Asset.native, curBReceived := 25,
    innerResult := PathPaymentResult.success
      [{ sellerID := 3, offerID := 1, assetSold := eur, amountSold := 50,
         assetBought := Asset.native, amountBought := 25 },
       { sellerID := 3, offerID := 1, assetSold := usd, amountSold := 100,
         assetBought := eur, amountBought := 50 }]
      { destination := 2, asset := usd, amount := 100 },
    ledger := ledgerBobCredited, mSourceAccount := alice, conversions := 2 }

/-- Alice pays Bob 150 USD, more than the book offers. -/
def usdPaymentLarge : PathPaymentOp := { usdPayment with destAmount := 150, sendMax := 100 }

/-- The state in which `usdPaymentLarge` enters the loop on `ledger`. -/
def largeCredited : ApplyState :=
  { curB := usd, curBReceived := 150,
    innerResult := PathPaymentResult.success []
      { destination := 2, asset := usd, amount := 150 },
    ledger := { ledger with trustLines := [{ bobLine with balance := 250 }, carolLine] },
    mSourceAccount := alice, conversions := 0 }

/-- Alice sells 100 USD for native. -/
def aliceOffer : OfferEntry :=
  { sellerID := 1, offerID := 3, selling := usd, buying := Asset.native, amount := 100 }

/-- The sample ledger with Alice's own offer in the book. -/
def ledgerAliceSells : Ledger := { ledger with offers := [aliceOffer] }

/-- The state in which `usdPayment` enters the loop on `ledgerAliceSells`. -/
def selfCrossCredited : ApplyState :=
  { curB := usd, curBReceived := 100,
    innerResult := PathPaymentResult.success []
      { destination := 2, asset := usd, amount := 100 },
    ledger := { ledgerBobCredited with offers := [aliceOffer] },
    mSourceAccount := alice, conversions := 0 }

/-- Dave holds 10 native and 50 USD. -/
def dave : AccountEntry :=
  { accountID := 4, balance := 10, numSubEntries := 1, authRequired := false }

def daveLine : TrustLineEntry :=
  { accountID := 4, asset := usd, balance := 50, limit := 1000, authorized := true }

/-- A ledger in which the issuer account of USD no longer exists. -/
def ledgerIssuerGone : Ledger :=
  { accounts := [alice, bob, carol, dave], trustLines := [bobLine, carolLine, daveLine],
    offers := [carolOffer] }

/-- Dave sends 50 USD back to their issuer. -/
def refund : PathPaymentOp :=
  { sendAsset := usd, sendMax := 50, destination := 9, destAsset := usd, destAmount := 50,
    path := [] }

/-- Dave pays 50 USD to account 7, which does not exist. -/
def paymentToNewAccount : PathPaymentOp := { refund with destination := 7 }

/-- Dave with enough native balance to fund a new account. -/
def daveFunded : AccountEntry := { dave with balance := 100 }

/-- The ledger without the issuer account of USD, with Dave funded. -/
def ledgerDaveFunded : Ledger :=
  { ledgerIssuerGone with
    accounts := [alice, bob, carol, daveFunded] }

end Sample

/-! ## Lemmas on the store -/

theorem loadAccount_accountID {id : AccountID} {L : Ledger} {a : AccountEntry}
    (h : AccountFrame.loadAccount id L = some a) : a.accountID = id := by
  have := List.find?_some h
  simpa using this

theorem loadTrustLine_key {id : AccountID} {asset : Asset} {L : Ledger} {t : TrustLineEntry}
    (h : TrustFrame.loadTrustLine id asset L = some t) : t.accountID = id ∧ t.asset = asset := by
  have := List.find?_some h
  simpa using this

theorem loadTrustLine_mem {id : AccountID} {asset : Asset} {L : Ledger} {t : TrustLineEntry}
    (h : TrustFrame.loadTrustLine id asset L = some t) : t ∈ L.trustLines :=
  List.mem_of_find?_eq_some h

/-- Replacing the entries selected by `q` with `new` (itself selected by `q`): a lookup by
`q` finds `new` whenever it found something before. -/
theorem find_replace_same {α : Type} (q : α → Bool) (new : α) (hnew : q new = true) :
    ∀ (xs : List α) (b : α), xs.find? q = some b →
      (xs.map (fun x => if q x then new else x)).find? q = some new
  | [], _, h => by simp at h
  | x :: xs, b, h => by
    simp only [List.map_cons, List.find?_cons] at h ⊢
    cases hx : q x
    · simp only [hx] at h
      simp only [Bool.false_eq_true, if_false, hx]
      exact find_replace_same q new hnew xs b h
    · simp [hnew]

/-- Replacing the entries selected by `q` with `new`: a lookup by a predicate `p` that
excludes everything `q` selects, and `new`, is unchanged. -/
theorem find_replace_other {α : Type} (p q : α → Bool) (new : α) (hnew : p new = false)
    (hpq : ∀ x, q x = true → p x = false) :
    ∀ (xs : List α), (xs.map (fun x => if q x then new else x)).find? p = xs.find? p
  | [] => rfl
  | x :: xs => by
    simp only [List.map_cons, List.find?_cons]
    cases hx : q x
    · simp only [Bool.false_eq_true, if_false]
      rw [find_replace_other p q new hnew hpq xs]
    · simp only [if_true, hnew, hpq x hx]
      exact find_replace_other p q new hnew hpq xs

theorem find_filter_not {α : Type} (q : α → Bool) :
    ∀ (xs : List α), (xs.filter (fun x => !q x)).find? q = none
  | [] => rfl
  | x :: xs => by
    cases hx : q x
    · simp only [List.filter_cons, hx, Bool.not_false, if_true, List.find?_cons]
      exact find_filter_not q xs
    · simp only [List.filter_cons, hx, Bool.not_true, Bool.false_eq_true, if_false]
      exact find_filter_not q xs

theorem loadAccount_storeChange_same (a b : AccountEntry) (L : Ledger)
    (h : AccountFrame.loadAccount a.accountID L = some b) :
    AccountFrame.loadAccount a.accountID (AccountFrame.storeChange a L) = some a := by
  have := find_replace_same (fun x : AccountEntry => decide (x.accountID = a.accountID)) a
    (by simp) L.accounts b h
  simpa [AccountFrame.loadAccount, AccountFrame.storeChange] using this

theorem loadAccount_storeChange_other (a : AccountEntry) (L : Ledger) (id : AccountID)
    (h : id ≠ a.accountID) :
    AccountFrame.loadAccount id (AccountFrame.storeChange a L) = AccountFrame.loadAccount id L := by
  have := find_replace_other (fun x : AccountEntry => decide (x.accountID = id))
    (fun x : AccountEntry => decide (x.accountID = a.accountID)) a
    (by simpa using fun e => h e.symm)
    (by intro x hx; simp at hx; simpa [hx] using fun e => h e.symm) L.accounts
  simpa [AccountFrame.loadAccount, AccountFrame.storeChange] using this

theorem loadTrustLine_storeDelete_same (t : TrustLineEntry) (L : Ledger) :
    TrustFrame.loadTrustLine t.accountID t.asset (TrustFrame.storeDelete t L) = none := by
  have := find_filter_not
    (fun x : TrustLineEntry => decide (x.accountID = t.accountID ∧ x.asset = t.asset))
    L.trustLines
  simpa [TrustFrame.loadTrustLine, TrustFrame.storeDelete] using this

theorem loadTrustLine_accountStoreChange (a : AccountEntry) (L : Ledger) (id : AccountID)
    (asset : Asset) :
    TrustFrame.loadTrustLine id asset (AccountFrame.storeChange a L) =
      TrustFrame.loadTrustLine id asset L :=
  rfl

theorem addBalance_account_some {delta : Int} {a a1 : AccountEntry}
    (h : AccountFrame.addBalance delta a = some a1) :
    a1 = { a with balance := a.balance + delta } := by
  simp only [AccountFrame.addBalance] at h
  split at h
  · simp at h
  · simpa using h.symm

theorem addBalance_trust_some {delta : Int} {t t1 : TrustLineEntry}
    (h : TrustFrame.addBalance delta t = some t1) :
    t1 = { t with balance := t.balance + delta } ∧ 0 ≤ t.balance + delta ∧
      t.balance + delta ≤ t.limit := by
  simp only [TrustFrame.addBalance] at h
  split at h
  · simp at h
  · rename_i hc
    simp only [not_or, not_lt] at hc
    exact ⟨by simpa using h.symm, hc.1, hc.2⟩

theorem addNumEntries_of_true (lm : LedgerManager) (count : Int) (a : AccountEntry)
    (h : (AccountFrame.addNumEntries lm count a).1 = true) :
    AccountFrame.addNumEntries lm count a =
      (true, { a with numSubEntries := a.numSubEntries + count }) := by
  simp only [AccountFrame.addNumEntries] at h ⊢
  by_cases hc : 0 < count ∧ a.balance < (2 + (a.numSubEntries + count)) * lm.baseReserve
  · simp [hc] at h
  · simp [hc]

theorem addNumEntries_of_false (lm : LedgerManager) (count : Int) (a : AccountEntry)
    (h : (AccountFrame.addNumEntries lm count a).1 = false) :
    AccountFrame.addNumEntries lm count a = (false, a) := by
  simp only [AccountFrame.addNumEntries] at h ⊢
  by_cases hc : 0 < count ∧ a.balance < (2 + (a.numSubEntries + count)) * lm.baseReserve
  · simp [hc]
  · simp [hc] at h

theorem addNumEntries_remove (lm : LedgerManager) (a : AccountEntry) :
    AccountFrame.addNumEntries lm (-1) a =
      (true, { a with numSubEntries := a.numSubEntries - 1 }) := by
  simp [AccountFrame.addNumEntries, Int.sub_eq_add_neg]

theorem map_replace_absent (k : AccountID) (a : AccountEntry) :
    ∀ (xs : List AccountEntry), (∀ x ∈ xs, x.accountID ≠ k) →
      xs.map (fun x => if x.accountID = k then a else x) = xs
  | [], _ => rfl
  | x :: xs, h => by
    have hx : x.accountID ≠ k := h x (List.mem_cons_self _ _)
    simp only [List.map_cons, hx, if_false]
    rw [map_replace_absent k a xs (fun y hy => h y (List.mem_cons_of_mem _ hy))]

theorem sum_replace (k : AccountID) (a : AccountEntry) :
    ∀ (xs : List AccountEntry) (b : AccountEntry),
      (xs.map (fun x => x.accountID)).Nodup →
      xs.find? (fun x => decide (x.accountID = k)) = some b →
      ((xs.map (fun x => if x.accountID = k then a else x)).map (fun x => x.balance)).sum =
        (xs.map (fun x => x.balance)).sum - b.balance + a.balance
  | [], _, _, h => by simp at h
  | x :: xs, b, hnd, h => by
    simp only [List.map_cons, List.nodup_cons, List.mem_map, not_exists, not_and] at hnd
    simp only [List.find?_cons] at h
    by_cases hx : x.accountID = k
    · simp only [hx, decide_True, Option.some.injEq] at h
      subst h
      have habs : ∀ y ∈ xs, y.accountID ≠ k := fun y hy e => hnd.1 y hy (e.trans hx.symm)
      simp only [List.map_cons, hx, if_true, List.sum_cons, map_replace_absent k a xs habs]
      omega
    · simp only [hx, decide_False] at h
      have ih := sum_replace k a xs b hnd.2 h
      simp only [List.map_cons, hx, if_false, List.sum_cons, ih]
      omega

/-- Storing an account over its entry changes the native sum by the change of its
balance, when account ids are unique. -/
theorem nativeSum_storeChange (a b : AccountEntry) (L : Ledger)
    (hkeys : (L.accounts.map (fun x => x.accountID)).Nodup)
    (h : AccountFrame.loadAccount a.accountID L = some b) :
    nativeSum (AccountFrame.storeChange a L) = nativeSum L - b.balance + a.balance :=
  sum_replace a.accountID a L.accounts b hkeys h

theorem accountIDs_storeChange (a : AccountEntry) (L : Ledger) :
    (AccountFrame.storeChange a L).accounts.map (fun x => x.accountID) =
      L.accounts.map (fun x => x.accountID) := by
  simp only [AccountFrame.storeChange, List.map_map]
  apply List.map_congr_left
  intro x _
  by_cases hx : x.accountID = a.accountID
  · simp [hx]
  · simp [hx]

/-! ## Lemmas on the path payment -/

@[simp] theorem Step.bind_next {α β : Type} (a : α) (f : α → Step β) :
    (Step.next a).bind f = f a := rfl

@[simp] theorem Step.bind_fail {α β : Type} (st : ApplyState) (f : α → Step β) :
    (Step.fail st : Step α).bind f = Step.fail st := rfl

@[simp] theorem Step.bind_fatal {α β : Type} (f : α → Step β) :
    (Step.fatal : Step α).bind f = Step.fatal := rfl

theorem Step.bind_eq_next {α β : Type} {s : Step α} {f : α → Step β} {b : β}
    (h : s.bind f = Step.next b) : ∃ a, s = Step.next a ∧ f a = Step.next b := by
  cases s with
  | fatal => simp at h
  | fail st => simp at h
  | next a => exact ⟨a, rfl, by simpa using h⟩

/-- A hop that lets the loop go on either skipped the asset (`curA == curB`) or made one
full conversion through the exchange. -/
theorem hop_next {app : Application} {curA : Asset} {st st1 : ApplyState}
    (h : PathPaymentOpFrame.hop app curA st = Step.next st1) :
    (curA = st.curB ∧ st1 = st) ∨
    (curA ≠ st.curB ∧ ∃ offers last,
      PathPaymentOpFrame.afterFilter st.mSourceAccount.accountID
        (PathPaymentOpFrame.convert app curA st).filtered st.innerResult =
          PathPaymentResult.success offers last ∧
      (PathPaymentOpFrame.convert app curA st).result = ConvertResult.eOK ∧
      (PathPaymentOpFrame.convert app curA st).actualCurBReceived = st.curBReceived ∧
      0 ≤ (PathPaymentOpFrame.convert app curA st).curASent ∧
      st1 =
        { curB := curA,
          curBReceived := (PathPaymentOpFrame.convert app curA st).curASent,
          innerResult := PathPaymentResult.success
            ((PathPaymentOpFrame.convert app curA st).offerTrail ++ offers) last,
          ledger := (PathPaymentOpFrame.convert app curA st).ledger,
          mSourceAccount := st.mSourceAccount,
          conversions := st.conversions + 1 }) := by
  unfold PathPaymentOpFrame.hop at h
  by_cases hc : curA = st.curB
  · left
    simp only [hc, if_true, Step.next.injEq] at h
    exact ⟨hc, h.symm⟩
  · right
    refine ⟨hc, ?_⟩
    simp only [hc, if_false] at h
    split at h
    · simp [ApplyState.failNoIssuer] at h
    · split at h
      · simp at h
      · rename_i hsent
        split at h
        · simp at h
        · simp [ApplyState.failWith] at h
        · rename_i hok
          split at h
          · rename_i heq
            split at h
            · simp at h
            · rename_i r hr
              simp only [Step.next.injEq] at h
              cases hres : PathPaymentOpFrame.afterFilter st.mSourceAccount.accountID
                  (PathPaymentOpFrame.convert app curA st).filtered st.innerResult with
              | success offers last =>
                rw [hres] at hr
                simp only [PathPaymentResult.insertOffers, Option.some.injEq] at hr
                refine ⟨offers, last, rfl, hok, heq.symm, not_lt.mp hsent, ?_⟩
                rw [← h, ← hr]
              | noIssuer a => rw [hres] at hr; simp [PathPaymentResult.insertOffers] at hr
              | void c => rw [hres] at hr; simp [PathPaymentResult.insertOffers] at hr
          · simp [ApplyState.failWith] at h

@[simp] theorem code_setCode (c : PathPaymentResultCode) (r : PathPaymentResult) :
    (r.setCode c).code = c := by
  cases c <;> cases r <;> rfl

/-- A property kept by every hop that lets the loop go on is kept by the whole loop. -/
theorem walk_next_inv (app : Application) (P : ApplyState → Prop)
    (hP : ∀ a st st1, P st → PathPaymentOpFrame.hop app a st = Step.next st1 → P st1) :
    ∀ (xs : List Asset) (st st1 : ApplyState), P st →
      PathPaymentOpFrame.walk app xs st = Step.next st1 → P st1
  | [], st, st1, hst, h => by
    simp only [PathPaymentOpFrame.walk, Step.next.injEq] at h
    exact h ▸ hst
  | a :: xs, st, st1, hst, h => by
    simp only [PathPaymentOpFrame.walk] at h
    obtain ⟨st2, h2, h3⟩ := Step.bind_eq_next h
    exact walk_next_inv app P hP xs st2 st1 (hP a st st2 hst h2) h3

theorem hop_next_curB {app : Application} {curA : Asset} {st st1 : ApplyState}
    (h : PathPaymentOpFrame.hop app curA st = Step.next st1) : st1.curB = curA := by
  rcases hop_next h with ⟨hc, rfl⟩ | ⟨-, offers, last, -, -, -, -, rfl⟩
  · exact hc.symm
  · rfl

/-- When the loop is left, `curB` is the last asset it visited. -/
theorem walk_next_curB (app : Application) (a : Asset) :
    ∀ (xs : List Asset) (st st1 : ApplyState),
      PathPaymentOpFrame.walk app (xs ++ [a]) st = Step.next st1 → st1.curB = a
  | [], st, st1, h => by
    simp only [List.nil_append, PathPaymentOpFrame.walk] at h
    obtain ⟨st2, h2, h3⟩ := Step.bind_eq_next h
    simp only [Step.next.injEq] at h3
    exact h3 ▸ hop_next_curB h2
  | x :: xs, st, st1, h => by
    simp only [List.cons_append, PathPaymentOpFrame.walk] at h
    obtain ⟨st2, -, h3⟩ := Step.bind_eq_next h
    exact walk_next_curB app a xs st2 st1 h3

theorem walk_next_success (app : Application) (xs : List Asset) (st st1 : ApplyState)
    (hst : ∃ offers last, st.innerResult = PathPaymentResult.success offers last)
    (h : PathPaymentOpFrame.walk app xs st = Step.next st1) :
    ∃ offers last, st1.innerResult = PathPaymentResult.success offers last := by
  refine walk_next_inv app
    (fun s => ∃ offers last, s.innerResult = PathPaymentResult.success offers last)
    ?_ xs st st1 hst h
  intro a s s1 hs hh
  rcases hop_next hh with ⟨-, rfl⟩ | ⟨-, offers, last, -, -, -, -, rfl⟩
  · exact hs
  · exact ⟨_, _, rfl⟩

/-- With the destination account present, `doApply` goes straight to the credit: nothing
is created and the frame it credits is the stored account. -/
theorem resolveDestination_existing (app : Application) (op : PathPaymentOp)
    (st : ApplyState) (d : AccountEntry)
    (h : AccountFrame.loadAccount op.destination st.ledger = some d) :
    PathPaymentOpFrame.resolveDestination app op st = Step.next (d, st) := by
  unfold PathPaymentOpFrame.resolveDestination
  simp only [h, Step.bind_next]
  split <;> rfl

/-- What a successful credit of the destination has done. -/
theorem creditDestination_next {op : PathPaymentOp} {d : AccountEntry} {st st1 : ApplyState}
    (h : PathPaymentOpFrame.creditDestination op d st = Step.next st1) :
    st1.curB = st.curB ∧ st1.curBReceived = st.curBReceived ∧
    st1.mSourceAccount = st.mSourceAccount ∧ st1.conversions = st.conversions ∧
    (∃ offers last, st.innerResult = PathPaymentResult.success offers last ∧
      st1.innerResult = PathPaymentResult.success offers
        { destination := op.destination, asset := st.curB, amount := st.curBReceived }) ∧
    ((st.curB = Asset.native ∧ ∃ d1, AccountFrame.addBalance st.curBReceived d = some d1 ∧
        st1.ledger = AccountFrame.storeChange d1 st.ledger) ∨
     (st.curB ≠ Asset.native ∧ ∃ tl tl1,
        TrustFrame.loadTrustLine op.destination st.curB st.ledger = some tl ∧
        tl.authorized = true ∧
        TrustFrame.addBalance st.curBReceived tl = some tl1 ∧
        st1.ledger = TrustFrame.storeChange tl1 st.ledger)) := by
  unfold PathPaymentOpFrame.creditDestination at h
  obtain ⟨st2, h2, h3⟩ := Step.bind_eq_next h
  have hfin : st2.innerResult.setLast
      { destination := op.destination, asset := st2.curB, amount := st2.curBReceived } =
        some st1.innerResult ∧ st1 = { st2 with innerResult := st1.innerResult } := by
    split at h3
    · simp at h3
    · rename_i r hr
      simp only [Step.next.injEq] at h3
      subst h3
      exact ⟨hr, rfl⟩
  have hcore : st2.innerResult = st.innerResult ∧ st2.curB = st.curB ∧
      st2.curBReceived = st.curBReceived ∧ st2.mSourceAccount = st.mSourceAccount ∧
      st2.conversions = st.conversions ∧
      ((st.curB = Asset.native ∧ ∃ d1, AccountFrame.addBalance st.curBReceived d = some d1 ∧
          st2.ledger = AccountFrame.storeChange d1 st.ledger) ∨
       (st.curB ≠ Asset.native ∧ ∃ tl tl1,
          TrustFrame.loadTrustLine op.destination st.curB st.ledger = some tl ∧
          tl.authorized = true ∧
          TrustFrame.addBalance st.curBReceived tl = some tl1 ∧
          st2.ledger = TrustFrame.storeChange tl1 st.ledger)) := by
    by_cases hn : st.curB = Asset.native
    · simp only [hn, if_true] at h2
      split at h2
      · simp [ApplyState.failWith] at h2
      · rename_i d1 hd1
        simp only [Step.next.injEq] at h2
        subst h2
        exact ⟨rfl, hn.symm, rfl, rfl, rfl, Or.inl ⟨hn, d1, hd1, rfl⟩⟩
    · simp only [hn, if_false] at h2
      obtain ⟨line, hl, h4⟩ := Step.bind_eq_next h2
      have hline : line = TrustFrame.loadTrustLine op.destination st.curB st.ledger := by
        split at hl
        · simpa using hl.symm
        · unfold TrustFrame.loadTrustLineIssuer at hl
          split at hl
          · simp at hl
          · simp [ApplyState.failNoIssuer] at hl
          · rename_i line2 _ heq
            simp only [Step.next.injEq] at hl
            subst hl
            split at heq
            · simp at heq
            · simp only [Option.some.injEq, Prod.mk.injEq] at heq
              exact heq.1.symm
      split at h4
      · simp [ApplyState.failWith] at h4
      · rename_i tl
        split at h4
        · simp [ApplyState.failWith] at h4
        · rename_i hauth
          split at h4
          · simp [ApplyState.failWith] at h4
          · rename_i tl1 htl1
            simp only [Step.next.injEq] at h4
            subst h4
            refine ⟨rfl, rfl, rfl, rfl, rfl, Or.inr ⟨hn, tl, tl1, hline.symm, ?_, htl1, rfl⟩⟩
            simpa using hauth
  obtain ⟨hr, hrest⟩ := hfin
  obtain ⟨hi, hb, hbr, hs, hcv, hled⟩ := hcore
  rw [hrest]
  refine ⟨hb, hbr, hs, hcv, ?_, hled⟩
  rw [hi] at hr
  cases hres : st.innerResult with
  | success offers last =>
    rw [hres] at hr
    simp only [PathPaymentResult.setLast, Option.some.injEq] at hr
    exact ⟨offers, last, rfl, by rw [← hr, hb, hbr]⟩
  | noIssuer a => rw [hres] at hr; simp [PathPaymentResult.setLast] at hr
  | void c => rw [hres] at hr; simp [PathPaymentResult.setLast] at hr

/-- What a successful debit of the source has done. -/
theorem debitSource_next {lm : LedgerManager} {op : PathPaymentOp} {st st1 : ApplyState}
    (h : PathPaymentOpFrame.debitSource lm op st = Step.next st1) :
    st.curBReceived ≤ op.sendMax ∧ st1.innerResult = st.innerResult ∧
    st1.conversions = st.conversions ∧
    ((st.curB = Asset.native ∧ ∃ sa,
        (if lm.ledgerVersion > 7 then
          AccountFrame.loadAccount st.mSourceAccount.accountID st.ledger
         else some st.mSourceAccount) = some sa ∧
        AccountFrame.getMinimumBalance lm sa ≤ sa.balance - st.curBReceived ∧
        st1.ledger = AccountFrame.storeChange
          { sa with balance := sa.balance - st.curBReceived } st.ledger) ∨
     (st.curB ≠ Asset.native ∧ ∃ tl,
        TrustFrame.loadTrustLine st.mSourceAccount.accountID st.curB st.ledger = some tl ∧
        tl.authorized = true ∧ 0 ≤ tl.balance - st.curBReceived ∧
        st1.ledger = TrustFrame.storeChange
          { tl with balance := tl.balance - st.curBReceived } st.ledger)) := by
  unfold PathPaymentOpFrame.debitSource at h
  by_cases hmax : st.curBReceived > op.sendMax
  · simp [hmax, ApplyState.failWith] at h
  · simp only [hmax, if_false] at h
    refine ⟨not_lt.mp hmax, ?_⟩
    by_cases hn : st.curB = Asset.native
    · simp only [hn, if_true] at h
      split at h
      · simp [ApplyState.failWith] at h
      · rename_i sa hsa
        split at h
        · simp [ApplyState.failWith] at h
        · rename_i hmin
          split at h
          · simp at h
          · rename_i debited hdeb
            simp only [Step.next.injEq] at h
            subst h
            have hd := addBalance_account_some hdeb
            refine ⟨rfl, rfl, Or.inl ⟨hn, sa, ?_, not_lt.mp hmin, ?_⟩⟩
            · simpa using hsa
            · simp only [hd, Int.sub_eq_add_neg]
    · simp only [hn, if_false] at h
      obtain ⟨line, hl, h4⟩ := Step.bind_eq_next h
      have hline : line =
          TrustFrame.loadTrustLine st.mSourceAccount.accountID st.curB st.ledger := by
        split at hl
        · simpa using hl.symm
        · unfold TrustFrame.loadTrustLineIssuer at hl
          split at hl
          · simp at hl
          · simp [ApplyState.failNoIssuer] at hl
          · rename_i line2 _ heq
            simp only [Step.next.injEq] at hl
            subst hl
            split at heq
            · simp at heq
            · simp only [Option.some.injEq, Prod.mk.injEq] at heq
              exact heq.1.symm
      split at h4
      · simp [ApplyState.failWith] at h4
      · rename_i tl
        split at h4
        · simp [ApplyState.failWith] at h4
        · rename_i hauth
          split at h4
          · simp [ApplyState.failWith] at h4
          · rename_i tl1 htl1
            simp only [Step.next.injEq] at h4
            subst h4
            obtain ⟨hd, h0, -⟩ := addBalance_trust_some htl1
            refine ⟨rfl, rfl, Or.inr ⟨hn, tl, hline.symm, by simpa using hauth, ?_, ?_⟩⟩
            · simpa [Int.sub_eq_add_neg] using h0
            · simp only [hd, Int.sub_eq_add_neg]

/-- What a failed debit step has done: it has set a failure code and nothing else, and
the code is OVER_SENDMAX exactly when the amount to send exceeds `sendMax`. -/
theorem debitSource_fail {lm : LedgerManager} {op : PathPaymentOp} {st st1 : ApplyState}
    (h : PathPaymentOpFrame.debitSource lm op st = Step.fail st1) :
    st1.ledger = st.ledger ∧ st1.mSourceAccount = st.mSourceAccount ∧
    st1.conversions = st.conversions ∧
    st1.innerResult.code ≠ PATH_PAYMENT_SUCCESS ∧
    (st1.innerResult.code = PATH_PAYMENT_OVER_SENDMAX ↔ op.sendMax < st.curBReceived) := by
  unfold PathPaymentOpFrame.debitSource at h
  by_cases hmax : st.curBReceived > op.sendMax
  · simp only [hmax, if_true, ApplyState.failWith, Step.fail.injEq] at h
    subst h
    exact ⟨rfl, rfl, rfl, by simp, by simpa using hmax⟩
  · simp only [hmax, if_false] at h
    have hno : ¬ op.sendMax < st.curBReceived := hmax
    by_cases hn : st.curB = Asset.native
    · simp only [hn, if_true] at h
      split at h
      · simp only [ApplyState.failWith, Step.fail.injEq] at h
        subst h
        exact ⟨rfl, rfl, rfl, by simp, by simp [hno]⟩
      · split at h
        · simp only [ApplyState.failWith, Step.fail.injEq] at h
          subst h
          exact ⟨rfl, rfl, rfl, by simp, by simp [hno]⟩
        · split at h <;> simp at h
    · simp only [hn, if_false] at h
      split at h
      · simp only [Step.bind_next] at h
        split at h
        · simp only [ApplyState.failWith, Step.fail.injEq] at h
          subst h
          exact ⟨rfl, rfl, rfl, by simp, by simp [hno]⟩
        · split at h
          · simp only [ApplyState.failWith, Step.fail.injEq] at h
            subst h
            exact ⟨rfl, rfl, rfl, by simp, by simp [hno]⟩
          · split at h
            · simp only [ApplyState.failWith, Step.fail.injEq] at h
              subst h
              exact ⟨rfl, rfl, rfl, by simp, by simp [hno]⟩
            · simp at h
      · split at h
        · simp at h
        · simp only [ApplyState.failNoIssuer, Step.bind_fail, Step.fail.injEq] at h
          subst h
          exact ⟨rfl, rfl, rfl, by simp [PathPaymentResult.code],
            by simp [PathPaymentResult.code, hno]⟩
        · simp only [Step.bind_next] at h
          split at h
          · simp only [ApplyState.failWith, Step.fail.injEq] at h
            subst h
            exact ⟨rfl, rfl, rfl, by simp, by simp [hno]⟩
          · split at h
            · simp only [ApplyState.failWith, Step.fail.injEq] at h
              subst h
              exact ⟨rfl, rfl, rfl, by simp, by simp [hno]⟩
            · split at h
              · simp only [ApplyState.failWith, Step.fail.injEq] at h
                subst h
                exact ⟨rfl, rfl, rfl, by simp, by simp [hno]⟩
              · simp at h

/-- The state in which the loop is left: the result is still on its success arm and
`curB` is the send asset. -/
theorem traverse_next {app : Application} {op : PathPaymentOp} {src : AccountEntry}
    {L : Ledger} {st : ApplyState}
    (h : PathPaymentOpFrame.traverse app op src L = Step.next st) :
    (∃ offers last, st.innerResult = PathPaymentResult.success offers last) ∧
    st.curB = op.sendAsset := by
  unfold PathPaymentOpFrame.traverse at h
  obtain ⟨⟨d, st0⟩, -, h1⟩ := Step.bind_eq_next h
  obtain ⟨st1, h2, h3⟩ := Step.bind_eq_next h1
  obtain ⟨-, -, -, -, ⟨offers, last, -, hres⟩, -⟩ := creditDestination_next h2
  constructor
  · exact walk_next_success app _ st1 st ⟨_, _, hres⟩ h3
  · rw [List.reverse_cons] at h3
    exact walk_next_curB app op.sendAsset _ st1 st h3

theorem doApply_of_traverse {app : Application} {lm : LedgerManager} {op : PathPaymentOp}
    {src : AccountEntry} {L : Ledger} {st : ApplyState}
    (h : PathPaymentOpFrame.traverse app op src L = Step.next st) :
    PathPaymentOpFrame.doApply app lm op src L =
      (PathPaymentOpFrame.debitSource lm op st).applied := by
  unfold PathPaymentOpFrame.doApply
  rw [h, Step.bind_next]

/-- A `doApply` that returns true has left the loop and debited the source. -/
theorem doApply_ret_true {app : Application} {lm : LedgerManager} {op : PathPaymentOp}
    {src : AccountEntry} {L : Ledger} {out : PathPaymentApplied}
    (h : PathPaymentOpFrame.doApply app lm op src L = some out) (hret : out.ret = true) :
    ∃ st st1, PathPaymentOpFrame.traverse app op src L = Step.next st ∧
      PathPaymentOpFrame.debitSource lm op st = Step.next st1 ∧
      out.innerResult = st1.innerResult ∧ out.ledger = st1.ledger := by
  unfold PathPaymentOpFrame.doApply at h
  cases ht : PathPaymentOpFrame.traverse app op src L with
  | fatal => rw [ht] at h; simp [Step.applied] at h
  | fail st =>
    rw [ht] at h
    simp only [Step.bind_fail, Step.applied, Option.some.injEq] at h
    subst h
    simp at hret
  | next st =>
    rw [ht] at h
    simp only [Step.bind_next] at h
    cases hd : PathPaymentOpFrame.debitSource lm op st with
    | fatal => rw [hd] at h; simp [Step.applied] at h
    | fail st1 =>
      rw [hd] at h
      simp only [Step.applied, Option.some.injEq] at h
      subst h
      simp at hret
    | next st1 =>
      rw [hd] at h
      simp only [Step.applied, Option.some.injEq] at h
      subst h
      exact ⟨st, st1, rfl, hd, rfl, rfl⟩

/-- A `doApply` that returns true leaves the result code SUCCESS. -/
theorem doApply_ret_true_code {app : Application} {lm : LedgerManager} {op : PathPaymentOp}
    {src : AccountEntry} {L : Ledger} {out : PathPaymentApplied}
    (h : PathPaymentOpFrame.doApply app lm op src L = some out) (hret : out.ret = true) :
    out.innerResult.code = PATH_PAYMENT_SUCCESS := by
  obtain ⟨st, st1, ht, hd, hir, -⟩ := doApply_ret_true h hret
  obtain ⟨⟨offers, last, hres⟩, -⟩ := traverse_next ht
  obtain ⟨-, hir1, -, -⟩ := debitSource_next hd
  rw [hir, hir1, hres]
  rfl

theorem afterFilter_cons (sourceID : AccountID) (o : OfferEntry) (os : List OfferEntry)
    (r : PathPaymentResult) :
    PathPaymentOpFrame.afterFilter sourceID (o :: os) r =
      PathPaymentOpFrame.afterFilter sourceID os
        (PathPaymentOpFrame.offerFilter sourceID o r).2 := rfl

theorem offerFilter_own (sourceID : AccountID) (o : OfferEntry) (r : PathPaymentResult)
    (h : o.sellerID = sourceID) :
    PathPaymentOpFrame.offerFilter sourceID o r =
      (OfferFilterResult.eStop, PathPaymentResult.void PATH_PAYMENT_OFFER_CROSS_SELF) := by
  simp only [PathPaymentOpFrame.offerFilter, h, if_true]
  cases r <;> rfl

theorem offerFilter_other (sourceID : AccountID) (o : OfferEntry) (r : PathPaymentResult)
    (h : o.sellerID ≠ sourceID) :
    PathPaymentOpFrame.offerFilter sourceID o r = (OfferFilterResult.eKeep, r) := by
  simp only [PathPaymentOpFrame.offerFilter, h, if_false]

theorem afterFilter_void (sourceID : AccountID) :
    ∀ (os : List OfferEntry) (c : PathPaymentResultCode), ∃ c1,
      PathPaymentOpFrame.afterFilter sourceID os (PathPaymentResult.void c) =
        PathPaymentResult.void c1
  | [], c => ⟨c, rfl⟩
  | o :: os, c => by
    rw [afterFilter_cons]
    by_cases h : o.sellerID = sourceID
    · rw [offerFilter_own sourceID o _ h]
      exact afterFilter_void sourceID os _
    · rw [offerFilter_other sourceID o _ h]
      exact afterFilter_void sourceID os c

/-- The filter leaves the result on its success arm only when it changed nothing. -/
theorem afterFilter_success (sourceID : AccountID) :
    ∀ (os : List OfferEntry) (r : PathPaymentResult) (offers : List ClaimOfferAtom)
      (last : SimplePaymentResult),
      PathPaymentOpFrame.afterFilter sourceID os r = PathPaymentResult.success offers last →
      r = PathPaymentResult.success offers last ∧ ∀ o ∈ os, o.sellerID ≠ sourceID
  | [], r, offers, last, h => ⟨h, by simp⟩
  | o :: os, r, offers, last, h => by
    rw [afterFilter_cons] at h
    by_cases hs : o.sellerID = sourceID
    · rw [offerFilter_own sourceID o _ hs] at h
      obtain ⟨c1, hc1⟩ := afterFilter_void sourceID os PATH_PAYMENT_OFFER_CROSS_SELF
      rw [hc1] at h
      cases h
    · rw [offerFilter_other sourceID o _ hs] at h
      obtain ⟨h1, h2⟩ := afterFilter_success sourceID os r offers last h
      refine ⟨h1, ?_⟩
      intro o1 ho1
      rcases List.mem_cons.mp ho1 with rfl | hm
      · exact hs
      · exact h2 o1 hm

/-- What a completed run of the loop has accumulated: the offers are the trails of its
conversions in forward order put in front of the offers it started with, and the amount
is the one sent by its last conversion, or the one it started with. -/
theorem walk_next_conversions (app : Application) :
    ∀ (xs : List Asset) (st st1 : ApplyState) (offers : List ClaimOfferAtom)
      (last : SimplePaymentResult),
      st.innerResult = PathPaymentResult.success offers last →
      PathPaymentOpFrame.walk app xs st = Step.next st1 →
      st1.innerResult = PathPaymentResult.success
        (((PathPaymentOpFrame.conversionsOf app xs st).reverse.map
          (fun c => c.2.offerTrail)).flatten ++ offers) last ∧
      st1.curBReceived =
        (((PathPaymentOpFrame.conversionsOf app xs st).getLast?).map
          (fun c => c.2.curASent)).getD st.curBReceived
  | [], st, st1, offers, last, hst, h => by
    simp only [PathPaymentOpFrame.walk, Step.next.injEq] at h
    subst h
    simp [PathPaymentOpFrame.conversionsOf, hst]
  | a :: xs, st, st1, offers, last, hst, h => by
    simp only [PathPaymentOpFrame.walk] at h
    obtain ⟨st2, h2, h3⟩ := Step.bind_eq_next h
    simp only [PathPaymentOpFrame.conversionsOf, h2]
    rcases hop_next h2 with ⟨hc, rfl⟩ | ⟨hc, offers1, last1, haf, -, -, -, rfl⟩
    · obtain ⟨ih1, ih2⟩ := walk_next_conversions app xs st2 st1 offers last hst h3
      simp only [hc, if_true, List.nil_append]
      exact ⟨ih1, ih2⟩
    · obtain ⟨hr, -⟩ := afterFilter_success _ _ _ _ _ haf
      rw [hst] at hr
      simp only [PathPaymentResult.success.injEq] at hr
      obtain ⟨rfl, rfl⟩ := hr
      obtain ⟨ih1, ih2⟩ := walk_next_conversions app xs _ st1
        ((PathPaymentOpFrame.convert app a st).offerTrail ++ offers) last rfl h3
      simp only [hc, if_false]
      constructor
      · rw [ih1]
        simp [List.append_assoc]
      · rw [ih2]
        simp only [List.getLast?_append, List.getLast?_singleton]
        cases (PathPaymentOpFrame.conversionsOf app xs
          { curB := a, curBReceived := (PathPaymentOpFrame.convert app a st).curASent,
            innerResult := PathPaymentResult.success
              ((PathPaymentOpFrame.convert app a st).offerTrail ++ offers) last,
            ledger := (PathPaymentOpFrame.convert app a st).ledger,
            mSourceAccount := st.mSourceAccount,
            conversions := st.conversions + 1 }).getLast? <;> simp

theorem traverse_eq_credited (app : Application) (op : PathPaymentOp) (src : AccountEntry)
    (L : Ledger) :
    PathPaymentOpFrame.traverse app op src L =
      (PathPaymentOpFrame.credited app op src L).bind
        (PathPaymentOpFrame.walk app (op.sendAsset :: op.path).reverse) := by
  unfold PathPaymentOpFrame.traverse PathPaymentOpFrame.credited
  cases PathPaymentOpFrame.resolveDestination app op (PathPaymentOpFrame.initial op src L) with
  | fatal => rfl
  | fail st => rfl
  | next p => rfl

/-- Resolving the destination changes only the ledger and the source frame. -/
theorem resolveDestination_next {app : Application} {op : PathPaymentOp}
    {st st0 : ApplyState} {d : AccountEntry}
    (h : PathPaymentOpFrame.resolveDestination app op st = Step.next (d, st0)) :
    st0.curB = st.curB ∧ st0.curBReceived = st.curBReceived ∧
    st0.innerResult = st.innerResult ∧ st0.conversions = st.conversions := by
  unfold PathPaymentOpFrame.resolveDestination at h
  obtain ⟨⟨d1, st1⟩, h1, h2⟩ := Step.bind_eq_next h
  have hst0 : st0 = st1 := by
    simp only at h2
    split at h2
    · split at h2
      · simp [ApplyState.failWith] at h2
      · simp only [Step.next.injEq, Prod.mk.injEq] at h2
        exact h2.2.symm
    · simp only [Step.next.injEq, Prod.mk.injEq] at h2
      exact h2.2.symm
  subst hst0
  split at h1
  · simp only [Step.next.injEq, Prod.mk.injEq] at h1
    obtain ⟨-, rfl⟩ := h1
    exact ⟨rfl, rfl, rfl, rfl⟩
  · split at h1
    · simp at h1
    · simp [ApplyState.failWith] at h1
    · split at h1
      · split at h1
        · simp [ApplyState.failWith] at h1
        · simp only [Step.next.injEq, Prod.mk.injEq] at h1
          obtain ⟨-, rfl⟩ := h1
          exact ⟨rfl, rfl, rfl, rfl⟩
      · simp only [Step.next.injEq, Prod.mk.injEq] at h1
        obtain ⟨-, rfl⟩ := h1
        exact ⟨rfl, rfl, rfl, rfl⟩

/-- The state in which the loop is entered. -/
theorem credited_next {app : Application} {op : PathPaymentOp} {src : AccountEntry}
    {L : Ledger} {st1 : ApplyState}
    (h : PathPaymentOpFrame.credited app op src L = Step.next st1) :
    st1.curB = op.destAsset ∧ st1.curBReceived = op.destAmount ∧ st1.conversions = 0 ∧
    st1.innerResult = PathPaymentResult.success []
      { destination := op.destination, asset := op.destAsset, amount := op.destAmount } := by
  unfold PathPaymentOpFrame.credited at h
  obtain ⟨⟨d, st0⟩, h1, h2⟩ := Step.bind_eq_next h
  obtain ⟨hb, hr, hi, hc⟩ := resolveDestination_next h1
  obtain ⟨hb1, hr1, -, hc1, ⟨offers, last, hi0, hi1⟩, -⟩ := creditDestination_next h2
  simp only [PathPaymentOpFrame.initial] at hb hr hi hc
  rw [hi] at hi0
  simp only [PathPaymentResult.success.injEq] at hi0
  rw [hb, hr] at hi1
  exact ⟨hb1.trans hb, hr1.trans hr, hc1.trans hc, by rw [hi1, ← hi0.1]⟩

theorem conversionsOf_sublist (app : Application) :
    ∀ (xs : List Asset) (st : ApplyState),
      ((PathPaymentOpFrame.conversionsOf app xs st).map (fun c => c.1)).Sublist xs
  | [], _ => by simp [PathPaymentOpFrame.conversionsOf]
  | a :: xs, st => by
    simp only [PathPaymentOpFrame.conversionsOf]
    split
    · rename_i st1 _
      by_cases hc : a = st.curB
      · simp only [hc, if_true, List.nil_append]
        exact List.Sublist.cons _ (conversionsOf_sublist app xs st1)
      · simp only [hc, if_false, List.singleton_append, List.map_cons]
        exact List.Sublist.cons₂ _ (conversionsOf_sublist app xs st1)
    · simp

theorem walk_append (app : Application) :
    ∀ (xs ys : List Asset) (st : ApplyState),
      PathPaymentOpFrame.walk app (xs ++ ys) st =
        (PathPaymentOpFrame.walk app xs st).bind (PathPaymentOpFrame.walk app ys)
  | [], ys, st => rfl
  | a :: xs, ys, st => by
    simp only [List.cons_append, PathPaymentOpFrame.walk]
    cases PathPaymentOpFrame.hop app a st with
    | fatal => rfl
    | fail s => rfl
    | next s => simp only [Step.bind_next]; exact walk_append app xs ys s

/-- A return of false before the debit is what `doApply` returns. -/
theorem doApply_of_traverse_fail {app : Application} {lm : LedgerManager}
    {op : PathPaymentOp} {src : AccountEntry} {L : Ledger} {st : ApplyState}
    (h : PathPaymentOpFrame.traverse app op src L = Step.fail st) :
    PathPaymentOpFrame.doApply app lm op src L =
      some { ret := false, innerResult := st.innerResult, ledger := st.ledger,
             mSourceAccount := st.mSourceAccount, conversions := st.conversions } := by
  unfold PathPaymentOpFrame.doApply
  rw [h]
  rfl

theorem doApply_of_traverse_fatal {app : Application} {lm : LedgerManager}
    {op : PathPaymentOp} {src : AccountEntry} {L : Ledger}
    (h : PathPaymentOpFrame.traverse app op src L = Step.fatal) :
    PathPaymentOpFrame.doApply app lm op src L = none := by
  unfold PathPaymentOpFrame.doApply
  rw [h]
  rfl

/-- A hop that returns false inside the loop makes the whole traversal return false. -/
theorem traverse_of_hop_fail {app : Application} {op : PathPaymentOp} {src : AccountEntry}
    {L : Ledger} {st1 st st2 : ApplyState} {pre post : List Asset} {curA : Asset}
    (hc : PathPaymentOpFrame.credited app op src L = Step.next st1)
    (hpath : (op.sendAsset :: op.path).reverse = pre ++ curA :: post)
    (hpre : PathPaymentOpFrame.walk app pre st1 = Step.next st)
    (hhop : PathPaymentOpFrame.hop app curA st = Step.fail st2) :
    PathPaymentOpFrame.traverse app op src L = Step.fail st2 := by
  rw [traverse_eq_credited, hc, Step.bind_next, hpath, walk_append, hpre, Step.bind_next]
  simp only [PathPaymentOpFrame.walk, hhop, Step.bind_fail]

/-- The hop on an asset that needs a conversion, once the issuer check and the assertion
on the amount sent have passed: the dispatch on what the exchange returned. -/
theorem hop_convert {app : Application} {curA : Asset} {st : ApplyState}
    (hne : curA ≠ st.curB)
    (hiss : ∀ iss, getIssuer curA = some iss →
      (AccountFrame.loadAccount iss st.ledger).isSome = true)
    (hsent : 0 ≤ (PathPaymentOpFrame.convert app curA st).curASent) :
    PathPaymentOpFrame.hop app curA st =
      (match (PathPaymentOpFrame.convert app curA st).result with
       | .eFilterStop =>
         Step.fail
           { st with
             innerResult := PathPaymentOpFrame.afterFilter st.mSourceAccount.accountID
               (PathPaymentOpFrame.convert app curA st).filtered st.innerResult,
             ledger := (PathPaymentOpFrame.convert app curA st).ledger,
             conversions := st.conversions + 1 }
       | .ePartial =>
         Step.fail
           { st with
             innerResult := PathPaymentResult.void PATH_PAYMENT_TOO_FEW_OFFERS,
             ledger := (PathPaymentOpFrame.convert app curA st).ledger,
             conversions := st.conversions + 1 }
       | .eOK =>
         if st.curBReceived = (PathPaymentOpFrame.convert app curA st).actualCurBReceived then
           match (PathPaymentOpFrame.afterFilter st.mSourceAccount.accountID
               (PathPaymentOpFrame.convert app curA st).filtered
               st.innerResult).insertOffers
               (PathPaymentOpFrame.convert app curA st).offerTrail with
           | none => Step.fatal
           | some r =>
             Step.next
               { curB := curA,
                 curBReceived := (PathPaymentOpFrame.convert app curA st).curASent,
                 innerResult := r,
                 ledger := (PathPaymentOpFrame.convert app curA st).ledger,
                 mSourceAccount := st.mSourceAccount,
                 conversions := st.conversions + 1 }
         else
           Step.fail
             { st with
               innerResult := PathPaymentResult.void PATH_PAYMENT_TOO_FEW_OFFERS,
               ledger := (PathPaymentOpFrame.convert app curA st).ledger,
               conversions := st.conversions + 1 }) := by
  have hmiss : (decide (curA ≠ Asset.native) &&
      (match getIssuer curA with
       | some issuerID => (AccountFrame.loadAccount issuerID st.ledger).isNone
       | none => false)) = false := by
    cases hg : getIssuer curA with
    | none => simp
    | some iss =>
      have := hiss iss hg
      simp only [Bool.and_eq_false_imp, decide_eq_true_eq]
      intro _
      cases hl : AccountFrame.loadAccount iss st.ledger with
      | none => rw [hl] at this; simp at this
      | some a => rfl
  have hns : ¬ (PathPaymentOpFrame.convert app curA st).curASent < 0 := not_lt.mpr hsent
  unfold PathPaymentOpFrame.hop
  simp only [hne, if_false, hmiss, Bool.false_eq_true, hns, ApplyState.failWith]
  cases (PathPaymentOpFrame.convert app curA st).result with
  | eFilterStop => rfl
  | ePartial => rfl
  | eOK => rfl

/-- Once the filter has met an offer of the source, the result code is OFFER_CROSS_SELF. -/
theorem afterFilter_crossed (sourceID : AccountID) :
    ∀ (os : List OfferEntry) (r : PathPaymentResult),
      (r = PathPaymentResult.void PATH_PAYMENT_OFFER_CROSS_SELF ∨
        ∃ o ∈ os, o.sellerID = sourceID) →
      PathPaymentOpFrame.afterFilter sourceID os r =
        PathPaymentResult.void PATH_PAYMENT_OFFER_CROSS_SELF
  | [], r, h => by
    rcases h with h | ⟨o, ho, -⟩
    · exact h
    · simp at ho
  | o :: os, r, h => by
    rw [afterFilter_cons]
    by_cases hs : o.sellerID = sourceID
    · rw [offerFilter_own sourceID o r hs]
      exact afterFilter_crossed sourceID os _ (Or.inl rfl)
    · rw [offerFilter_other sourceID o r hs]
      refine afterFilter_crossed sourceID os r ?_
      rcases h with h | ⟨o1, ho1, hs1⟩
      · exact Or.inl h
      · rcases List.mem_cons.mp ho1 with rfl | hm
        · exact absurd hs1 hs
        · exact Or.inr ⟨o1, hm, hs1⟩

theorem traverse_of_resolve_fail {app : Application} {op : PathPaymentOp}
    {src : AccountEntry} {L : Ledger} {st : ApplyState}
    (h : PathPaymentOpFrame.resolveDestination app op
      (PathPaymentOpFrame.initial op src L) = Step.fail st) :
    PathPaymentOpFrame.traverse app op src L = Step.fail st := by
  unfold PathPaymentOpFrame.traverse
  rw [h]
  rfl

theorem traverse_of_resolve_fatal {app : Application} {op : PathPaymentOp}
    {src : AccountEntry} {L : Ledger}
    (h : PathPaymentOpFrame.resolveDestination app op
      (PathPaymentOpFrame.initial op src L) = Step.fatal) :
    PathPaymentOpFrame.traverse app op src L = Step.fatal := by
  unfold PathPaymentOpFrame.traverse
  rw [h]
  rfl

theorem traverse_of_credit_fail {app : Application} {op : PathPaymentOp}
    {src : AccountEntry} {L : Ledger} {d : AccountEntry} {st0 st : ApplyState}
    (hres : PathPaymentOpFrame.resolveDestination app op
      (PathPaymentOpFrame.initial op src L) = Step.next (d, st0))
    (h : PathPaymentOpFrame.creditDestination op d st0 = Step.fail st) :
    PathPaymentOpFrame.traverse app op src L = Step.fail st := by
  unfold PathPaymentOpFrame.traverse
  rw [hres]
  simp only [Step.bind_next, h, Step.bind_fail]

theorem bypassIssuerCheck_true {op : PathPaymentOp}
    (h : PathPaymentOpFrame.bypassIssuerCheck op = true) :
    op.destAsset ≠ Asset.native ∧ op.path = [] ∧ op.sendAsset = op.destAsset ∧
      getIssuer op.destAsset = some op.destination := by
  simp only [PathPaymentOpFrame.bypassIssuerCheck, Bool.and_eq_true, decide_eq_true_eq,
    List.length_cons] at h
  obtain ⟨⟨⟨h1, h2⟩, h3⟩, h4⟩ := h
  refine ⟨h1, ?_, h3, h4⟩
  cases hp : op.path with
  | nil => rfl
  | cons a as => rw [hp] at h2; simp at h2

/-- The loop over one asset that is the current asset does nothing. -/
theorem walk_skip (app : Application) (a : Asset) (st : ApplyState) (h : st.curB = a) :
    PathPaymentOpFrame.walk app [a] st = Step.next st := by
  simp only [PathPaymentOpFrame.walk, PathPaymentOpFrame.hop, h, if_true, Step.bind_next]

/-- A failed resolution of the destination reports NO_DESTINATION and has made no
conversion. -/
theorem resolveDestination_fail {app : Application} {op : PathPaymentOp}
    {st st1 : ApplyState}
    (h : PathPaymentOpFrame.resolveDestination app op st = Step.fail st1) :
    st1.innerResult.code = PATH_PAYMENT_NO_DESTINATION ∧ st1.conversions = st.conversions := by
  unfold PathPaymentOpFrame.resolveDestination at h
  split at h
  · rename_i d hd
    simp only [Step.bind_next] at h
    split at h
    · split at h
      · simp only [ApplyState.failWith, Step.fail.injEq] at h
        subst h
        exact ⟨by simp, rfl⟩
      · simp at h
    · simp at h
  · split at h
    · simp at h
    · simp only [ApplyState.failWith, Step.bind_fail, Step.fail.injEq] at h
      subst h
      exact ⟨by simp, rfl⟩
    · split at h
      · split at h
        · simp only [ApplyState.failWith, Step.bind_fail, Step.fail.injEq] at h
          subst h
          exact ⟨by simp, rfl⟩
        · simp only [Step.bind_next] at h
          split at h
          · split at h
            · simp only [ApplyState.failWith, Step.fail.injEq] at h
              subst h
              exact ⟨by simp, rfl⟩
            · simp at h
          · simp at h
      · simp only [Step.bind_next] at h
        split at h
        · split at h
          · simp only [ApplyState.failWith, Step.fail.injEq] at h
            subst h
            exact ⟨by simp, rfl⟩
          · simp at h
        · simp at h

/-- A failed credit of the destination has set a failure code, which is NO_ISSUER only
without `bypassIssuerCheck`, and has made no conversion. -/
theorem creditDestination_fail {op : PathPaymentOp} {d : AccountEntry} {st st1 : ApplyState}
    (h : PathPaymentOpFrame.creditDestination op d st = Step.fail st1) :
    st1.innerResult.code ≠ PATH_PAYMENT_SUCCESS ∧ st1.conversions = st.conversions ∧
    (PathPaymentOpFrame.bypassIssuerCheck op = true →
      st1.innerResult.code ≠ PATH_PAYMENT_NO_ISSUER) := by
  unfold PathPaymentOpFrame.creditDestination at h
  by_cases hn : st.curB = Asset.native
  · simp only [hn, if_true] at h
    split at h
    · simp only [ApplyState.failWith, Step.bind_fail, Step.fail.injEq] at h
      subst h
      exact ⟨by simp, rfl, fun _ => by simp⟩
    · simp only [Step.bind_next] at h
      split at h <;> simp at h
  · simp only [hn, if_false] at h
    by_cases hb : PathPaymentOpFrame.bypassIssuerCheck op = true
    · simp only [hb, if_true, Step.bind_next] at h
      split at h
      · simp only [ApplyState.failWith, Step.bind_fail, Step.fail.injEq] at h
        subst h
        exact ⟨by simp, rfl, fun _ => by simp⟩
      · split at h
        · simp only [ApplyState.failWith, Step.bind_fail, Step.fail.injEq] at h
          subst h
          exact ⟨by simp, rfl, fun _ => by simp⟩
        · split at h
          · simp only [ApplyState.failWith, Step.bind_fail, Step.fail.injEq] at h
            subst h
            exact ⟨by simp, rfl, fun _ => by simp⟩
          · simp only [Step.bind_next] at h
            split at h <;> simp at h
    · simp only [hb, if_false, Bool.false_eq_true] at h
      split at h
      · simp at h
      · simp only [ApplyState.failNoIssuer, Step.bind_fail, Step.fail.injEq] at h
        subst h
        exact ⟨by simp [PathPaymentResult.code], rfl, fun hb2 => absurd hb2 hb⟩
      · simp only [Step.bind_next] at h
        split at h
        · simp only [ApplyState.failWith, Step.bind_fail, Step.fail.injEq] at h
          subst h
          exact ⟨by simp, rfl, fun hb2 => absurd hb2 hb⟩
        · split at h
          · simp only [ApplyState.failWith, Step.bind_fail, Step.fail.injEq] at h
            subst h
            exact ⟨by simp, rfl, fun hb2 => absurd hb2 hb⟩
          · split at h
            · simp only [ApplyState.failWith, Step.bind_fail, Step.fail.injEq] at h
              subst h
              exact ⟨by simp, rfl, fun hb2 => absurd hb2 hb⟩
            · simp only [Step.bind_next] at h
              split at h <;> simp at h
/-- A failed debit under `bypassIssuerCheck` does not report NO_ISSUER. -/
theorem debitSource_fail_bypass {lm : LedgerManager} {op : PathPaymentOp}
    {st st1 : ApplyState}
    (hb : PathPaymentOpFrame.bypassIssuerCheck op = true)
    (h : PathPaymentOpFrame.debitSource lm op st = Step.fail st1) :
    st1.innerResult.code ≠ PATH_PAYMENT_NO_ISSUER := by
  unfold PathPaymentOpFrame.debitSource at h
  by_cases hmax : st.curBReceived > op.sendMax
  · simp only [hmax, if_true, ApplyState.failWith, Step.fail.injEq] at h
    subst h
    simp
  · simp only [hmax, if_false] at h
    by_cases hn : st.curB = Asset.native
    · simp only [hn, if_true] at h
      split at h
      · simp only [ApplyState.failWith, Step.fail.injEq] at h
        subst h
        simp
      · split at h
        · simp only [ApplyState.failWith, Step.fail.injEq] at h
          subst h
          simp
        · split at h <;> simp at h
    · simp only [hn, if_false, hb, if_true, Step.bind_next] at h
      split at h
      · simp only [ApplyState.failWith, Step.fail.injEq] at h
        subst h
        simp
      · split at h
        · simp only [ApplyState.failWith, Step.fail.injEq] at h
          subst h
          simp
        · split at h
          · simp only [ApplyState.failWith, Step.fail.injEq] at h
            subst h
            simp
          · simp at h

/-- A failure before the loop: the code is a failure code, NO_ISSUER only without
`bypassIssuerCheck`, and no conversion has been made. -/
theorem credited_fail {app : Application} {op : PathPaymentOp} {src : AccountEntry}
    {L : Ledger} {st : ApplyState}
    (h : PathPaymentOpFrame.credited app op src L = Step.fail st) :
    st.innerResult.code ≠ PATH_PAYMENT_SUCCESS ∧ st.conversions = 0 ∧
    (PathPaymentOpFrame.bypassIssuerCheck op = true →
      st.innerResult.code ≠ PATH_PAYMENT_NO_ISSUER) := by
  unfold PathPaymentOpFrame.credited at h
  cases hr : PathPaymentOpFrame.resolveDestination app op
      (PathPaymentOpFrame.initial op src L) with
  | fatal => rw [hr] at h; simp at h
  | fail st0 =>
    rw [hr] at h
    simp only [Step.bind_fail, Step.fail.injEq] at h
    subst h
    obtain ⟨hc, hn⟩ := resolveDestination_fail hr
    refine ⟨by rw [hc]; decide, hn, fun _ => by rw [hc]; decide⟩
  | next p =>
    obtain ⟨d, st0⟩ := p
    rw [hr] at h
    simp only [Step.bind_next] at h
    obtain ⟨-, -, -, hn0⟩ := resolveDestination_next hr
    obtain ⟨hc, hn, hb⟩ := creditDestination_fail h
    exact ⟨hc, by rw [hn, hn0]; rfl, hb⟩

/-- The filter answers `eStop` exactly on an offer of the source. -/
theorem offerFilter_stop {sourceID : AccountID} {o : OfferEntry} {r : PathPaymentResult}
    (h : (PathPaymentOpFrame.offerFilter sourceID o r).1 = OfferFilterResult.eStop) :
    o.sellerID = sourceID := by
  by_cases hs : o.sellerID = sourceID
  · exact hs
  · rw [offerFilter_other sourceID o r hs] at h
    simp at h

/-- A hop that returns false has set a failure code, provided the exchange returns
`eFilterStop` only after the filter has answered `eStop`. -/
theorem hop_fail {app : Application}
    (hexch : ∀ sheep maxSheepSend wheat maxWheatReceive flag
      (filter : OfferEntry → OfferFilterResult) (L : Ledger),
      (app.convertWithOffers sheep maxSheepSend wheat maxWheatReceive flag filter L).result =
        ConvertResult.eFilterStop →
      ∃ o ∈ (app.convertWithOffers sheep maxSheepSend wheat maxWheatReceive flag
          filter L).filtered, filter o = OfferFilterResult.eStop)
    {curA : Asset} {st st2 : ApplyState}
    (h : PathPaymentOpFrame.hop app curA st = Step.fail st2) :
    st2.innerResult.code ≠ PATH_PAYMENT_SUCCESS := by
  unfold PathPaymentOpFrame.hop at h
  by_cases hne : curA = st.curB
  · simp [hne] at h
  · simp only [hne, if_false] at h
    split at h
    · simp only [ApplyState.failNoIssuer, Step.fail.injEq] at h
      subst h
      simp [PathPaymentResult.code]
    · split at h
      · simp at h
      · cases hres : (PathPaymentOpFrame.convert app curA st).result with
        | eFilterStop =>
          simp only [hres, Step.fail.injEq] at h
          subst h
          obtain ⟨o, ho, hstop⟩ := hexch _ _ _ _ _ _ _ hres
          have hown := offerFilter_stop hstop
          have := afterFilter_crossed st.mSourceAccount.accountID
            (PathPaymentOpFrame.convert app curA st).filtered st.innerResult
            (Or.inr ⟨o, ho, hown⟩)
          simp only [this]
          decide
        | ePartial =>
          simp only [hres, ApplyState.failWith, Step.fail.injEq] at h
          subst h
          simp
        | eOK =>
          simp only [hres] at h
          split at h
          · split at h <;> simp at h
          · simp only [ApplyState.failWith, Step.fail.injEq] at h
            subst h
            simp

theorem walk_fail {app : Application}
    (hexch : ∀ sheep maxSheepSend wheat maxWheatReceive flag
      (filter : OfferEntry → OfferFilterResult) (L : Ledger),
      (app.convertWithOffers sheep maxSheepSend wheat maxWheatReceive flag filter L).result =
        ConvertResult.eFilterStop →
      ∃ o ∈ (app.convertWithOffers sheep maxSheepSend wheat maxWheatReceive flag
          filter L).filtered, filter o = OfferFilterResult.eStop) :
    ∀ (xs : List Asset) (st st2 : ApplyState),
      PathPaymentOpFrame.walk app xs st = Step.fail st2 →
      st2.innerResult.code ≠ PATH_PAYMENT_SUCCESS
  | [], st, st2, h => by simp [PathPaymentOpFrame.walk] at h
  | a :: xs, st, st2, h => by
    simp only [PathPaymentOpFrame.walk] at h
    cases hh : PathPaymentOpFrame.hop app a st with
    | fatal => rw [hh] at h; simp at h
    | fail s =>
      rw [hh] at h
      simp only [Step.bind_fail, Step.fail.injEq] at h
      subst h
      exact hop_fail hexch hh
    | next s =>
      rw [hh] at h
      simp only [Step.bind_next] at h
      exact walk_fail hexch xs s st2 h

/-- The sample exchange returns `eFilterStop` only after its filter has answered `eStop`. -/
theorem Sample.convertWithOffers_stop (sheep : Asset) (maxSheepSend : Int) (wheat : Asset)
    (maxWheatReceive : Int) (flag : Bool) (filter : OfferEntry → OfferFilterResult)
    (L : Ledger)
    (h : (Sample.convertWithOffers sheep maxSheepSend wheat maxWheatReceive flag filter
      L).result = ConvertResult.eFilterStop) :
    ∃ o ∈ (Sample.convertWithOffers sheep maxSheepSend wheat maxWheatReceive flag filter
        L).filtered, filter o = OfferFilterResult.eStop := by
  unfold Sample.convertWithOffers at h ⊢
  simp only at h ⊢
  split
  · rename_i hf
    simp only [hf] at h
    simp at h
  · rename_i o hf
    simp only [hf] at h
    by_cases hs : filter o = OfferFilterResult.eStop
    · simp only [hs, if_true]
      exact ⟨o, by simp, hs⟩
    · simp only [hs, if_false] at h
      split at h
      · simp at h
      · split at h <;> simp at h

/-- Every way `ChangeTrustOpFrame::doApply` can return, as a case split on its result. -/
theorem changeTrust_doApply_shape (lm : LedgerManager) (op : ChangeTrustOp)
    (src : AccountEntry) (L : Ledger) (out : ChangeTrustApplied)
    (h : ChangeTrustOpFrame.doApply lm op src L = some out) :
    (∃ c, out = ChangeTrustOpFrame.failed c src L ∧
      (c = CHANGE_TRUST_SELF_NOT_ALLOWED ∨ c = CHANGE_TRUST_INVALID_LIMIT ∨
        c = CHANGE_TRUST_NO_ISSUER ∨ c = CHANGE_TRUST_LOW_RESERVE)) ∨
    (∃ tl, TrustFrame.loadTrustLine src.accountID op.line L = some tl ∧
      ¬ op.limit < tl.balance ∧ op.limit = 0 ∧
      out = ChangeTrustOpFrame.succeeded
        [StoreOp.trustDelete tl,
         StoreOp.accountChange { src with numSubEntries := src.numSubEntries - 1 }]
        { src with numSubEntries := src.numSubEntries - 1 } L) ∨
    (∃ tl, TrustFrame.loadTrustLine src.accountID op.line L = some tl ∧
      ¬ op.limit < tl.balance ∧ op.limit ≠ 0 ∧
      out = ChangeTrustOpFrame.succeeded
        [StoreOp.trustChange { tl with limit := op.limit }] src L) ∨
    (∃ issuer issuerID, TrustFrame.loadTrustLine src.accountID op.line L = none ∧
      getIssuer op.line = some issuerID ∧
      AccountFrame.loadAccount issuerID L = some issuer ∧
      ChangeTrustOpFrame.selfTrust lm (some issuer) src.accountID = false ∧
      op.limit ≠ 0 ∧
      out = ChangeTrustOpFrame.succeeded
        [StoreOp.accountChange { src with numSubEntries := src.numSubEntries + 1 },
         StoreOp.trustAdd
           { accountID := src.accountID, asset := op.line, limit := op.limit,
             balance := 0, authorized := !issuer.authRequired }]
        { src with numSubEntries := src.numSubEntries + 1 } L) := by
  unfold ChangeTrustOpFrame.doApply TrustFrame.loadTrustLineIssuer at h
  cases hi : getIssuer op.line with
  | none => simp [hi] at h
  | some issuerID =>
    simp only [hi] at h
    by_cases hs : ChangeTrustOpFrame.selfTrust lm (AccountFrame.loadAccount issuerID L)
        src.accountID = true
    · simp only [hs, if_true, Option.some.injEq] at h
      exact Or.inl ⟨_, h.symm, Or.inl rfl⟩
    · simp only [hs, if_false, Bool.false_eq_true] at h
      cases ht : TrustFrame.loadTrustLine src.accountID op.line L with
      | some tl =>
        simp only [ht] at h
        by_cases hlt : op.limit < tl.balance
        · simp only [hlt, if_true, Option.some.injEq] at h
          exact Or.inl ⟨_, h.symm, Or.inr (Or.inl rfl)⟩
        · simp only [hlt, if_false] at h
          by_cases h0 : op.limit = 0
          · simp only [h0, if_true, Option.some.injEq, addNumEntries_remove] at h
            exact Or.inr (Or.inl ⟨tl, rfl, hlt, h0, h.symm⟩)
          · simp only [h0, if_false] at h
            cases hacc : AccountFrame.loadAccount issuerID L with
            | none =>
              simp only [hacc, Option.some.injEq] at h
              exact Or.inl ⟨_, h.symm, Or.inr (Or.inr (Or.inl rfl))⟩
            | some issuer =>
              simp only [hacc, Option.some.injEq] at h
              exact Or.inr (Or.inr (Or.inl ⟨tl, rfl, hlt, h0, h.symm⟩))
      | none =>
        simp only [ht] at h
        by_cases h0 : op.limit = 0
        · simp only [h0, if_true, Option.some.injEq] at h
          exact Or.inl ⟨_, h.symm, Or.inr (Or.inl rfl)⟩
        · simp only [h0, if_false] at h
          cases hacc : AccountFrame.loadAccount issuerID L with
          | none =>
            simp only [hacc, Option.some.injEq] at h
            exact Or.inl ⟨_, h.symm, Or.inr (Or.inr (Or.inl rfl))⟩
          | some issuer =>
            simp only [hacc] at h hs
            cases hadd : (AccountFrame.addNumEntries lm 1 src).1 with
            | false =>
              rw [addNumEntries_of_false lm 1 src hadd] at h
              simp only [Option.some.injEq] at h
              exact Or.inl ⟨_, h.symm, Or.inr (Or.inr (Or.inr rfl))⟩
            | true =>
              rw [addNumEntries_of_true lm 1 src hadd] at h
              simp only [Option.some.injEq] at h
              refine Or.inr (Or.inr (Or.inr ⟨issuer, issuerID, rfl, rfl, hacc, ?_, h0, h.symm⟩))
              simpa using hs

theorem trustLines_after_delete (tl : TrustLineEntry) (a : AccountEntry) (L : Ledger)
    (t : TrustLineEntry)
    (ht : t ∈ (runStores [StoreOp.trustDelete tl, StoreOp.accountChange a] L).trustLines) :
    t ∈ L.trustLines := by
  simp only [runStores, List.foldl, StoreOp.run, AccountFrame.storeChange,
    TrustFrame.storeDelete, List.mem_filter] at ht
  exact ht.1

theorem trustLines_after_change (tl : TrustLineEntry) (L : Ledger) (t : TrustLineEntry)
    (ht : t ∈ (runStores [StoreOp.trustChange tl] L).trustLines) :
    t ∈ L.trustLines ∨ (t = tl ∧ ∃ old ∈ L.trustLines,
      old.accountID = tl.accountID ∧ old.asset = tl.asset) := by
  simp only [runStores, List.foldl, StoreOp.run, TrustFrame.storeChange, List.mem_map] at ht
  obtain ⟨x, hx, rfl⟩ := ht
  by_cases hk : x.accountID = tl.accountID ∧ x.asset = tl.asset
  · right
    simp only [hk, and_self, decide_True, if_true, true_and]
    exact ⟨x, hx, hk⟩
  · left
    simpa [hk] using hx

theorem trustLines_after_add (a : AccountEntry) (tl : TrustLineEntry) (L : Ledger)
    (t : TrustLineEntry)
    (ht : t ∈ (runStores [StoreOp.accountChange a, StoreOp.trustAdd tl] L).trustLines) :
    t ∈ L.trustLines ∨ t = tl := by
  simpa [runStores, StoreOp.run, AccountFrame.storeChange, TrustFrame.storeAdd] using ht

theorem selfTrust_false_issuer (lm : LedgerManager) (issuer : AccountEntry) (id : AccountID)
    (hv : 3 ≤ lm.ledgerVersion)
    (h : ChangeTrustOpFrame.selfTrust lm (some issuer) id = false) : issuer.accountID ≠ id := by
  have hv2 : lm.ledgerVersion > 2 := by omega
  simpa [ChangeTrustOpFrame.selfTrust, hv2] using h

/-- One ChangeTrust apply at ledger version 3 or later keeps the ledger free of
self-trustlines. -/
theorem changeTrust_step_no_self_trust (lm : LedgerManager) (op : ChangeTrustOp)
    (src : AccountEntry) (L : Ledger) (out : ChangeTrustApplied)
    (hv : 3 ≤ lm.ledgerVersion) (hL : noSelfTrustLine L)
    (h : ChangeTrustOpFrame.doApply lm op src L = some out) : noSelfTrustLine out.ledger := by
  rcases changeTrust_doApply_shape lm op src L out h with
    ⟨c, rfl, -⟩ | ⟨tl, -, -, -, rfl⟩ | ⟨tl, hload, -, -, rfl⟩ |
    ⟨issuer, issuerID, -, hline, hacc, hs, -, rfl⟩
  · exact hL
  · intro t ht
    exact hL t (trustLines_after_delete _ _ _ _ ht)
  · intro t ht
    rcases trustLines_after_change _ _ _ ht with h1 | ⟨rfl, -⟩
    · exact hL t h1
    · exact hL tl (loadTrustLine_mem hload)
  · intro t ht
    rcases trustLines_after_add _ _ _ _ ht with h1 | rfl
    · exact hL t h1
    · simp only [hline, ne_eq, Option.some.injEq]
      have h1 := selfTrust_false_issuer lm issuer src.accountID hv hs
      rw [loadAccount_accountID hacc] at h1
      exact h1

/-- Applying an operation with a limit of at least 0 keeps `0 ≤ balance ≤ limit` on every
trustline. -/
theorem changeTrust_doApply_keeps_bounds (lm : LedgerManager) (op : ChangeTrustOp) (src : AccountEntry) (L : Ledger) (out : ChangeTrustApplied)
    (hlim : 0 ≤ op.limit) (hL : trustLinesBounded L)
    (h : ChangeTrustOpFrame.doApply lm op src L = some out) : trustLinesBounded out.ledger := by
  rcases changeTrust_doApply_shape lm op src L out h with
    ⟨c, rfl, -⟩ | ⟨tl, -, -, -, rfl⟩ | ⟨tl, hload, hge, -, rfl⟩ |
    ⟨issuer, issuerID, -, -, -, -, -, rfl⟩
  · exact hL
  · intro t ht
    exact hL t (trustLines_after_delete _ _ _ _ ht)
  · intro t ht
    rcases trustLines_after_change _ _ _ ht with h1 | ⟨rfl, -⟩
    · exact hL t h1
    · have hb := hL tl (loadTrustLine_mem hload)
      exact ⟨hb.1, by simpa using not_lt.mp hge⟩
  · intro t ht
    rcases trustLines_after_add _ _ _ _ ht with h1 | rfl
    · exact hL t h1
    · exact ⟨le_refl _, hlim⟩

/-! ## PathPayment: properties -/

/-- C3: a failed PathPayment leaves the ledger as it was.  `doApply` writes the destination
credit and the conversions into the delta before it can fail; the caller discards that
delta.  Whenever the apply returns false or ends with a result code other than SUCCESS,
it has returned false and the ledger is the one before the operation. -/
theorem pathPayment_failure_restores_ledger (app : Application) (lm : LedgerManager)
    (op : PathPaymentOp) (src : AccountEntry) (L : Ledger) (out : PathPaymentApplied)
    (h : PathPaymentOpFrame.apply app lm op src L = some out)
    (hfail : out.ret = false ∨ out.innerResult.code ≠ PATH_PAYMENT_SUCCESS) :
    out.ret = false ∧ out.ledger = L := by
  unfold PathPaymentOpFrame.apply at h
  cases hd : PathPaymentOpFrame.doApply app lm op src L with
  | none => rw [hd] at h; simp at h
  | some out0 =>
    rw [hd] at h
    simp only at h
    by_cases hr : out0.ret = true
    · simp only [hr, if_true, Option.some.injEq] at h
      subst h
      have hc := doApply_ret_true_code hd hr
      rcases hfail with hf | hf
      · rw [hr] at hf; cases hf
      · exact absurd hc hf
    · simp only [hr, if_false, Option.some.injEq, Bool.false_eq_true] at h
      subst h
      exact ⟨by simp, rfl⟩

/-- An instance: the OVER_SENDMAX payment.  `doApply` leaves a ledger that differs from the
one it started on; after the caller's discard the ledger is the original one. -/
theorem pathPayment_failure_restores_ledger_witness :
    (PathPaymentOpFrame.doApply Sample.app Sample.lm8 Sample.usdPaymentTight Sample.alice
      Sample.ledger).map (fun out => decide (out.ledger = Sample.ledger)) = some false ∧
    ∃ out, PathPaymentOpFrame.apply Sample.app Sample.lm8 Sample.usdPaymentTight
        Sample.alice Sample.ledger = some out ∧
      out.innerResult.code = PATH_PAYMENT_OVER_SENDMAX ∧
      out.ret = false ∧ out.ledger = Sample.ledger := by
  refine ⟨by decide, ?_⟩
  obtain ⟨out, hout⟩ := Option.isSome_iff_exists.mp
    (show (PathPaymentOpFrame.apply Sample.app Sample.lm8 Sample.usdPaymentTight
      Sample.alice Sample.ledger).isSome = true by decide)
  have hcode : out.innerResult.code = PATH_PAYMENT_OVER_SENDMAX := by
    have : (PathPaymentOpFrame.apply Sample.app Sample.lm8 Sample.usdPaymentTight
        Sample.alice Sample.ledger).map (fun o => o.innerResult.code) =
          some PATH_PAYMENT_OVER_SENDMAX := by decide
    rw [hout] at this
    simpa using this
  exact ⟨out, hout, hcode,
    pathPayment_failure_restores_ledger Sample.app Sample.lm8 Sample.usdPaymentTight
      Sample.alice Sample.ledger out hout (Or.inr (by rw [hcode]; decide))⟩

/-- C4: direct native payment.  With `sendAsset = destAsset = native`, an empty path, the
source account A (whose frame is the stored entry) and a different destination account B
both in the ledger, `destAmount ≤ sendMax`, B's new balance fitting 64 bits and A's new
balance meeting the reserve (and fitting 64 bits): the apply returns SUCCESS without a
single call of the exchange, A's balance is lowered and B's raised by exactly `destAmount`,
the offers list is empty and `last = (B, native, destAmount)`. -/
theorem pathPayment_direct_native (app : Application) (lm : LedgerManager)
    (op : PathPaymentOp) (src : AccountEntry) (L : Ledger) (b : AccountEntry)
    (hsend : op.sendAsset = Asset.native) (hdest : op.destAsset = Asset.native)
    (hpath : op.path = [])
    (hsrc : AccountFrame.loadAccount src.accountID L = some src)
    (hdst : AccountFrame.loadAccount op.destination L = some b)
    (hne : op.destination ≠ src.accountID)
    (hmax : op.destAmount ≤ op.sendMax)
    (hfitB : INT64_MIN ≤ b.balance + op.destAmount ∧ b.balance + op.destAmount ≤ INT64_MAX)
    (hres : AccountFrame.getMinimumBalance lm src ≤ src.balance - op.destAmount)
    (hfitA : INT64_MIN ≤ src.balance - op.destAmount ∧
      src.balance - op.destAmount ≤ INT64_MAX) :
    ∃ out, PathPaymentOpFrame.doApply app lm op src L = some out ∧
      out.ret = true ∧ out.innerResult.code = PATH_PAYMENT_SUCCESS ∧
      out.conversions = 0 ∧
      out.innerResult = PathPaymentResult.success []
        { destination := op.destination, asset := Asset.native, amount := op.destAmount } ∧
      AccountFrame.loadAccount src.accountID out.ledger =
        some { src with balance := src.balance - op.destAmount } ∧
      AccountFrame.loadAccount op.destination out.ledger =
        some { b with balance := b.balance + op.destAmount } := by
  have hbid : b.accountID = op.destination := loadAccount_accountID hdst
  have hcredit : AccountFrame.addBalance op.destAmount b =
      some { b with balance := b.balance + op.destAmount } := by
    simp only [AccountFrame.addBalance]
    rw [if_neg]
    simp only [not_or, not_lt]
    exact hfitB
  have hdebit : AccountFrame.addBalance (-op.destAmount) src =
      some { src with balance := src.balance - op.destAmount } := by
    simp only [AccountFrame.addBalance, ← Int.sub_eq_add_neg]
    rw [if_neg]
    simp only [not_or, not_lt]
    exact hfitA
  have hsrc1 : AccountFrame.loadAccount src.accountID
      (AccountFrame.storeChange { b with balance := b.balance + op.destAmount } L) =
        some src := by
    rw [loadAccount_storeChange_other _ _ _ (by simpa [hbid] using fun e => hne e.symm)]
    exact hsrc
  have hdst1 : AccountFrame.loadAccount op.destination
      (AccountFrame.storeChange { b with balance := b.balance + op.destAmount } L) =
        some { b with balance := b.balance + op.destAmount } := by
    have := loadAccount_storeChange_same { b with balance := b.balance + op.destAmount } b L
      (by simpa [hbid] using hdst)
    simpa [hbid] using this
  have htrav : PathPaymentOpFrame.traverse app op src L = Step.next
      { curB := Asset.native, curBReceived := op.destAmount,
        innerResult := PathPaymentResult.success []
          { destination := op.destination, asset := Asset.native, amount := op.destAmount },
        ledger := AccountFrame.storeChange { b with balance := b.balance + op.destAmount } L,
        mSourceAccount := src, conversions := 0 } := by
    unfold PathPaymentOpFrame.traverse
    rw [resolveDestination_existing app op _ b (by simpa [PathPaymentOpFrame.initial] using hdst)]
    simp only [Step.bind_next, PathPaymentOpFrame.creditDestination,
      PathPaymentOpFrame.initial, hdest, hsend, hpath, if_true, hcredit,
      PathPaymentResult.setLast, List.reverse_cons, List.reverse_nil, List.nil_append,
      PathPaymentOpFrame.walk, PathPaymentOpFrame.hop]
  have hnot : ¬ op.destAmount > op.sendMax := not_lt.mpr hmax
  have hminb : ¬ src.balance - op.destAmount < AccountFrame.getMinimumBalance lm src :=
    not_lt.mpr hres
  have hdeb : PathPaymentOpFrame.debitSource lm op
      { curB := Asset.native, curBReceived := op.destAmount,
        innerResult := PathPaymentResult.success []
          { destination := op.destination, asset := Asset.native, amount := op.destAmount },
        ledger := AccountFrame.storeChange { b with balance := b.balance + op.destAmount } L,
        mSourceAccount := src, conversions := 0 } = Step.next
      { curB := Asset.native, curBReceived := op.destAmount,
        innerResult := PathPaymentResult.success []
          { destination := op.destination, asset := Asset.native, amount := op.destAmount },
        ledger := AccountFrame.storeChange { src with balance := src.balance - op.destAmount }
          (AccountFrame.storeChange { b with balance := b.balance + op.destAmount } L),
        mSourceAccount := if decide (lm.ledgerVersion > 7) = true then src
          else { src with balance := src.balance - op.destAmount },
        conversions := 0 } := by
    unfold PathPaymentOpFrame.debitSource
    simp only [hnot, if_false, if_true]
    by_cases hv : lm.ledgerVersion > 7
    · simp only [hv, decide_True, if_true, hsrc1, hminb, if_false, hdebit]
    · simp only [hv, decide_False, if_false, Bool.false_eq_true, hminb, hdebit]
  rw [doApply_of_traverse htrav, hdeb]
  refine ⟨_, rfl, rfl, rfl, rfl, rfl, ?_, ?_⟩
  · exact loadAccount_storeChange_same { src with balance := src.balance - op.destAmount }
      src _ hsrc1
  · rw [loadAccount_storeChange_other _ _ _ (by simpa using hne)]
    exact hdst1

/-- An instance: Alice (1000) pays Bob (100) 300 native; afterwards Alice has 700 and Bob
400, and the exchange was not called. -/
theorem pathPayment_direct_native_witness :
    ∃ out, PathPaymentOpFrame.doApply Sample.app Sample.lm8 Sample.nativePayment
        Sample.alice Sample.ledger = some out ∧
      out.ret = true ∧ out.innerResult.code = PATH_PAYMENT_SUCCESS ∧
      out.conversions = 0 ∧
      out.innerResult = PathPaymentResult.success []
        { destination := 2, asset := Asset.native, amount := 300 } ∧
      AccountFrame.loadAccount 1 out.ledger = some { Sample.alice with balance := 700 } ∧
      AccountFrame.loadAccount 2 out.ledger = some { Sample.bob with balance := 400 } :=
  pathPayment_direct_native Sample.app Sample.lm8 Sample.nativePayment Sample.alice
    Sample.ledger Sample.bob rfl rfl rfl (by decide) (by decide) (by decide) (by decide)
    (by decide) (by decide) (by decide)

/-- C11: the claimed offers are in forward path order.  After a successful apply,
`success().offers` is the concatenation of the offer trails the exchange returned for the
conversions of the backward loop, taken in the reverse of the order the loop made them,
that is by increasing index of `fullPath = sendAsset :: path` (the assets sold form a
sublist of `fullPath`); a hop whose asset is the current asset is not a conversion and
contributes nothing. -/
theorem pathPayment_offers_forward_order (app : Application) (lm : LedgerManager)
    (op : PathPaymentOp) (src : AccountEntry) (L : Ledger) (out : PathPaymentApplied)
    (hout : PathPaymentOpFrame.doApply app lm op src L = some out)
    (hret : out.ret = true) :
    ∃ st1, PathPaymentOpFrame.credited app op src L = Step.next st1 ∧
      out.innerResult = PathPaymentResult.success
        (((PathPaymentOpFrame.conversionsOf app (op.sendAsset :: op.path).reverse
            st1).reverse.map (fun c => c.2.offerTrail)).flatten)
        { destination := op.destination, asset := op.destAsset, amount := op.destAmount } ∧
      (((PathPaymentOpFrame.conversionsOf app (op.sendAsset :: op.path).reverse
          st1).reverse.map (fun c => c.1)).Sublist (op.sendAsset :: op.path)) := by
  obtain ⟨st, st2, ht, hd, hir, -⟩ := doApply_ret_true hout hret
  rw [traverse_eq_credited] at ht
  obtain ⟨st1, hc, hw⟩ := Step.bind_eq_next ht
  obtain ⟨-, -, -, hres⟩ := credited_next hc
  obtain ⟨hoff, -⟩ := walk_next_conversions app _ st1 st _ _ hres hw
  obtain ⟨-, hir2, -, -⟩ := debitSource_next hd
  refine ⟨st1, hc, ?_, ?_⟩
  · rw [hir, hir2, hoff, List.append_nil]
  · have := conversionsOf_sublist app (op.sendAsset :: op.path).reverse st1
    have h2 := this.reverse
    rw [List.reverse_reverse] at h2
    simpa [List.map_reverse] using h2

/-- An instance: Alice pays Bob USD through EUR; the claimed offers list the native-for-EUR
conversion before the EUR-for-USD one. -/
theorem pathPayment_offers_forward_order_witness :
    ∃ out, PathPaymentOpFrame.doApply Sample.tracingApp Sample.lm8 Sample.twoHopPayment
        Sample.alice Sample.ledger = some out ∧ out.ret = true ∧
      out.innerResult = Sample.twoHopTraversed.innerResult ∧
      ∃ st1, PathPaymentOpFrame.credited Sample.tracingApp Sample.twoHopPayment Sample.alice
          Sample.ledger = Step.next st1 ∧
        out.innerResult = PathPaymentResult.success
          (((PathPaymentOpFrame.conversionsOf Sample.tracingApp
              (Sample.twoHopPayment.sendAsset :: Sample.twoHopPayment.path).reverse
              st1).reverse.map (fun c => c.2.offerTrail)).flatten)
          { destination := 2, asset := Sample.usd, amount := 100 } := by
  obtain ⟨out, hout⟩ := Option.isSome_iff_exists.mp
    (show (PathPaymentOpFrame.doApply Sample.tracingApp Sample.lm8 Sample.twoHopPayment
      Sample.alice Sample.ledger).isSome = true by decide)
  have hret : out.ret = true ∧ out.innerResult = Sample.twoHopTraversed.innerResult := by
    have : (PathPaymentOpFrame.doApply Sample.tracingApp Sample.lm8 Sample.twoHopPayment
        Sample.alice Sample.ledger).map (fun o => (o.ret, o.innerResult)) =
          some (true, Sample.twoHopTraversed.innerResult) := by decide
    rw [hout] at this
    simpa using this
  obtain ⟨st1, h1, h2, -⟩ :=
    pathPayment_offers_forward_order Sample.tracingApp Sample.lm8 Sample.twoHopPayment
      Sample.alice Sample.ledger out hout hret.1
  exact ⟨out, hout, hret.1, hret.2, st1, h1, h2⟩

/-- C12: partial fills fail.  At a hop of the backward traversal that needs a conversion
(its asset is not the current asset, its issuer exists) and whose exchange call reports a
non-negative amount sent: if the exchange returns ePartial, or eOK with an amount received
other than the amount needed, the apply returns false with TOO_FEW_OFFERS; and the loop
goes on to the next hop only if the exchange returned eOK with the amount received equal
to the amount needed. -/
theorem pathPayment_too_few_offers (app : Application) (lm : LedgerManager)
    (op : PathPaymentOp) (src : AccountEntry) (L : Ledger) (st1 st : ApplyState)
    (pre post : List Asset) (curA : Asset)
    (hc : PathPaymentOpFrame.credited app op src L = Step.next st1)
    (hpath : (op.sendAsset :: op.path).reverse = pre ++ curA :: post)
    (hpre : PathPaymentOpFrame.walk app pre st1 = Step.next st)
    (hne : curA ≠ st.curB)
    (hiss : ∀ iss, getIssuer curA = some iss →
      (AccountFrame.loadAccount iss st.ledger).isSome = true)
    (hsent : 0 ≤ (PathPaymentOpFrame.convert app curA st).curASent) :
    (((PathPaymentOpFrame.convert app curA st).result = ConvertResult.ePartial ∨
      ((PathPaymentOpFrame.convert app curA st).result = ConvertResult.eOK ∧
        (PathPaymentOpFrame.convert app curA st).actualCurBReceived ≠ st.curBReceived)) →
      ∃ out, PathPaymentOpFrame.doApply app lm op src L = some out ∧ out.ret = false ∧
        out.innerResult.code = PATH_PAYMENT_TOO_FEW_OFFERS) ∧
    (∀ st2, PathPaymentOpFrame.hop app curA st = Step.next st2 →
      (PathPaymentOpFrame.convert app curA st).result = ConvertResult.eOK ∧
      (PathPaymentOpFrame.convert app curA st).actualCurBReceived = st.curBReceived) := by
  constructor
  · intro hbad
    have hfail : PathPaymentOpFrame.hop app curA st = Step.fail
        { st with
          innerResult := PathPaymentResult.void PATH_PAYMENT_TOO_FEW_OFFERS,
          ledger := (PathPaymentOpFrame.convert app curA st).ledger,
          conversions := st.conversions + 1 } := by
      rw [hop_convert hne hiss hsent]
      rcases hbad with hp | ⟨hok, hneq⟩
      · rw [hp]
      · rw [hok]
        simp only
        rw [if_neg (fun e => hneq e.symm)]
    rw [doApply_of_traverse_fail (traverse_of_hop_fail hc hpath hpre hfail)]
    exact ⟨_, rfl, rfl, rfl⟩
  · intro st2 h2
    rcases hop_next h2 with ⟨heq, -⟩ | ⟨-, _, _, -, hok, hact, -, -⟩
    · exact absurd heq hne
    · exact ⟨hok, hact⟩

/-- An instance: Alice asks for 150 USD and the one offer in the book sells 100. -/
theorem pathPayment_too_few_offers_witness :
    (PathPaymentOpFrame.convert Sample.app Asset.native Sample.largeCredited).result =
      ConvertResult.ePartial ∧
    ∃ out, PathPaymentOpFrame.doApply Sample.app Sample.lm8 Sample.usdPaymentLarge
        Sample.alice Sample.ledger = some out ∧ out.ret = false ∧
      out.innerResult.code = PATH_PAYMENT_TOO_FEW_OFFERS :=
  ⟨by decide,
    (pathPayment_too_few_offers Sample.app Sample.lm8 Sample.usdPaymentLarge Sample.alice
      Sample.ledger Sample.largeCredited Sample.largeCredited [] [] Asset.native
      (by decide) (by decide) (by decide) (by decide)
      (by intro iss h; simp [getIssuer] at h) (by decide)).1 (Or.inl (by decide))⟩

/-- C13: crossing the source's own offer.  The filter `doApply` hands to the exchange
answers eStop exactly on the offers sold by the source account and eKeep on every other
offer; and at a hop that needs a conversion, when the exchange returns eFilterStop after
the filter answered eStop on one of the offers handed to it (the amount sent it reports not
being negative), the apply returns false with OFFER_CROSS_SELF. -/
theorem pathPayment_offer_cross_self (app : Application) (lm : LedgerManager)
    (op : PathPaymentOp) (src : AccountEntry) (L : Ledger) (st1 st : ApplyState)
    (pre post : List Asset) (curA : Asset)
    (hc : PathPaymentOpFrame.credited app op src L = Step.next st1)
    (hpath : (op.sendAsset :: op.path).reverse = pre ++ curA :: post)
    (hpre : PathPaymentOpFrame.walk app pre st1 = Step.next st)
    (hne : curA ≠ st.curB)
    (hiss : ∀ iss, getIssuer curA = some iss →
      (AccountFrame.loadAccount iss st.ledger).isSome = true)
    (hsent : 0 ≤ (PathPaymentOpFrame.convert app curA st).curASent) :
    (∃ filter : OfferEntry → OfferFilterResult,
      PathPaymentOpFrame.convert app curA st =
        app.convertWithOffers curA INT64_MAX st.curB st.curBReceived true filter st.ledger ∧
      ∀ o, (filter o = OfferFilterResult.eStop ↔ o.sellerID = st.mSourceAccount.accountID) ∧
        (filter o = OfferFilterResult.eKeep ↔ o.sellerID ≠ st.mSourceAccount.accountID)) ∧
    ((PathPaymentOpFrame.convert app curA st).result = ConvertResult.eFilterStop →
      (∃ o ∈ (PathPaymentOpFrame.convert app curA st).filtered,
        (PathPaymentOpFrame.offerFilter st.mSourceAccount.accountID o st.innerResult).1 =
          OfferFilterResult.eStop) →
      ∃ out, PathPaymentOpFrame.doApply app lm op src L = some out ∧ out.ret = false ∧
        out.innerResult.code = PATH_PAYMENT_OFFER_CROSS_SELF) := by
  have hfilter : ∀ (r : PathPaymentResult) (o : OfferEntry),
      ((PathPaymentOpFrame.offerFilter st.mSourceAccount.accountID o r).1 =
          OfferFilterResult.eStop ↔ o.sellerID = st.mSourceAccount.accountID) ∧
      ((PathPaymentOpFrame.offerFilter st.mSourceAccount.accountID o r).1 =
          OfferFilterResult.eKeep ↔ o.sellerID ≠ st.mSourceAccount.accountID) := by
    intro r o
    by_cases hs : o.sellerID = st.mSourceAccount.accountID
    · rw [offerFilter_own _ o r hs]
      simp [hs]
    · rw [offerFilter_other _ o r hs]
      simp [hs]
  constructor
  · exact ⟨_, rfl, hfilter st.innerResult⟩
  · intro hstop ⟨o, ho, hos⟩
    have hown : o.sellerID = st.mSourceAccount.accountID := (hfilter st.innerResult o).1.mp hos
    have hfail : PathPaymentOpFrame.hop app curA st = Step.fail
        { st with
          innerResult := PathPaymentResult.void PATH_PAYMENT_OFFER_CROSS_SELF,
          ledger := (PathPaymentOpFrame.convert app curA st).ledger,
          conversions := st.conversions + 1 } := by
      rw [hop_convert hne hiss hsent, hstop]
      simp only
      rw [afterFilter_crossed _ _ _ (Or.inr ⟨o, ho, hown⟩)]
    rw [doApply_of_traverse_fail (traverse_of_hop_fail hc hpath hpre hfail)]
    exact ⟨_, rfl, rfl, rfl⟩

/-- An instance: the conversion meets Alice's own offer. -/
theorem pathPayment_offer_cross_self_witness :
    (PathPaymentOpFrame.convert Sample.app Asset.native Sample.selfCrossCredited).result =
      ConvertResult.eFilterStop ∧
    ∃ out, PathPaymentOpFrame.doApply Sample.app Sample.lm8 Sample.usdPayment
        Sample.alice Sample.ledgerAliceSells = some out ∧ out.ret = false ∧
      out.innerResult.code = PATH_PAYMENT_OFFER_CROSS_SELF :=
  ⟨by decide,
    (pathPayment_offer_cross_self Sample.app Sample.lm8 Sample.usdPayment Sample.alice
      Sample.ledgerAliceSells Sample.selfCrossCredited Sample.selfCrossCredited [] []
      Asset.native (by decide) (by decide) (by decide) (by decide)
      (by intro iss h; simp [getIssuer] at h) (by decide)).2 (by decide)
      ⟨Sample.aliceOffer, by decide, by decide⟩⟩

/-- C14: failures of the implicit account creation.  With the destination account absent,
let `run` be the createAccount sub-operation that `createDestination` runs (starting
balance 20).  If it fails with an inner result and inner code UNDERFUNDED, LOW_RESERVE or
UNDERAUTHORIZED, the apply returns false with NO_DESTINATION; if it fails with a result
code that is not inner, or with any other inner code (MALFORMED, ALREADY_EXIST, anything
else), the apply aborts fatally; if it succeeds and the implicit trustline for an issued
destination asset cannot be created, the apply returns false with NO_DESTINATION. -/
theorem pathPayment_create_destination_failures (app : Application) (lm : LedgerManager)
    (op : PathPaymentOp) (src : AccountEntry) (L : Ledger) (run : CreateAccountRun)
    (hdst : AccountFrame.loadAccount op.destination L = none)
    (hrun : app.createAccount (PathPaymentOpFrame.createAccountOp op) src L = run) :
    ((run.checkValid = false ∨ run.applied = false) →
      (run.resultCode = OperationResultCode.opINNER →
        (run.innerCode = CreateAccountResultCode.CREATE_ACCOUNT_UNDERFUNDED ∨
         run.innerCode = CreateAccountResultCode.CREATE_ACCOUNT_LOW_RESERVE ∨
         run.innerCode = CreateAccountResultCode.CREATE_ACCOUNT_UNDERAUTHORIZED) →
        ∃ out, PathPaymentOpFrame.doApply app lm op src L = some out ∧ out.ret = false ∧
          out.innerResult.code = PATH_PAYMENT_NO_DESTINATION) ∧
      ((run.resultCode ≠ OperationResultCode.opINNER ∨
        (run.innerCode ≠ CreateAccountResultCode.CREATE_ACCOUNT_UNDERFUNDED ∧
         run.innerCode ≠ CreateAccountResultCode.CREATE_ACCOUNT_LOW_RESERVE ∧
         run.innerCode ≠ CreateAccountResultCode.CREATE_ACCOUNT_UNDERAUTHORIZED)) →
        PathPaymentOpFrame.doApply app lm op src L = none)) ∧
    (∀ d, run.checkValid = true → run.applied = true → run.destAccount = some d →
      op.destAsset ≠ Asset.native →
      (app.createTrustLine d op.destAsset run.ledger).1 = none →
      ∃ out, PathPaymentOpFrame.doApply app lm op src L = some out ∧ out.ret = false ∧
        out.innerResult.code = PATH_PAYMENT_NO_DESTINATION) := by
  have hcd : PathPaymentOpFrame.createDestination app op src L =
      (if (!run.checkValid || !run.applied) = true then
        if run.resultCode ≠ OperationResultCode.opINNER then none
        else
          match run.innerCode with
          | .CREATE_ACCOUNT_UNDERFUNDED => some (none, run.ledger, run.sourceAccount)
          | .CREATE_ACCOUNT_LOW_RESERVE => some (none, run.ledger, run.sourceAccount)
          | .CREATE_ACCOUNT_UNDERAUTHORIZED => some (none, run.ledger, run.sourceAccount)
          | _ => none
      else some (run.destAccount, run.ledger, run.sourceAccount)) := by
    unfold PathPaymentOpFrame.createDestination
    simp only [← hrun, PathPaymentOpFrame.createAccountOp]
  refine ⟨fun hfailed => ⟨fun hinner hcode => ?_, fun hbad => ?_⟩,
    fun d hv ha hd hna hline => ?_⟩
  · have hf : (!run.checkValid || !run.applied) = true := by
      rcases hfailed with h | h <;> simp [h]
    have hcd2 : PathPaymentOpFrame.createDestination app op src L =
        some (none, run.ledger, run.sourceAccount) := by
      rw [hcd, if_pos hf, if_neg (by simp [hinner])]
      rcases hcode with h | h | h <;> rw [h]
    have hres : PathPaymentOpFrame.resolveDestination app op
        (PathPaymentOpFrame.initial op src L) = Step.fail
          { PathPaymentOpFrame.initial op src L with
            ledger := run.ledger, mSourceAccount := run.sourceAccount,
            innerResult := PathPaymentResult.void PATH_PAYMENT_NO_DESTINATION } := by
      unfold PathPaymentOpFrame.resolveDestination
      simp only [PathPaymentOpFrame.initial, hdst, hcd2, ApplyState.failWith, Step.bind_fail]
      rfl
    rw [doApply_of_traverse_fail (traverse_of_resolve_fail hres)]
    exact ⟨_, rfl, rfl, rfl⟩
  · have hf : (!run.checkValid || !run.applied) = true := by
      rcases hfailed with h | h <;> simp [h]
    have hcd2 : PathPaymentOpFrame.createDestination app op src L = none := by
      rw [hcd, if_pos hf]
      rcases hbad with h | ⟨h1, h2, h3⟩
      · rw [if_pos h]
      · split
        · rfl
        · split
          · exact absurd (by assumption) h1
          · exact absurd (by assumption) h2
          · exact absurd (by assumption) h3
          · rfl
    have hres : PathPaymentOpFrame.resolveDestination app op
        (PathPaymentOpFrame.initial op src L) = Step.fatal := by
      unfold PathPaymentOpFrame.resolveDestination
      simp only [PathPaymentOpFrame.initial, hdst, hcd2, Step.bind_fatal]
    exact doApply_of_traverse_fatal (traverse_of_resolve_fatal hres)
  · have hf : ¬ (!run.checkValid || !run.applied) = true := by simp [hv, ha]
    have hcd2 : PathPaymentOpFrame.createDestination app op src L =
        some (some d, run.ledger, run.sourceAccount) := by
      rw [hcd, if_neg hf, hd]
    cases hct : app.createTrustLine d op.destAsset run.ledger with
    | mk line L2 =>
      rw [hct] at hline
      simp only at hline
      subst hline
      have hres : PathPaymentOpFrame.resolveDestination app op
          (PathPaymentOpFrame.initial op src L) = Step.fail
            { PathPaymentOpFrame.initial op src L with
              ledger := L2, mSourceAccount := run.sourceAccount,
              innerResult := PathPaymentResult.void PATH_PAYMENT_NO_DESTINATION } := by
        unfold PathPaymentOpFrame.resolveDestination
        simp only [PathPaymentOpFrame.initial, hdst, hcd2, hna, ne_eq, not_false_eq_true,
          if_true, hct, ApplyState.failWith, Step.bind_fail]
        rfl
      rw [doApply_of_traverse_fail (traverse_of_resolve_fail hres)]
      exact ⟨_, rfl, rfl, rfl⟩

/-- An instance: Dave cannot fund the account the payment would create. -/
theorem pathPayment_create_destination_failures_witness :
    AccountFrame.loadAccount 7 Sample.ledgerIssuerGone = none ∧
    ∃ out, PathPaymentOpFrame.doApply Sample.app Sample.lm8 Sample.paymentToNewAccount
        Sample.dave Sample.ledgerIssuerGone = some out ∧ out.ret = false ∧
      out.innerResult.code = PATH_PAYMENT_NO_DESTINATION :=
  ⟨by decide,
    ((pathPayment_create_destination_failures Sample.app Sample.lm8
      Sample.paymentToNewAccount Sample.dave Sample.ledgerIssuerGone _ (by decide) rfl).1
      (Or.inr (by decide))).1 (by decide) (Or.inl (by decide))⟩

/-- C15 (as stated) fails at ledger version 7: Alice pays herself 300 native, the apply
succeeds and the native balances sum to 1700 before and to 1400 after. -/
theorem pathPayment_native_sum_counterexample :
    Sample.lm7.ledgerVersion = 7 ∧
    Sample.selfPayment.sendAsset = Asset.native ∧
    Sample.selfPayment.destAsset = Asset.native ∧ Sample.selfPayment.path = [] ∧
    AccountFrame.loadAccount Sample.selfPayment.destination Sample.ledger =
      some Sample.alice ∧
    nativeSum Sample.ledger = 1700 ∧
    (PathPaymentOpFrame.doApply Sample.app Sample.lm7 Sample.selfPayment Sample.alice
      Sample.ledger).map (fun out => (out.ret, out.innerResult.code, nativeSum out.ledger)) =
        some (true, PATH_PAYMENT_SUCCESS, 1400) := by
  decide

/-- C15 (amended): the native sum is kept by a direct native payment.  With
`sendAsset = destAsset = native`, an empty path, an existing destination and unique account
ids, a successful apply leaves the sum of all native balances unchanged at every ledger
version above 7 (source and destination may be the same account), and at the earlier
versions when the destination is not the source and the source frame is the stored
entry. -/
theorem pathPayment_native_sum (app : Application) (lm : LedgerManager)
    (op : PathPaymentOp) (src : AccountEntry) (L : Ledger) (d : AccountEntry)
    (out : PathPaymentApplied)
    (hsend : op.sendAsset = Asset.native) (hdest : op.destAsset = Asset.native)
    (hpath : op.path = [])
    (hdst : AccountFrame.loadAccount op.destination L = some d)
    (hkeys : (L.accounts.map (fun x => x.accountID)).Nodup)
    (hver : 7 < lm.ledgerVersion ∨
      (op.destination ≠ src.accountID ∧ AccountFrame.loadAccount src.accountID L = some src))
    (hout : PathPaymentOpFrame.doApply app lm op src L = some out)
    (hret : out.ret = true) :
    nativeSum out.ledger = nativeSum L := by
  obtain ⟨st, st2, ht, hd, -, hled⟩ := doApply_ret_true hout hret
  unfold PathPaymentOpFrame.traverse at ht
  rw [resolveDestination_existing app op _ d
    (by simpa [PathPaymentOpFrame.initial] using hdst)] at ht
  simp only [Step.bind_next] at ht
  obtain ⟨st1, hc, hw⟩ := Step.bind_eq_next ht
  obtain ⟨hcb, hcr, hsrc1, -, -, hcred⟩ := creditDestination_next hc
  simp only [PathPaymentOpFrame.initial] at hcb hcr hsrc1 hcred
  have hdid : d.accountID = op.destination := loadAccount_accountID hdst
  -- the loop has nothing to convert
  have hst : st = st1 := by
    rw [hsend, hpath] at hw
    simp only [List.reverse_cons, List.reverse_nil, List.nil_append, PathPaymentOpFrame.walk,
      PathPaymentOpFrame.hop, hcb, hdest, if_true, Step.bind_next, Step.next.injEq] at hw
    exact hw.symm
  subst hst
  -- the credit
  rcases hcred with ⟨-, d1, hd1, hl1⟩ | ⟨hn, -⟩
  swap
  · exact absurd hdest hn
  have hd1e := addBalance_account_some hd1
  have hsum1 : nativeSum st.ledger = nativeSum L + op.destAmount := by
    rw [hl1, nativeSum_storeChange d1 d L hkeys (by rw [hd1e]; simpa [hdid] using hdst), hd1e]
    simp only
    omega
  have hkeys1 : (st.ledger.accounts.map (fun x => x.accountID)).Nodup := by
    rw [hl1, accountIDs_storeChange]
    exact hkeys
  -- the debit
  obtain ⟨-, -, -, hdeb⟩ := debitSource_next hd
  rw [hcb, hdest, hcr, hsrc1] at hdeb
  rcases hdeb with ⟨-, sa, hsa, -, hl2⟩ | ⟨hn, -⟩
  swap
  · exact absurd rfl hn
  have hload : AccountFrame.loadAccount sa.accountID st.ledger = some sa := by
    rcases hver with hv | ⟨hne, hsrc⟩
    · have hv' : lm.ledgerVersion > 7 := hv
      simp only [hv', if_true] at hsa
      rw [loadAccount_accountID hsa]
      exact hsa
    · by_cases hv : lm.ledgerVersion > 7
      · simp only [hv, if_true] at hsa
        rw [loadAccount_accountID hsa]
        exact hsa
      · simp only [hv, if_false, Option.some.injEq] at hsa
        subst hsa
        rw [hl1, loadAccount_storeChange_other _ _ _
          (by rw [hd1e]; simpa [hdid] using fun e => hne e.symm)]
        exact hsrc
  rw [hled, hl2,
    nativeSum_storeChange { sa with balance := sa.balance - op.destAmount } sa st.ledger
      hkeys1 hload, hsum1]
  simp only
  omega

/-- An instance: at version 8 Alice pays herself 300 native and the sum stays 1700. -/
theorem pathPayment_native_sum_witness :
    nativeSum Sample.ledger = 1700 ∧
    ∃ out, PathPaymentOpFrame.doApply Sample.app Sample.lm8 Sample.selfPayment
        Sample.alice Sample.ledger = some out ∧ out.ret = true ∧
      nativeSum out.ledger = nativeSum Sample.ledger := by
  refine ⟨by decide, ?_⟩
  obtain ⟨out, hout⟩ := Option.isSome_iff_exists.mp
    (show (PathPaymentOpFrame.doApply Sample.app Sample.lm8 Sample.selfPayment
      Sample.alice Sample.ledger).isSome = true by decide)
  have hret : out.ret = true := by
    have : (PathPaymentOpFrame.doApply Sample.app Sample.lm8 Sample.selfPayment
        Sample.alice Sample.ledger).map (fun o => o.ret) = some true := by decide
    rw [hout] at this
    simpa using this
  exact ⟨out, hout, hret,
    pathPayment_native_sum Sample.app Sample.lm8 Sample.selfPayment Sample.alice
      Sample.ledger Sample.alice out rfl rfl rfl (by decide) (by decide)
      (Or.inl (by decide)) hout hret⟩

/-- C17: validation of PathPayment.  `doCheckValid` returns true exactly when
`destAmount > 0`, `sendMax > 0`, the send and destination assets are valid and every asset
of the path is valid; otherwise it returns false with MALFORMED. -/
theorem pathPayment_doCheckValid_iff (isAssetValid : Asset → Bool) (op : PathPaymentOp) :
    ((PathPaymentOpFrame.doCheckValid isAssetValid op).1 = true ↔
      (0 < op.destAmount ∧ 0 < op.sendMax ∧ isAssetValid op.sendAsset = true ∧
        isAssetValid op.destAsset = true ∧ ∀ a ∈ op.path, isAssetValid a = true)) ∧
    ((PathPaymentOpFrame.doCheckValid isAssetValid op).1 ≠ true →
      PathPaymentOpFrame.doCheckValid isAssetValid op =
        (false, some PATH_PAYMENT_MALFORMED)) := by
  unfold PathPaymentOpFrame.doCheckValid
  by_cases h1 : op.destAmount ≤ 0 ∨ op.sendMax ≤ 0
  · simp only [h1, if_true, Bool.false_eq_true, false_iff, not_and, ne_eq, not_false_eq_true,
      forall_const, and_true]
    intro ha hb
    omega
  · have h1' : 0 < op.destAmount ∧ 0 < op.sendMax := by omega
    by_cases h2 : (!isAssetValid op.sendAsset || !isAssetValid op.destAsset) = true
    · simp only [h1, h2, if_true, if_false, Bool.false_eq_true, false_iff, ne_eq,
        not_false_eq_true, forall_const, and_true]
      simp only [Bool.or_eq_true, Bool.not_eq_true'] at h2
      rintro ⟨-, -, hs, hd, -⟩
      rcases h2 with h | h
      · rw [hs] at h; cases h
      · rw [hd] at h; cases h
    · have h2' : isAssetValid op.sendAsset = true ∧ isAssetValid op.destAsset = true := by
        simpa using h2
      by_cases h3 : (!op.path.all isAssetValid) = true
      · simp only [h1, h2, h3, if_true, if_false, Bool.false_eq_true, false_iff, ne_eq,
          not_false_eq_true, forall_const, and_true]
        rintro ⟨-, -, -, -, hall⟩
        simp only [Bool.not_eq_true', List.all_eq_false] at h3
        obtain ⟨a, ha, hna⟩ := h3
        exact hna (hall a ha)
      · have h3' : ∀ a ∈ op.path, isAssetValid a = true := by simpa using h3
        have h2f : (!isAssetValid op.sendAsset || !isAssetValid op.destAsset) = false := by
          simpa using h2
        have h3f : (!op.path.all isAssetValid) = false := by simpa using h3
        rw [if_neg h1, h2f, h3f]
        simp only [Bool.false_eq_true, if_false, true_iff, ne_eq, not_true_eq_false,
          false_implies, and_true]
        exact ⟨h1'.1, h1'.2, h2'.1, h2'.2, h3'⟩

/-- An instance: a payment with `sendMax = 0` is rejected as MALFORMED. -/
theorem pathPayment_doCheckValid_iff_witness :
    PathPaymentOpFrame.doCheckValid (fun _ => true)
      { Sample.nativePayment with sendMax := 0 } = (false, some PATH_PAYMENT_MALFORMED) :=
  (pathPayment_doCheckValid_iff (fun _ => true)
    { Sample.nativePayment with sendMax := 0 }).2 (by decide)

/-- C18: where the traversal ends.  Whatever the exchange does, when the backward loop over
`fullPath = sendAsset :: path` is left without a failure, `curB` is `sendAsset` and
`curBReceived` is the amount sent that the last conversion made (the one closest to the
source) reported, or `destAmount` when no hop needed a conversion. -/
theorem pathPayment_traversal_end (app : Application) (op : PathPaymentOp)
    (src : AccountEntry) (L : Ledger) (st : ApplyState)
    (h : PathPaymentOpFrame.traverse app op src L = Step.next st) :
    st.curB = op.sendAsset ∧
    ∃ st1, PathPaymentOpFrame.credited app op src L = Step.next st1 ∧
      st.curBReceived =
        (((PathPaymentOpFrame.conversionsOf app (op.sendAsset :: op.path).reverse
            st1).getLast?).map (fun c => c.2.curASent)).getD op.destAmount := by
  refine ⟨(traverse_next h).2, ?_⟩
  rw [traverse_eq_credited] at h
  obtain ⟨st1, hc, hw⟩ := Step.bind_eq_next h
  obtain ⟨-, hamt, -, hres⟩ := credited_next hc
  obtain ⟨-, hlast⟩ := walk_next_conversions app _ st1 st _ _ hres hw
  exact ⟨st1, hc, by rw [hlast, hamt]⟩

/-- An instance: the two-hop payment ends the loop on native needing 25, the amount sent
by the native-for-EUR conversion. -/
theorem pathPayment_traversal_end_witness :
    PathPaymentOpFrame.traverse Sample.tracingApp Sample.twoHopPayment Sample.alice
      Sample.ledger = Step.next Sample.twoHopTraversed ∧
    Sample.twoHopTraversed.curB = Sample.twoHopPayment.sendAsset ∧
    ∃ st1, PathPaymentOpFrame.credited Sample.tracingApp Sample.twoHopPayment Sample.alice
        Sample.ledger = Step.next st1 ∧
      Sample.twoHopTraversed.curBReceived =
        (((PathPaymentOpFrame.conversionsOf Sample.tracingApp
            (Sample.twoHopPayment.sendAsset :: Sample.twoHopPayment.path).reverse
            st1).getLast?).map (fun c => c.2.curASent)).getD
          Sample.twoHopPayment.destAmount :=
  ⟨by decide,
    pathPayment_traversal_end Sample.tracingApp Sample.twoHopPayment Sample.alice
      Sample.ledger Sample.twoHopTraversed (by decide)⟩

/-- C19: precedence of the credit failures.  For an issued destination asset, an existing
destination account and `bypassIssuerCheck` false, the apply returns false without a single
call of the exchange: with NO_ISSUER and `noIssuer = destAsset` when the issuer account is
absent (whether or not the trustline exists); else with NO_TRUST when the destination has
no trustline; else with NOT_AUTHORIZED when the trustline is not authorized; else with
LINE_FULL when `balance + destAmount` exceeds the limit. -/
theorem pathPayment_credit_precedence (app : Application) (lm : LedgerManager)
    (op : PathPaymentOp) (src : AccountEntry) (L : Ledger) (d : AccountEntry)
    (issuerID : AccountID)
    (hasset : getIssuer op.destAsset = some issuerID)
    (hdst : AccountFrame.loadAccount op.destination L = some d)
    (hbypass : PathPaymentOpFrame.bypassIssuerCheck op = false) :
    (AccountFrame.loadAccount issuerID L = none →
      ∃ out, PathPaymentOpFrame.doApply app lm op src L = some out ∧ out.ret = false ∧
        out.innerResult = PathPaymentResult.noIssuer op.destAsset ∧
        out.innerResult.code = PATH_PAYMENT_NO_ISSUER ∧ out.conversions = 0) ∧
    (∀ i, AccountFrame.loadAccount issuerID L = some i →
      (TrustFrame.loadTrustLine op.destination op.destAsset L = none →
        ∃ out, PathPaymentOpFrame.doApply app lm op src L = some out ∧ out.ret = false ∧
          out.innerResult.code = PATH_PAYMENT_NO_TRUST ∧ out.conversions = 0) ∧
      (∀ tl, TrustFrame.loadTrustLine op.destination op.destAsset L = some tl →
        (tl.authorized = false →
          ∃ out, PathPaymentOpFrame.doApply app lm op src L = some out ∧ out.ret = false ∧
            out.innerResult.code = PATH_PAYMENT_NOT_AUTHORIZED ∧ out.conversions = 0) ∧
        (tl.authorized = true → tl.limit < tl.balance + op.destAmount →
          ∃ out, PathPaymentOpFrame.doApply app lm op src L = some out ∧ out.ret = false ∧
            out.innerResult.code = PATH_PAYMENT_LINE_FULL ∧ out.conversions = 0))) := by
  have hnn : op.destAsset ≠ Asset.native := by
    intro h
    rw [h] at hasset
    simp [getIssuer] at hasset
  have hres := resolveDestination_existing app op (PathPaymentOpFrame.initial op src L) d
    (by simpa [PathPaymentOpFrame.initial] using hdst)
  have key : ∀ (r : PathPaymentResult),
      PathPaymentOpFrame.creditDestination op d (PathPaymentOpFrame.initial op src L) =
        Step.fail { PathPaymentOpFrame.initial op src L with innerResult := r } →
      ∃ out, PathPaymentOpFrame.doApply app lm op src L = some out ∧ out.ret = false ∧
        out.innerResult = r ∧ out.conversions = 0 := by
    intro r h
    rw [doApply_of_traverse_fail (traverse_of_credit_fail hres h)]
    exact ⟨_, rfl, rfl, rfl, rfl⟩
  refine ⟨fun hno => ?_, fun i hi => ⟨fun hnl => ?_, fun tl htl => ⟨fun hna => ?_,
    fun hauth hfull => ?_⟩⟩⟩
  · obtain ⟨out, h1, h2, h3, h4⟩ := key (PathPaymentResult.noIssuer op.destAsset) (by
      unfold PathPaymentOpFrame.creditDestination TrustFrame.loadTrustLineIssuer
      simp only [PathPaymentOpFrame.initial, hnn, if_false, hbypass, Bool.false_eq_true,
        hasset, hno, ApplyState.failNoIssuer, Step.bind_fail])
    exact ⟨out, h1, h2, h3, by rw [h3]; rfl, h4⟩
  · obtain ⟨out, h1, h2, h3, h4⟩ := key (PathPaymentResult.void PATH_PAYMENT_NO_TRUST) (by
      unfold PathPaymentOpFrame.creditDestination TrustFrame.loadTrustLineIssuer
      simp only [PathPaymentOpFrame.initial, hnn, if_false, hbypass, Bool.false_eq_true,
        hasset, hi, hnl, ApplyState.failWith, Step.bind_next, Step.bind_fail]
      rfl)
    exact ⟨out, h1, h2, by rw [h3]; rfl, h4⟩
  · obtain ⟨out, h1, h2, h3, h4⟩ := key (PathPaymentResult.void PATH_PAYMENT_NOT_AUTHORIZED)
      (by
        unfold PathPaymentOpFrame.creditDestination TrustFrame.loadTrustLineIssuer
        simp only [PathPaymentOpFrame.initial, hnn, if_false, hbypass, Bool.false_eq_true,
          hasset, hi, htl, hna, Bool.not_false, if_true, ApplyState.failWith, Step.bind_next,
          Step.bind_fail]
        rfl)
    exact ⟨out, h1, h2, by rw [h3]; rfl, h4⟩
  · have hadd : TrustFrame.addBalance op.destAmount tl = none := by
      simp only [TrustFrame.addBalance]
      rw [if_pos (Or.inr hfull)]
    obtain ⟨out, h1, h2, h3, h4⟩ := key (PathPaymentResult.void PATH_PAYMENT_LINE_FULL)
      (by
        unfold PathPaymentOpFrame.creditDestination TrustFrame.loadTrustLineIssuer
        simp only [PathPaymentOpFrame.initial, hnn, if_false, hbypass, Bool.false_eq_true,
          hasset, hi, htl, hauth, Bool.not_true, hadd, ApplyState.failWith, Step.bind_next,
          Step.bind_fail]
        rfl)
    exact ⟨out, h1, h2, by rw [h3]; rfl, h4⟩

/-- An instance: Alice pays Bob USD on a ledger where the issuer of USD is gone. -/
theorem pathPayment_credit_precedence_witness :
    AccountFrame.loadAccount 9 Sample.ledgerIssuerGone = none ∧
    ∃ out, PathPaymentOpFrame.doApply Sample.app Sample.lm8 Sample.usdPayment
        Sample.alice Sample.ledgerIssuerGone = some out ∧ out.ret = false ∧
      out.innerResult = PathPaymentResult.noIssuer Sample.usd ∧
      out.innerResult.code = PATH_PAYMENT_NO_ISSUER ∧ out.conversions = 0 :=
  ⟨by decide,
    (pathPayment_credit_precedence Sample.app Sample.lm8 Sample.usdPayment Sample.alice
      Sample.ledgerIssuerGone Sample.bob 9 (by decide) (by decide) (by decide)).1
      (by decide)⟩

/-- C20 fails on the code.  Dave sends USD back to their issuer, whose account does not
exist: `bypassIssuerCheck` is true, yet `doApply` looks the destination up, tries to create
it, and since Dave cannot fund it returns false with NO_DESTINATION. -/
theorem pathPayment_bypass_no_destination :
    PathPaymentOpFrame.bypassIssuerCheck Sample.refund = true ∧
    AccountFrame.loadAccount Sample.refund.destination Sample.ledgerIssuerGone = none ∧
    (PathPaymentOpFrame.doApply Sample.app Sample.lm8 Sample.refund Sample.dave
      Sample.ledgerIssuerGone).map (fun out => (out.ret, out.innerResult.code)) =
        some (false, PATH_PAYMENT_NO_DESTINATION) := by
  decide

/-- C21: whenever `bypassIssuerCheck` is true, a path payment never calls the exchange and
never fails with NO_ISSUER, whatever the ledger: every outcome of `doApply` has made no
conversion and carries a code other than NO_ISSUER, and what `doApply` does (a fatal abort
included) is the same with any other exchange in its place. -/
theorem pathPayment_bypass_no_exchange (app : Application) (lm : LedgerManager)
    (op : PathPaymentOp) (src : AccountEntry) (L : Ledger)
    (hb : PathPaymentOpFrame.bypassIssuerCheck op = true) :
    (∀ out, PathPaymentOpFrame.doApply app lm op src L = some out →
      out.conversions = 0 ∧ out.innerResult.code ≠ PATH_PAYMENT_NO_ISSUER) ∧
    (∀ exchange,
      PathPaymentOpFrame.doApply { app with convertWithOffers := exchange } lm op src L =
        PathPaymentOpFrame.doApply app lm op src L) := by
  obtain ⟨-, hpath, hsend, -⟩ := bypassIssuerCheck_true hb
  have htrav : ∀ app1 : Application, PathPaymentOpFrame.traverse app1 op src L =
      PathPaymentOpFrame.credited app1 op src L := by
    intro app1
    rw [traverse_eq_credited, hpath]
    cases hc : PathPaymentOpFrame.credited app1 op src L with
    | fatal => rfl
    | fail s => rfl
    | next s =>
      simp only [Step.bind_next, List.reverse_cons, List.reverse_nil, List.nil_append]
      exact walk_skip app1 _ s ((credited_next hc).1.trans hsend.symm)
  constructor
  · intro out h
    unfold PathPaymentOpFrame.doApply at h
    rw [htrav] at h
    cases hc : PathPaymentOpFrame.credited app op src L with
    | fatal => rw [hc] at h; simp [Step.applied] at h
    | fail s =>
      rw [hc] at h
      simp only [Step.bind_fail, Step.applied, Option.some.injEq] at h
      subst h
      obtain ⟨-, hn, hni⟩ := credited_fail hc
      exact ⟨hn, hni hb⟩
    | next s =>
      rw [hc] at h
      simp only [Step.bind_next] at h
      obtain ⟨-, -, hn, hres⟩ := credited_next hc
      cases hd : PathPaymentOpFrame.debitSource lm op s with
      | fatal => rw [hd] at h; simp [Step.applied] at h
      | fail s1 =>
        rw [hd] at h
        simp only [Step.applied, Option.some.injEq] at h
        subst h
        obtain ⟨-, -, hc1, -, -⟩ := debitSource_fail hd
        exact ⟨hc1.trans hn, debitSource_fail_bypass hb hd⟩
      | next s1 =>
        rw [hd] at h
        simp only [Step.applied, Option.some.injEq] at h
        subst h
        obtain ⟨-, hir, hc1, -⟩ := debitSource_next hd
        refine ⟨hc1.trans hn, ?_⟩
        show s1.innerResult.code ≠ PATH_PAYMENT_NO_ISSUER
        rw [hir, hres]
        simp [PathPaymentResult.code]
  · intro exchange
    unfold PathPaymentOpFrame.doApply
    rw [htrav, htrav]
    rfl

/-- An instance: Dave returns 50 USD to their issuer, whose account does not exist.  The
run creates the destination, credits it and debits Dave without any conversion. -/
theorem pathPayment_bypass_no_exchange_witness :
    PathPaymentOpFrame.bypassIssuerCheck Sample.refund = true ∧
    AccountFrame.loadAccount 9 Sample.ledgerDaveFunded = none ∧
    ∃ out, PathPaymentOpFrame.doApply Sample.app Sample.lm8 Sample.refund Sample.daveFunded
        Sample.ledgerDaveFunded = some out ∧
      out.conversions = 0 ∧ out.innerResult.code ≠ PATH_PAYMENT_NO_ISSUER := by
  refine ⟨by decide, by decide, ?_⟩
  obtain ⟨out, h⟩ := Option.isSome_iff_exists.mp
    (show (PathPaymentOpFrame.doApply Sample.app Sample.lm8 Sample.refund Sample.daveFunded
      Sample.ledgerDaveFunded).isSome = true by decide)
  exact ⟨out, h,
    (pathPayment_bypass_no_exchange Sample.app Sample.lm8 Sample.refund Sample.daveFunded
      Sample.ledgerDaveFunded (by decide)).1 out h⟩

/-- C22: for every path payment that does not abort fatally, and with an exchange that
returns `eFilterStop` only after the filter has answered `eStop` on an offer handed to it,
`doApply` returns true if and only if the final result code is SUCCESS: every return of
false carries a failure code, although the code is SUCCESS at entry. -/
theorem pathPayment_ret_iff_success (app : Application) (lm : LedgerManager)
    (op : PathPaymentOp) (src : AccountEntry) (L : Ledger) (out : PathPaymentApplied)
    (hexch : ∀ sheep maxSheepSend wheat maxWheatReceive flag
      (filter : OfferEntry → OfferFilterResult) (L1 : Ledger),
      (app.convertWithOffers sheep maxSheepSend wheat maxWheatReceive flag filter L1).result =
        ConvertResult.eFilterStop →
      ∃ o ∈ (app.convertWithOffers sheep maxSheepSend wheat maxWheatReceive flag
          filter L1).filtered, filter o = OfferFilterResult.eStop)
    (h : PathPaymentOpFrame.doApply app lm op src L = some out) :
    (PathPaymentOpFrame.initial op src L).innerResult.code = PATH_PAYMENT_SUCCESS ∧
    (out.ret = true ↔ out.innerResult.code = PATH_PAYMENT_SUCCESS) := by
  refine ⟨rfl, fun hret => doApply_ret_true_code h hret, ?_⟩
  intro hcode
  by_contra hret
  apply absurd hcode
  unfold PathPaymentOpFrame.doApply at h
  cases ht : PathPaymentOpFrame.traverse app op src L with
  | fatal => rw [ht] at h; simp [Step.applied] at h
  | fail s =>
    rw [ht] at h
    simp only [Step.bind_fail, Step.applied, Option.some.injEq] at h
    subst h
    show s.innerResult.code ≠ PATH_PAYMENT_SUCCESS
    rw [traverse_eq_credited] at ht
    cases hc : PathPaymentOpFrame.credited app op src L with
    | fatal => rw [hc] at ht; simp at ht
    | fail s0 =>
      rw [hc] at ht
      simp only [Step.bind_fail, Step.fail.injEq] at ht
      subst ht
      exact (credited_fail hc).1
    | next s0 =>
      rw [hc] at ht
      simp only [Step.bind_next] at ht
      exact walk_fail hexch _ s0 s ht
  | next s =>
    rw [ht] at h
    simp only [Step.bind_next] at h
    cases hd : PathPaymentOpFrame.debitSource lm op s with
    | fatal => rw [hd] at h; simp [Step.applied] at h
    | fail s1 =>
      rw [hd] at h
      simp only [Step.applied, Option.some.injEq] at h
      subst h
      exact (debitSource_fail hd).2.2.2.1
    | next s1 =>
      rw [hd] at h
      simp only [Step.applied, Option.some.injEq] at h
      subst h
      simp at hret

/-- An instance: Alice pays Bob USD through the order book and meets their own offer.  The
sample exchange stops only on the filter, and the run returns false with a failure code. -/
theorem pathPayment_ret_iff_success_witness :
    (∀ sheep maxSheepSend wheat maxWheatReceive flag
      (filter : OfferEntry → OfferFilterResult) (L1 : Ledger),
      (Sample.app.convertWithOffers sheep maxSheepSend wheat maxWheatReceive flag filter
        L1).result = ConvertResult.eFilterStop →
      ∃ o ∈ (Sample.app.convertWithOffers sheep maxSheepSend wheat maxWheatReceive flag
          filter L1).filtered, filter o = OfferFilterResult.eStop) ∧
    ∃ out, PathPaymentOpFrame.doApply Sample.app Sample.lm8 Sample.usdPayment Sample.alice
        Sample.ledgerAliceSells = some out ∧
      (PathPaymentOpFrame.convert Sample.app Asset.native Sample.selfCrossCredited).result =
        ConvertResult.eFilterStop ∧
      (PathPaymentOpFrame.initial Sample.usdPayment Sample.alice
        Sample.ledgerAliceSells).innerResult.code = PATH_PAYMENT_SUCCESS ∧
      (out.ret = true ↔ out.innerResult.code = PATH_PAYMENT_SUCCESS) := by
  refine ⟨Sample.convertWithOffers_stop, ?_⟩
  obtain ⟨out, h⟩ := Option.isSome_iff_exists.mp
    (show (PathPaymentOpFrame.doApply Sample.app Sample.lm8 Sample.usdPayment Sample.alice
      Sample.ledgerAliceSells).isSome = true by decide)
  have hthm := pathPayment_ret_iff_success Sample.app Sample.lm8 Sample.usdPayment
    Sample.alice Sample.ledgerAliceSells out Sample.convertWithOffers_stop h
  exact ⟨out, h, by decide, hthm.1, hthm.2⟩

/-! ## ChangeTrust: properties -/

/-- C5: creating a fresh trustline.  With no trustline for (source, line), a positive
limit, an existing issuer account and the self-trust check not firing: if
`addNumEntries(+1)` succeeds the apply returns SUCCESS after exactly two stores, the source
frame with one more sub-entry and the new trustline `{source, line, limit, balance 0,
authorized = not authRequired}`, which is the one trustline added to the ledger; if
`addNumEntries(+1)` fails the apply returns LOW_RESERVE. -/
theorem changeTrust_creates_line (lm : LedgerManager) (op : ChangeTrustOp)
    (src : AccountEntry) (L : Ledger) (issuerID : AccountID) (issuer : AccountEntry)
    (hline : getIssuer op.line = some issuerID)
    (hissuer : AccountFrame.loadAccount issuerID L = some issuer)
    (hnone : TrustFrame.loadTrustLine src.accountID op.line L = none)
    (hlimit : 0 < op.limit)
    (hself : lm.ledgerVersion ≤ 2 ∨ issuer.accountID ≠ src.accountID) :
    ((AccountFrame.addNumEntries lm 1 src).1 = true →
      ∃ out, ChangeTrustOpFrame.doApply lm op src L = some out ∧
        out.ret = true ∧ out.code = CHANGE_TRUST_SUCCESS ∧
        out.stores =
          [StoreOp.accountChange { src with numSubEntries := src.numSubEntries + 1 },
           StoreOp.trustAdd
             { accountID := src.accountID, asset := op.line, limit := op.limit,
               balance := 0, authorized := !issuer.authRequired }] ∧
        out.ledger.trustLines = L.trustLines ++
          [{ accountID := src.accountID, asset := op.line, limit := op.limit,
             balance := 0, authorized := !issuer.authRequired }] ∧
        out.mSourceAccount = { src with numSubEntries := src.numSubEntries + 1 } ∧
        (∀ a, AccountFrame.loadAccount src.accountID L = some a →
          AccountFrame.loadAccount src.accountID out.ledger =
            some { src with numSubEntries := src.numSubEntries + 1 })) ∧
    ((AccountFrame.addNumEntries lm 1 src).1 = false →
      ∃ out, ChangeTrustOpFrame.doApply lm op src L = some out ∧
        out.ret = false ∧ out.code = CHANGE_TRUST_LOW_RESERVE) := by
  have hst : ChangeTrustOpFrame.selfTrust lm (some issuer) src.accountID = false := by
    unfold ChangeTrustOpFrame.selfTrust
    rcases hself with h | h
    · have : ¬ lm.ledgerVersion > 2 := by omega
      simp [this]
    · simp [h]
  have hl0 : op.limit ≠ 0 := by omega
  constructor
  · intro hadd
    have hadd2 := addNumEntries_of_true lm 1 src hadd
    have happly : ChangeTrustOpFrame.doApply lm op src L = some
        (ChangeTrustOpFrame.succeeded
          [StoreOp.accountChange { src with numSubEntries := src.numSubEntries + 1 },
           StoreOp.trustAdd
             { accountID := src.accountID, asset := op.line, limit := op.limit,
               balance := 0, authorized := !issuer.authRequired }]
          { src with numSubEntries := src.numSubEntries + 1 } L) := by
      unfold ChangeTrustOpFrame.doApply TrustFrame.loadTrustLineIssuer
      simp only [hline, hissuer, hnone, hst, hl0, hadd2, if_false, Bool.false_eq_true]
    refine ⟨_, happly, rfl, rfl, rfl, ?_, rfl, ?_⟩
    · simp [ChangeTrustOpFrame.succeeded, runStores, StoreOp.run, TrustFrame.storeAdd,
        AccountFrame.storeChange]
    · intro a ha
      have := loadAccount_storeChange_same
        { src with numSubEntries := src.numSubEntries + 1 } a L ha
      simpa [ChangeTrustOpFrame.succeeded, runStores, StoreOp.run, TrustFrame.storeAdd,
        AccountFrame.loadAccount] using this
  · intro hadd
    have hadd2 := addNumEntries_of_false lm 1 src hadd
    have happly : ChangeTrustOpFrame.doApply lm op src L = some
        (ChangeTrustOpFrame.failed CHANGE_TRUST_LOW_RESERVE src L) := by
      unfold ChangeTrustOpFrame.doApply TrustFrame.loadTrustLineIssuer
      simp only [hline, hissuer, hnone, hst, hl0, hadd2, if_false, Bool.false_eq_true]
    exact ⟨_, happly, rfl, rfl⟩

/-- An instance: Alice opens a USD line with limit 1000. -/
theorem changeTrust_creates_line_witness :
    TrustFrame.loadTrustLine 1 Sample.usd Sample.ledger = none ∧
    (AccountFrame.addNumEntries Sample.lm8 1 Sample.alice).1 = true ∧
    ∃ out, ChangeTrustOpFrame.doApply Sample.lm8 { line := Sample.usd, limit := 1000 }
        Sample.alice Sample.ledger = some out ∧
      out.ret = true ∧ out.code = CHANGE_TRUST_SUCCESS ∧
      out.ledger.trustLines = Sample.ledger.trustLines ++
        [{ accountID := 1, asset := Sample.usd, limit := 1000, balance := 0,
           authorized := true }] ∧
      AccountFrame.loadAccount 1 out.ledger =
        some { Sample.alice with numSubEntries := 1 } := by
  refine ⟨by decide, by decide, ?_⟩
  obtain ⟨out, h, hret, hcode, -, hlines, -, hload⟩ :=
    (changeTrust_creates_line Sample.lm8 { line := Sample.usd, limit := 1000 } Sample.alice
      Sample.ledger 9 Sample.issuer (by decide) (by decide) (by decide) (by decide)
      (by decide)).1 (by decide)
  exact ⟨out, h, hret, hcode, hlines, hload Sample.alice (by decide)⟩

/-- C6: deleting a trustline.  For an issued line, the apply performs a trustline delete
exactly when the trustline (source, line) exists, the self-trust check does not fire,
`op.limit = 0` and the balance is not greater than 0; then (issuer present or not) the
result is SUCCESS, the stores are the delete of that trustline and the change of the source
frame with one sub-entry less, and the trustline is gone from the ledger. -/
theorem changeTrust_deletes_iff (lm : LedgerManager) (op : ChangeTrustOp)
    (src : AccountEntry) (L : Ledger) (issuerID : AccountID)
    (hline : getIssuer op.line = some issuerID) :
    ∃ out, ChangeTrustOpFrame.doApply lm op src L = some out ∧
      ((∃ t, StoreOp.trustDelete t ∈ out.stores) ↔
        (∃ tl, TrustFrame.loadTrustLine src.accountID op.line L = some tl ∧
          ChangeTrustOpFrame.selfTrust lm (AccountFrame.loadAccount issuerID L)
            src.accountID = false ∧
          op.limit = 0 ∧ ¬ 0 < tl.balance)) ∧
      (∀ tl, TrustFrame.loadTrustLine src.accountID op.line L = some tl →
        ChangeTrustOpFrame.selfTrust lm (AccountFrame.loadAccount issuerID L)
          src.accountID = false →
        op.limit = 0 → ¬ 0 < tl.balance →
        out.ret = true ∧ out.code = CHANGE_TRUST_SUCCESS ∧
        out.stores =
          [StoreOp.trustDelete tl,
           StoreOp.accountChange { src with numSubEntries := src.numSubEntries - 1 }] ∧
        TrustFrame.loadTrustLine src.accountID op.line out.ledger = none ∧
        out.mSourceAccount = { src with numSubEntries := src.numSubEntries - 1 } ∧
        (∀ a, AccountFrame.loadAccount src.accountID L = some a →
          AccountFrame.loadAccount src.accountID out.ledger =
            some { src with numSubEntries := src.numSubEntries - 1 })) := by
  unfold ChangeTrustOpFrame.doApply TrustFrame.loadTrustLineIssuer
  simp only [hline]
  by_cases hs : ChangeTrustOpFrame.selfTrust lm (AccountFrame.loadAccount issuerID L)
      src.accountID = true
  · simp only [hs, if_true]
    exact ⟨_, rfl, by simp [ChangeTrustOpFrame.failed], by simp⟩
  · have hs2 : ChangeTrustOpFrame.selfTrust lm (AccountFrame.loadAccount issuerID L)
        src.accountID = false := by simpa using hs
    simp only [hs2, if_false, Bool.false_eq_true]
    cases ht : TrustFrame.loadTrustLine src.accountID op.line L with
    | none =>
      by_cases h0 : op.limit = 0
      · simp only [h0, if_true]
        exact ⟨_, rfl, by simp [ChangeTrustOpFrame.failed], by simp⟩
      · simp only [h0, if_false]
        cases hacc : AccountFrame.loadAccount issuerID L with
        | none => exact ⟨_, rfl, by simp [ChangeTrustOpFrame.failed], by simp⟩
        | some issuer =>
          cases hadd : (AccountFrame.addNumEntries lm 1 src).1 with
          | false =>
            rw [addNumEntries_of_false lm 1 src hadd]
            exact ⟨_, rfl, by simp [ChangeTrustOpFrame.failed], by simp⟩
          | true =>
            rw [addNumEntries_of_true lm 1 src hadd]
            exact ⟨_, rfl, by simp [ChangeTrustOpFrame.succeeded], by simp⟩
    | some tl =>
      have hkey := loadTrustLine_key ht
      by_cases hlt : op.limit < tl.balance
      · simp only [hlt, if_true]
        refine ⟨_, rfl, ?_, ?_⟩
        · simp only [ChangeTrustOpFrame.failed, List.not_mem_nil, exists_false, false_iff]
          rintro ⟨tl2, h2, -, h0, hb⟩
          simp only [Option.some.injEq] at h2
          subst h2
          omega
        · intro tl2 h2 _ h0 hb
          simp only [Option.some.injEq] at h2
          subst h2
          omega
      · simp only [hlt, if_false]
        by_cases h0 : op.limit = 0
        · simp only [h0, if_true, addNumEntries_remove]
          refine ⟨_, rfl, ?_, ?_⟩
          · simp only [ChangeTrustOpFrame.succeeded]
            constructor
            · intro _
              exact ⟨tl, rfl, trivial, trivial, by omega⟩
            · intro _
              exact ⟨tl, by simp⟩
          · intro tl2 h2 _ _ _
            simp only [Option.some.injEq] at h2
            subst h2
            refine ⟨rfl, rfl, rfl, ?_, rfl, ?_⟩
            · have := loadTrustLine_storeDelete_same tl L
              rw [hkey.1, hkey.2] at this
              simpa [ChangeTrustOpFrame.succeeded, runStores, StoreOp.run,
                loadTrustLine_accountStoreChange] using this
            · intro a ha
              have hd : AccountFrame.loadAccount src.accountID (TrustFrame.storeDelete tl L) =
                  some a := ha
              have := loadAccount_storeChange_same
                { src with numSubEntries := src.numSubEntries - 1 } a
                (TrustFrame.storeDelete tl L) hd
              simpa [ChangeTrustOpFrame.succeeded, runStores, StoreOp.run] using this
        · simp only [h0, if_false]
          cases hacc : AccountFrame.loadAccount issuerID L with
          | none =>
            exact ⟨_, rfl, by simp [ChangeTrustOpFrame.failed, h0], by
              intro tl2 _ _ h0'; exact h0'.elim⟩
          | some issuer =>
            exact ⟨_, rfl, by simp [ChangeTrustOpFrame.succeeded, h0], by
              intro tl2 _ _ h0'; exact h0'.elim⟩

/-- An instance: Alice closes her empty USD line with `limit = 0`. -/
theorem changeTrust_deletes_iff_witness :
    TrustFrame.loadTrustLine 1 Sample.usd Sample.ledgerAliceTrusts = some Sample.aliceLine ∧
    ∃ out, ChangeTrustOpFrame.doApply Sample.lm8 { line := Sample.usd, limit := 0 }
        Sample.aliceTrusting Sample.ledgerAliceTrusts = some out ∧
      out.ret = true ∧ out.code = CHANGE_TRUST_SUCCESS ∧
      TrustFrame.loadTrustLine 1 Sample.usd out.ledger = none ∧
      AccountFrame.loadAccount 1 out.ledger = some Sample.alice := by
  refine ⟨by decide, ?_⟩
  obtain ⟨out, h, -, hdel⟩ :=
    changeTrust_deletes_iff Sample.lm8 { line := Sample.usd, limit := 0 }
      Sample.aliceTrusting Sample.ledgerAliceTrusts 9 (by decide)
  obtain ⟨hret, hcode, -, hgone, -, hload⟩ :=
    hdel Sample.aliceLine (by decide) (by decide) (by decide) (by decide)
  exact ⟨out, h, hret, hcode, hgone, hload Sample.aliceTrusting (by decide)⟩

/-- C7: INVALID_LIMIT.  For an issued line and with the self-trust check not firing, the
apply returns INVALID_LIMIT exactly when the trustline exists and `op.limit` is below its
balance, or the trustline does not exist and `op.limit = 0`; nothing is assumed about the
issuer account, so this holds when it is absent too. -/
theorem changeTrust_invalid_limit_iff (lm : LedgerManager) (op : ChangeTrustOp)
    (src : AccountEntry) (L : Ledger) (issuerID : AccountID)
    (hline : getIssuer op.line = some issuerID)
    (hself : ChangeTrustOpFrame.selfTrust lm (AccountFrame.loadAccount issuerID L)
      src.accountID = false) :
    ∃ out, ChangeTrustOpFrame.doApply lm op src L = some out ∧
      (out.code = CHANGE_TRUST_INVALID_LIMIT ↔
        ((∃ tl, TrustFrame.loadTrustLine src.accountID op.line L = some tl ∧
            op.limit < tl.balance) ∨
         (TrustFrame.loadTrustLine src.accountID op.line L = none ∧ op.limit = 0))) := by
  unfold ChangeTrustOpFrame.doApply TrustFrame.loadTrustLineIssuer
  simp only [hline, hself, if_false, Bool.false_eq_true]
  cases ht : TrustFrame.loadTrustLine src.accountID op.line L with
  | none =>
    by_cases h0 : op.limit = 0
    · simp only [h0, if_true]
      exact ⟨_, rfl, by simp [ChangeTrustOpFrame.failed]⟩
    · simp only [h0, if_false]
      cases hacc : AccountFrame.loadAccount issuerID L with
      | none => exact ⟨_, rfl, by simp [ChangeTrustOpFrame.failed, h0]⟩
      | some issuer =>
        cases hadd : (AccountFrame.addNumEntries lm 1 src).1 with
        | false =>
          rw [addNumEntries_of_false lm 1 src hadd]
          exact ⟨_, rfl, by simp [ChangeTrustOpFrame.failed, h0]⟩
        | true =>
          rw [addNumEntries_of_true lm 1 src hadd]
          exact ⟨_, rfl, by simp [ChangeTrustOpFrame.succeeded, h0]⟩
  | some tl =>
    by_cases hlt : op.limit < tl.balance
    · simp only [hlt, if_true]
      exact ⟨_, rfl, by simp [ChangeTrustOpFrame.failed, hlt]⟩
    · simp only [hlt, if_false]
      by_cases h0 : op.limit = 0
      · simp only [h0, if_true]
        refine ⟨_, rfl, ?_⟩
        rw [h0] at hlt
        simp only [ChangeTrustOpFrame.succeeded]
        constructor
        · intro h; cases h
        · rintro (⟨tl2, h2, hb⟩ | ⟨h2, -⟩)
          · simp only [Option.some.injEq] at h2
            subst h2
            exact absurd hb hlt
          · cases h2
      · simp only [h0, if_false]
        cases hacc : AccountFrame.loadAccount issuerID L with
        | none => exact ⟨_, rfl, by simp [ChangeTrustOpFrame.failed, hlt]⟩
        | some issuer => exact ⟨_, rfl, by simp [ChangeTrustOpFrame.succeeded, hlt]⟩

/-- An instance: Bob holds 100 USD and asks for a limit of 50. -/
theorem changeTrust_invalid_limit_iff_witness :
    TrustFrame.loadTrustLine 2 Sample.usd Sample.ledger = some Sample.bobLine ∧
    ∃ out, ChangeTrustOpFrame.doApply Sample.lm8 { line := Sample.usd, limit := 50 }
        Sample.bob Sample.ledger = some out ∧ out.code = CHANGE_TRUST_INVALID_LIMIT := by
  refine ⟨by decide, ?_⟩
  obtain ⟨out, h, hiff⟩ :=
    changeTrust_invalid_limit_iff Sample.lm8 { line := Sample.usd, limit := 50 } Sample.bob
      Sample.ledger 9 (by decide) (by decide)
  exact ⟨out, h, hiff.mpr (Or.inl ⟨Sample.bobLine, by decide, by decide⟩)⟩

/-- C8: a failed ChangeTrust has written nothing.  When `doApply` returns false or leaves
a code other than SUCCESS, that code is one of SELF_NOT_ALLOWED, INVALID_LIMIT, NO_ISSUER,
LOW_RESERVE, no store operation has been performed, the ledger is the one it started from
and the source account frame is untouched. -/
theorem changeTrust_failure_stores_nothing (lm : LedgerManager) (op : ChangeTrustOp)
    (src : AccountEntry) (L : Ledger) (out : ChangeTrustApplied)
    (h : ChangeTrustOpFrame.doApply lm op src L = some out)
    (hfail : out.ret = false ∨ out.code ≠ CHANGE_TRUST_SUCCESS) :
    out.ret = false ∧
    (out.code = CHANGE_TRUST_SELF_NOT_ALLOWED ∨ out.code = CHANGE_TRUST_INVALID_LIMIT ∨
      out.code = CHANGE_TRUST_NO_ISSUER ∨ out.code = CHANGE_TRUST_LOW_RESERVE) ∧
    out.stores = [] ∧ out.ledger = L ∧ out.mSourceAccount = src := by
  rcases changeTrust_doApply_shape lm op src L out h with
    ⟨c, rfl, hc⟩ | ⟨tl, -, -, -, rfl⟩ | ⟨tl, -, -, -, rfl⟩ | ⟨i, iid, -, -, -, -, -, rfl⟩
  · exact ⟨rfl, hc, rfl, rfl, rfl⟩
  · simp [ChangeTrustOpFrame.succeeded] at hfail
  · simp [ChangeTrustOpFrame.succeeded] at hfail
  · simp [ChangeTrustOpFrame.succeeded] at hfail

/-- An instance: the INVALID_LIMIT failure of Bob's request writes nothing. -/
theorem changeTrust_failure_stores_nothing_witness :
    ∃ out, ChangeTrustOpFrame.doApply Sample.lm8 { line := Sample.usd, limit := 50 }
        Sample.bob Sample.ledger = some out ∧ out.code = CHANGE_TRUST_INVALID_LIMIT ∧
      out.stores = [] ∧ out.ledger = Sample.ledger := by
  have h : ChangeTrustOpFrame.doApply Sample.lm8 { line := Sample.usd, limit := 50 }
      Sample.bob Sample.ledger =
        some (ChangeTrustOpFrame.failed CHANGE_TRUST_INVALID_LIMIT Sample.bob
          Sample.ledger) := by decide
  obtain ⟨-, -, hstores, hledger, -⟩ :=
    changeTrust_failure_stores_nothing Sample.lm8 { line := Sample.usd, limit := 50 }
      Sample.bob Sample.ledger _ h (Or.inl rfl)
  exact ⟨_, h, rfl, hstores, hledger⟩

/-- C9: no self-trustline from ChangeTrust.  Starting from a ledger without a trustline
whose account is the issuer of its asset, any sequence of ChangeTrust applies, each at a
ledger version of at least 3 and with any operation and source account, ends in a ledger
without such a trustline. -/
theorem changeTrust_never_self_trust
    (steps : List (LedgerManager × ChangeTrustOp × AccountEntry)) (L : Ledger)
    (hv : ∀ s ∈ steps, 3 ≤ s.1.ledgerVersion) (hL : noSelfTrustLine L) :
    noSelfTrustLine (ChangeTrustOpFrame.applyAll steps L) := by
  induction steps generalizing L with
  | nil => exact hL
  | cons s rest ih =>
    obtain ⟨lm, op, src⟩ := s
    have hrest : ∀ s ∈ rest, 3 ≤ s.1.ledgerVersion := fun s hs =>
      hv s (List.mem_cons_of_mem _ hs)
    have hlm : 3 ≤ lm.ledgerVersion := hv (lm, op, src) (List.mem_cons_self _ _)
    unfold ChangeTrustOpFrame.applyAll
    cases h : ChangeTrustOpFrame.doApply lm op src L with
    | none => exact ih L hrest hL
    | some out =>
      exact ih out.ledger hrest (changeTrust_step_no_self_trust lm op src L out hlm hL h)

/-- An instance: the issuer tries to trust its own asset, Alice opens a line, Bob tries to
close a line that still holds a balance. -/
theorem changeTrust_never_self_trust_witness :
    noSelfTrustLine Sample.ledger ∧
    noSelfTrustLine (ChangeTrustOpFrame.applyAll
      [(Sample.lm8, { line := Sample.usd, limit := 1000 }, Sample.issuer),
       (Sample.lm8, { line := Sample.usd, limit := 1000 }, Sample.alice),
       (Sample.lm8, { line := Sample.usd, limit := 0 }, Sample.bob)] Sample.ledger) :=
  ⟨by decide,
    changeTrust_never_self_trust
      [(Sample.lm8, { line := Sample.usd, limit := 1000 }, Sample.issuer),
       (Sample.lm8, { line := Sample.usd, limit := 1000 }, Sample.alice),
       (Sample.lm8, { line := Sample.usd, limit := 0 }, Sample.bob)] Sample.ledger
      (by decide) (by decide)⟩

/-- C10: trustline bounds are kept.  Let every trustline satisfy `0 ≤ balance ≤ limit`.
Every operation input is either rejected by `doCheckValid` with MALFORMED (and never
applied), or passes it, and then every trustline satisfies `0 ≤ balance ≤ limit` after
`doApply`, whatever the outcome (created, limit changed, deleted, failed). -/
theorem changeTrust_keeps_bounds (lm : LedgerManager) (isAssetValid : Asset → Bool)
    (op : ChangeTrustOp) (src : AccountEntry) (L : Ledger) (hL : trustLinesBounded L) :
    ((ChangeTrustOpFrame.doCheckValid lm isAssetValid op).1 = false →
      (ChangeTrustOpFrame.doCheckValid lm isAssetValid op).2 =
        some CHANGE_TRUST_MALFORMED) ∧
    ((ChangeTrustOpFrame.doCheckValid lm isAssetValid op).1 = true →
      ∀ out, ChangeTrustOpFrame.doApply lm op src L = some out →
        trustLinesBounded out.ledger) := by
  constructor
  · intro h
    unfold ChangeTrustOpFrame.doCheckValid at h ⊢
    split
    · rfl
    · split
      · rfl
      · split
        · rfl
        · rename_i h1 h2 h3
          simp [h1, h2, h3] at h
  · intro hvalid out hout
    have hlim : 0 ≤ op.limit := by
      by_contra hneg
      have : op.limit < 0 := by omega
      simp [ChangeTrustOpFrame.doCheckValid, this] at hvalid
    exact changeTrust_doApply_keeps_bounds lm op src L out hlim hL hout

/-- An instance: Alice opens a USD line with limit 1000 on the sample ledger. -/
theorem changeTrust_keeps_bounds_witness :
    trustLinesBounded Sample.ledger ∧
    ∃ out, ChangeTrustOpFrame.doApply Sample.lm8 { line := Sample.usd, limit := 1000 }
        Sample.alice Sample.ledger = some out ∧ out.ret = true ∧
      trustLinesBounded out.ledger := by
  refine ⟨by decide, ?_⟩
  obtain ⟨out, hout⟩ := Option.isSome_iff_exists.mp
    (show (ChangeTrustOpFrame.doApply Sample.lm8 { line := Sample.usd, limit := 1000 }
      Sample.alice Sample.ledger).isSome = true by decide)
  have hret : out.ret = true := by
    have : (ChangeTrustOpFrame.doApply Sample.lm8 { line := Sample.usd, limit := 1000 }
        Sample.alice Sample.ledger).map (fun o => o.ret) = some true := by decide
    rw [hout] at this
    simpa using this
  exact ⟨out, hout, hret,
    (changeTrust_keeps_bounds Sample.lm8 (fun _ => true) { line := Sample.usd, limit := 1000 }
      Sample.alice Sample.ledger (by decide)).2 (by decide) out hout⟩

/-- C16: validation of ChangeTrust.  For every operation and ledger version
`doCheckValid` returns false exactly when `limit < 0`, or the line is not a valid asset, or
the ledger version is above 9 and the line is the native asset; whenever it returns false
the result code is MALFORMED; hence from version 10 on no ChangeTrust over the native asset
passes it. -/
theorem changeTrust_doCheckValid_iff (lm : LedgerManager) (isAssetValid : Asset → Bool)
    (op : ChangeTrustOp) :
    ((ChangeTrustOpFrame.doCheckValid lm isAssetValid op).1 = false ↔
      (op.limit < 0 ∨ isAssetValid op.line = false ∨
        (lm.ledgerVersion > 9 ∧ op.line = Asset.native))) ∧
    ((ChangeTrustOpFrame.doCheckValid lm isAssetValid op).1 = false →
      (ChangeTrustOpFrame.doCheckValid lm isAssetValid op).2 =
        some CHANGE_TRUST_MALFORMED) ∧
    (10 ≤ lm.ledgerVersion → op.line = Asset.native →
      (ChangeTrustOpFrame.doCheckValid lm isAssetValid op).1 = false) := by
  unfold ChangeTrustOpFrame.doCheckValid
  by_cases h1 : op.limit < 0
  · simp [h1]
  · by_cases h2 : isAssetValid op.line = true
    · by_cases h3 : lm.ledgerVersion > 9 ∧ op.line = Asset.native
      · simp [h1, h2, h3]
      · simp only [h1, h2, h3, if_false, Bool.not_true, Bool.false_eq_true, false_or,
          or_false, Bool.true_eq_false, iff_self, false_implies, true_and]
        intro hv hn
        exact h3 ⟨by omega, hn⟩
    · have h2f : isAssetValid op.line = false := by simpa using h2
      simp [h1, h2f]

/-- An instance: at version 10 a native line is rejected as MALFORMED. -/
theorem changeTrust_doCheckValid_iff_witness :
    ChangeTrustOpFrame.doCheckValid { ledgerVersion := 10, baseReserve := 10 }
      (fun _ => true) { line := Asset.native, limit := 5 } =
        (false, some CHANGE_TRUST_MALFORMED) := by
  have h := changeTrust_doCheckValid_iff { ledgerVersion := 10, baseReserve := 10 }
    (fun _ => true) { line := Asset.native, limit := 5 }
  have h1 := h.2.2 (by decide) rfl
  exact Prod.ext h1 (h.2.1 h1)

end stellar
